import Mathlib

/-!
# Decode sessions of the MIDI and XSF input plugins

A shallow embedding of `src/midiplugin/midiinput.cpp` and `src/xsf/xsfinput.cpp`.
Member fields of type `long` are integers; the external synthesis engines are
abstract state machines handed to the decoders as records of operations.
All definitions come first, the theorems follow.
-/

namespace Fooyin

/-! ## Machine integers -/

/-- Largest `unsigned long`, the value of `~0UL`. -/
def ULONG_MAX : Nat := 2 ^ 64 - 1

/-- Two's complement value of a 64-bit pattern read as `long`. -/
def toLong (x : Int) : Int := (x + 2 ^ 63) % 2 ^ 64 - 2 ^ 63

/-- Value of a `long` converted to `unsigned long` / `uint64_t`. -/
def toULong (x : Int) : Nat := (x % 2 ^ 64).toNat

/-! ## Host library: the audio format -/

/-- The fields of the host `AudioFormat` that the decoders rely on. -/
structure AudioFormat where
  sampleRate : Nat
  channelCount : Nat
  bytesPerSample : Nat
deriving DecidableEq, Repr

/-- Modelled from the spec: `AudioFormat::framesForDuration` belongs to the host
player library and is not under `src/`; the spec's `frames_for` converts a
duration in milliseconds to frames at the sample rate (1000 ms at 44100 Hz are
44100 frames), rounding down. -/
def AudioFormat.framesForDuration (fmt : AudioFormat) (ms : Nat) : Nat :=
  ms * fmt.sampleRate / 1000

/-- Modelled from the spec: `AudioFormat::durationForFrames` of the host
library, the milliseconds covered by a number of frames, rounding down. -/
def AudioFormat.durationForFrames (fmt : AudioFormat) (frames : Nat) : Nat :=
  if fmt.sampleRate = 0 then 0 else 1000 * frames / fmt.sampleRate

/-- Modelled from the spec: `AudioFormat::bytesPerFrame` of the host library. -/
def AudioFormat.bytesPerFrame (fmt : AudioFormat) : Nat :=
  fmt.channelCount * fmt.bytesPerSample

/-- Modelled from the spec: `AudioFormat::framesForBytes` of the host library,
the whole frames held by a byte count. -/
def AudioFormat.framesForBytes (fmt : AudioFormat) (bytes : Nat) : Nat :=
  if fmt.bytesPerFrame = 0 then 0 else bytes / fmt.bytesPerFrame

/-- The decoder options `NoLooping` and `NoInfiniteLooping` of the host. -/
structure DecoderOptions where
  noLooping : Bool
  noInfiniteLooping : Bool
deriving DecidableEq, Repr

/-! ## Sample buffers -/

/-- Overwrite `buf` from sample index `off` with `data`, staying inside `buf`. -/
def writeAt {α : Type} : List α → Nat → List α → List α
  | [], _, _ => []
  | b :: bs, 0, [] => b :: bs
  | _ :: bs, 0, d :: ds => d :: writeAt bs 0 ds
  | b :: bs, off + 1, data => b :: writeAt bs off data

/-- Apply `f` to the sample at index `i`, as `buff[i] = f(buff[i])`. -/
def modifyAt {α : Type} (f : α → α) : List α → Nat → List α
  | [], _ => []
  | b :: bs, 0 => f b :: bs
  | b :: bs, i + 1 => b :: modifyAt f bs i

/-- The statement `memset(buf + off, 0, count)` over samples. -/
def zeroFrom {α : Type} (zero : α) : List α → Nat → Nat → List α
  | [], _, _ => []
  | b :: bs, 0, 0 => b :: bs
  | _ :: bs, 0, n + 1 => zero :: zeroFrom zero bs 0 n
  | b :: bs, off + 1, n => b :: zeroFrom zero bs off n

/-- The fade loop shared verbatim by `XSFDecoder::readBuffer` and
`MIDIDecoder::readBuffer`:
`for(fadePos = fadeStart; fadePos < fadeEnd; ++fadePos)` with the running
sample pointer `buff` (an index into the interleaved samples), the gain
`fadeScale` and its increment `fadeStep`; `n` counts the remaining
iterations `fadeEnd - fadePos`. The gain is an exact rational, `mul` is the
sample type's `*=`. -/
def fadeLoop {α : Type} (mul : α → ℚ → α) :
    Nat → List α → Nat → ℚ → ℚ → List α
  | 0, buf, _, _, _ => buf
  | n + 1, buf, buff, fadeScale, fadeStep =>
    let buf1 := modifyAt (fun x => mul x fadeScale) buf buff
    let buf2 := modifyAt (fun x => mul x fadeScale) buf1 (buff + 1)
    let fadeScale1 := fadeScale + fadeStep
    if fadeScale1 < 0 then fadeLoop mul n buf2 (buff + 2) 0 0
    else fadeLoop mul n buf2 (buff + 2) fadeScale1 fadeStep

/-- The fade block of both `readBuffer`s, entered when `framesFade` is not
zero: it derives `fadeStart`, `fadeEnd`, the start pointer
`buff = data + fadeStart - framesRead` (counted in samples, as the pointer
has the sample type) and the initial gain, then runs the loop. -/
def applyFade {α : Type} (mul : α → ℚ → α) (buf : List α)
    (framesRead framesWritten framesLength framesFade totalFrames : Int) : List α :=
  let fadeStart := if framesLength > framesRead then framesLength else framesRead
  let fadeEnd :=
    if framesRead + framesWritten > totalFrames then totalFrames
    else framesRead + framesWritten
  let buff := (fadeStart - framesRead).toNat
  let fadeScale : ℚ := ((framesFade - (fadeStart - framesLength) : Int) : ℚ) / (framesFade : ℚ)
  let fadeStep : ℚ := 1 / (framesFade : ℚ)
  fadeLoop mul (fadeEnd - fadeStart).toNat buf buff fadeScale fadeStep

/-- The samples of frame `i` of an interleaved stereo buffer. -/
def frameAt {α : Type} (buf : List α) (i : Nat) : List α :=
  (buf.drop (2 * i)).take 2

/-! ## The MIDI decoder (`src/midiplugin/midiinput.cpp`) -/

namespace MIDIInput

/-- Frames rendered per `Play` call, `BufferLen`. -/
def BufferLen : Nat := 1024

/-- The format fixed by the constructor `MIDIDecoder::MIDIDecoder`: 32-bit
float samples, `SampleRate = 44100`, two channels. -/
def m_format : AudioFormat := ⟨44100, 2, 4⟩

/-- The stored settings read by the decoder, with the defaults of
`midiinputdefs.h` (a header that is not under `src/`) as fields. -/
structure Settings where
  loopCountSetting : Option Int
  fadeLengthSetting : Option Int
  DefaultLoopCount : Int
  DefaultFadeLength : Int
deriving DecidableEq, Repr

/-- What the parsed `midi_container` reports after `scan_for_loops`:
`get_timestamp_end(0)`, and, in milliseconds, `get_timestamp_end(0, true)`,
`get_timestamp_loop_start(0, true)` and `get_timestamp_loop_end(0, true)`,
each an `unsigned long` with `~0UL` for an unknown loop point. -/
structure MidiContainer where
  timestampEnd : Nat
  timestampEndMs : Nat
  loopStartMs : Nat
  loopEndMs : Nat
deriving DecidableEq, Repr

/-- The operations of the external player engine (`BMPlayer` behind
`MIDIPlayer`) on its state `P`; samples are exact rationals in place of
`float`, two per frame. -/
structure PlayerOps (P : Type) where
  create : P
  load : P → MidiContainer → Bool → P × Bool
  setLoopMode : P → Bool → P
  reset : P → P
  seek : P → Int → P
  tell : P → Nat
  play : P → Nat → P × List ℚ

/-- The member fields of `MIDIDecoder`; a null pointer is `none`. -/
structure MIDIDecoder (P : Type) where
  m_midiFile : Option MidiContainer
  m_midiPlayer : Option P
  repeatOne : Bool
  totalFrames : Int
  framesLength : Int
  framesFade : Int
  framesRead : Int
  loopStart : Int
  loopEnd : Int

/-- The effective loop count of `MIDIDecoder::init`, lines 103-109. -/
def effectiveLoopCount (st : Settings) (options : DecoderOptions) : Int :=
  let loopCount := st.loopCountSetting.getD st.DefaultLoopCount
  let loopCount := if options.noLooping then 1 else loopCount
  if options.noInfiniteLooping && decide (loopCount = 0) then st.DefaultLoopCount
  else loopCount

/-- The timeline quantities computed by lines 131-154 of
`MIDIDecoder::init`. -/
structure Timeline where
  loopStart : Int
  loopEnd : Int
  framesLength : Int
  framesFade : Int
  totalFrames : Int
  isLooped : Bool
deriving DecidableEq, Repr

/-- Lines 131-154 of `MIDIDecoder::init`: the loop points in milliseconds
with the unknown sentinel replaced, the loop test, the length and fade in
milliseconds, their conversion to frames and the total. -/
def loopTimeline (st : Settings) (file : MidiContainer) (loopCount : Int) : Timeline :=
  let framesLength := toLong file.timestampEndMs
  let loopStart := toLong file.loopStartMs
  let loopEnd := toLong file.loopEndMs
  let loopStart := if toULong loopStart = ULONG_MAX then 0 else loopStart
  let loopEnd := if toULong loopEnd = ULONG_MAX then framesLength else loopEnd
  let isLooped : Bool := decide (loopStart ≠ 0 ∨ loopEnd ≠ framesLength)
  let framesFade : Int :=
    if isLooped then st.fadeLengthSetting.getD st.DefaultFadeLength else 0
  let framesLength : Int :=
    if isLooped then toLong (loopStart + (loopEnd - loopStart) * loopCount)
    else toLong (framesLength + 1000)
  let framesLength : Int := m_format.framesForDuration (toULong framesLength)
  let framesFade : Int := m_format.framesForDuration (toULong framesFade)
  ⟨loopStart, loopEnd, framesLength, framesFade, toLong (framesLength + framesFade),
    isLooped⟩

/-- The function `MIDIDecoder::init`: `data` is what the source device
returns, `parsed` the outcome of `midi_processor::process_file` on it. The
result pairs the decoder with the returned format, `none` for `return {}`.
When `process_file` fails the container made by `new midi_container` stays
behind `m_midiFile`; its content is not read again and is taken as empty. -/
def MIDIDecoder.init {P : Type} (ops : PlayerOps P) (st : Settings)
    (d : MIDIDecoder P) (data : List Nat) (parsed : Option MidiContainer)
    (options : DecoderOptions) : MIDIDecoder P × Option AudioFormat :=
  let d := { d with m_midiPlayer := some ops.create }
  let loopCount := effectiveLoopCount st options
  let d := { d with repeatOne := decide (loopCount = 0) }
  if data.isEmpty then (d, none) else
  match parsed with
  | none => ({ d with m_midiFile := some ⟨0, 0, 0, 0⟩ }, none)
  | some file =>
    let d := { d with m_midiFile := some file }
    if file.timestampEnd = 0 then (d, none) else
    let t := loopTimeline st file loopCount
    let d := { d with loopStart := t.loopStart, loopEnd := t.loopEnd,
                      framesLength := t.framesLength, framesFade := t.framesFade,
                      totalFrames := t.totalFrames }
    let loaded := ops.load ops.create file (decide (t.framesFade ≠ 0))
    let d := { d with m_midiPlayer := some loaded.1 }
    if !loaded.2 then (d, none) else
    let d := { d with
      m_midiPlayer := some (ops.setLoopMode loaded.1 (d.repeatOne || t.isLooped)) }
    (d, some m_format)

/-- The function `MIDIDecoder::seek`; the player pointer is dereferenced
unchecked, a null player is left as it is here. -/
def MIDIDecoder.seek {P : Type} (ops : PlayerOps P) (d : MIDIDecoder P)
    (pos : Nat) : MIDIDecoder P :=
  let framesRead : Int := m_format.framesForDuration pos
  { d with framesRead := framesRead,
           m_midiPlayer := d.m_midiPlayer.map (fun p => ops.seek p framesRead) }

/-- The render loop of `MIDIDecoder::readBuffer`, lines 208-214:
`while(framesWritten < frames)` calling `Play` for at most `BufferLen`
frames; `fuel` bounds the iterations and `frames` of it always suffice,
since every iteration adds at least one frame. -/
def MIDIDecoder.playLoop {P : Type} (ops : PlayerOps P) (frames : Nat) :
    Nat → P → List ℚ → Nat → P × List ℚ × Nat
  | 0, p, buf, framesWritten => (p, buf, framesWritten)
  | fuel + 1, p, buf, framesWritten =>
    if framesWritten < frames then
      let framesToWrite := min (frames - framesWritten) BufferLen
      let r := ops.play p framesToWrite
      let buf := writeAt buf (2 * framesWritten) (r.2.take (2 * framesToWrite))
      MIDIDecoder.playLoop ops frames fuel r.1 buf (framesWritten + framesToWrite)
    else (p, buf, framesWritten)

/-- The function `MIDIDecoder::readBuffer`: the decoder after the call and
the returned samples, the empty list for `return {}`. The buffer holds the
whole frames of `bytes`, zero before rendering; its start time stamp is left
out. The player pointer is dereferenced unchecked, a null player ends the call
here with an empty buffer. -/
def MIDIDecoder.readBuffer {P : Type} (ops : PlayerOps P) (d : MIDIDecoder P)
    (bytes : Nat) : MIDIDecoder P × List ℚ :=
  if !d.repeatOne && decide (d.framesRead ≥ d.totalFrames) then (d, []) else
  match d.m_midiPlayer with
  | none => (d, [])
  | some p =>
    let frames := m_format.framesForBytes bytes
    let buffer : List ℚ := List.replicate (2 * frames) 0
    let r := MIDIDecoder.playLoop ops frames frames p buffer 0
    let buffer := r.2.1
    let framesWritten : Int := r.2.2
    let d := { d with m_midiPlayer := some r.1 }
    if !d.repeatOne && decide (framesWritten + d.framesRead > d.framesLength) then
      if d.framesFade ≠ (0 : Int) then
        let buffer := applyFade (fun (x : ℚ) (g : ℚ) => x * g) buffer d.framesRead
          framesWritten d.framesLength d.framesFade d.totalFrames
        let framesWritten :=
          if d.framesRead + framesWritten > d.totalFrames then
            d.totalFrames - d.framesRead
          else framesWritten
        ({ d with framesRead := d.framesRead + framesWritten }, buffer)
      else ({ d with framesRead := d.framesRead + framesWritten }, buffer)
    else ({ d with framesRead := d.framesRead + framesWritten }, buffer)

end MIDIInput

/-! ## The XSF decoder (`src/xsf/xsfinput.cpp`) -/

namespace XSFInput

/-- Frames rendered per `emu_render` call, `BufferLen`. -/
def BufferLen : Nat := 2048

/-- The function `get_srate`. -/
def get_srate (version : Int) : Int :=
  if version = 1 ∨ version = 0x11 ∨ version = 0x12 ∨ version = 0x21 ∨
      version = 0x22 ∨ version = 0x24 ∨ version = 0x25 then 44100
  else if version = 2 then 48000
  else if version = 0x41 then 24038
  else -1

/-- What one call into an emulation core leaves behind: the core's state, the
in/out frame count, the error code and the samples it wrote (two 16-bit
samples per frame). -/
structure Rendered (E : Type) where
  emu : E
  count : Nat
  err : Int
  samples : List Int

/-- The external emulation cores, on a state `E` that stands for `m_emulator`
together with `m_emulatorExtra`: `emu_init` is the state built from the file
at `m_path` for a version tag, with the return code of `XSFDecoder::emu_init`,
and `execute` is the core call selected by the `switch` of `emu_render`
(`psx_execute`, `sega_execute`, `usf_render_resampled`, ...). -/
structure EmuOps (E : Type) where
  emu_init : Int → E × Int
  execute : Int → E → Nat → Rendered E

/-- The member fields of `XSFDecoder`. -/
structure XSFDecoder (E : Type) where
  m_format : AudioFormat
  m_version : Int
  emu : E
  totalFrames : Int
  framesLength : Int
  framesFade : Int
  framesRead : Int

/-- The `switch` of `XSFDecoder::emu_render`: the core of the version is
called for the nine known tags, no case matches any other tag. -/
def emu_switch {E : Type} (ops : EmuOps E) (version : Int) (emu : E)
    (count : Nat) : Rendered E :=
  if version = 1 ∨ version = 2 ∨ version = 0x11 ∨ version = 0x12 ∨
      version = 0x21 ∨ version = 0x22 ∨ version = 0x24 ∨ version = 0x25 ∨
      version = 0x41 then ops.execute version emu count
  else ⟨emu, count, 0, []⟩

/-- The function `XSFDecoder::emu_render`: the `switch` over `m_version`,
then a zero frame count turns into the error `-1`. -/
def emu_render {E : Type} (ops : EmuOps E) (version : Int) (emu : E)
    (count : Nat) : Rendered E :=
  let r := emu_switch ops version emu count
  if r.count = 0 then { r with err := -1 } else r

/-- The function `XSFDecoder::start`. -/
def XSFDecoder.start {E : Type} (ops : EmuOps E) (d : XSFDecoder E) : XSFDecoder E :=
  { d with emu := (ops.emu_init d.m_version).1, framesRead := 0 }

/-- The catch-up loop of `XSFDecoder::seek`,
`while(framesRead < framesTarget)`, rendering into a null buffer; `fuel`
bounds the iterations, and `framesTarget - framesRead` of it always suffice
since every iteration that does not `break` adds at least one frame. -/
def XSFDecoder.seekLoop {E : Type} (ops : EmuOps E) (framesTarget : Nat) :
    Nat → XSFDecoder E → XSFDecoder E
  | 0, d => d
  | fuel + 1, d =>
    if toULong d.framesRead < framesTarget then
      let toSkip :=
        if BufferLen > framesTarget - toULong d.framesRead then
          framesTarget - toULong d.framesRead
        else BufferLen
      let r := emu_render ops d.m_version d.emu toSkip
      if r.err < 0 then { d with emu := r.emu }
      else XSFDecoder.seekLoop ops framesTarget fuel
        { d with emu := r.emu, framesRead := d.framesRead + r.count }
    else d

/-- The function `XSFDecoder::seek`. -/
def XSFDecoder.seek {E : Type} (ops : EmuOps E) (d : XSFDecoder E)
    (pos : Nat) : XSFDecoder E :=
  let framesTarget := d.m_format.framesForDuration pos
  let d := if framesTarget < toULong d.framesRead then XSFDecoder.start ops d else d
  XSFDecoder.seekLoop ops framesTarget (framesTarget - toULong d.framesRead) d

/-- The render loop of `XSFDecoder::readBuffer`, lines 1473-1483; the result
is `none` when an `emu_render` call fails (`return {}`), and carries the
emulator state in either case. -/
def XSFDecoder.renderLoop {E : Type} (ops : EmuOps E) (version : Int) (frames : Nat) :
    Nat → E → List Int → Nat → E × Option (List Int × Nat)
  | 0, emu, buf, framesWritten => (emu, some (buf, framesWritten))
  | fuel + 1, emu, buf, framesWritten =>
    if framesWritten < frames then
      let framesToWrite := min (frames - framesWritten) BufferLen
      let r := emu_render ops version emu framesToWrite
      if r.err < 0 then (r.emu, none)
      else
        let buf := writeAt buf (2 * framesWritten) (r.samples.take (2 * framesToWrite))
        XSFDecoder.renderLoop ops version frames fuel r.emu buf (framesWritten + r.count)
    else (emu, some (buf, framesWritten))

/-- The statement `buff[i] *= fadeScale` on a 16-bit sample: the product is
converted back to an integer by truncation toward zero. -/
def mulS16 (x : Int) (g : ℚ) : Int :=
  let q : ℚ := (x : ℚ) * g
  if 0 ≤ q then ⌊q⌋ else -⌊-q⌋

/-- The function `XSFDecoder::readBuffer`: the decoder after the call and
the returned samples, the empty list for `return {}`. The buffer holds the
whole frames of `bytes`, zero before rendering; its start time stamp is left
out. -/
def XSFDecoder.readBuffer {E : Type} (ops : EmuOps E) (d : XSFDecoder E)
    (bytes : Nat) : XSFDecoder E × List Int :=
  if d.framesRead ≥ d.totalFrames then (d, []) else
  let frames := d.m_format.framesForBytes bytes
  let buffer : List Int := List.replicate (2 * frames) 0
  match XSFDecoder.renderLoop ops d.m_version frames frames d.emu buffer 0 with
  | (emu, none) => ({ d with emu := emu }, [])
  | (emu, some (buffer, written)) =>
    let framesWritten : Int := written
    let d := { d with emu := emu }
    let buffer :=
      if framesWritten + d.framesRead > d.framesLength then
        let buffer :=
          if d.framesFade ≠ (0 : Int) then
            applyFade mulS16 buffer d.framesRead framesWritten d.framesLength
              d.framesFade d.totalFrames
          else buffer
        if d.framesRead + framesWritten > d.totalFrames then
          let newFramesWritten := toULong (d.totalFrames - d.framesRead)
          zeroFrom 0 buffer (2 * newFramesWritten) (2 * (written - newFramesWritten))
        else buffer
      else buffer
    ({ d with framesRead := d.framesRead + framesWritten }, buffer)

/-! ### Duration strings -/

/-- The sentinel `BORK_TIME`. -/
def BORK_TIME : Nat := 0xC0CAC01A

/-- A finite non-negative `double`, held exactly as the fraction
`num / den`. -/
structure Dbl where
  num : Nat
  den : Nat
deriving DecidableEq, Repr

/-- Number of binary digits of `n`; `fuel = n` always suffices. -/
def bitLen : Nat → Nat → Nat
  | 0, _ => 0
  | fuel + 1, n => if n = 0 then 0 else bitLen fuel (n / 2) + 1

/-- The fraction `n / d` scaled by `2 ^ k` for an integer `k`. -/
def scalePow2 (n d : Nat) (k : Int) : Nat × Nat :=
  if 0 ≤ k then (n * 2 ^ k.toNat, d) else (n, d * 2 ^ (-k).toNat)

/-- The `double` nearest to `n / d`: the quotient is scaled to a 53-bit
significand and rounded to nearest, ties to even (IEEE 754 binary64, the
default rounding mode). The exponent range is not bounded here; the parser
only tells values below 60 from the others and multiplies them by 1000, for
which overflow to infinity and underflow give the same answers. -/
def roundDouble (n d : Nat) : Dbl :=
  if n = 0 ∨ d = 0 then ⟨0, 1⟩ else
  let k0 : Int := 53 + (bitLen d d : Int) - (bitLen n n : Int)
  let s0 := scalePow2 n d k0
  let k : Int := if s0.2 * 2 ^ 53 ≤ s0.1 then k0 - 1 else k0
  let s := scalePow2 n d k
  let q := s.1 / s.2
  let r := s.1 % s.2
  let m := if s.2 < 2 * r ∨ (2 * r = s.2 ∧ q % 2 = 1) then q + 1 else q
  if 0 ≤ k then ⟨m, 2 ^ k.toNat⟩ else ⟨m * 2 ^ (-k).toNat, 1⟩

/-- The `double` product `a * b`. -/
def Dbl.mul (a b : Dbl) : Dbl := roundDouble (a.num * b.num) (a.den * b.den)

/-- The conversion `(long) a` of a non-negative `double`: truncation. -/
def Dbl.trunc (a : Dbl) : Nat := a.num / a.den

/-- The comparison `a >= 60.0`. -/
def Dbl.ge60 (a : Dbl) : Bool := decide (60 * a.den ≤ a.num)

/-- The test `c >= '0' && c <= '9'`. -/
def isDigit (c : Char) : Bool := decide (48 ≤ c.toNat ∧ c.toNat ≤ 57)

/-- The value of a decimal digit. -/
def digitVal (c : Char) : Nat := c.toNat - 48

/-- The number written by a string of decimal digits. -/
def natVal (ds : List Char) : Nat := ds.foldl (fun a c => 10 * a + digitVal c) 0

/-- The characters of a C string: those before the first NUL. -/
def cstr (s : List Char) : List Char := s.takeWhile (fun c => decide (c ≠ Char.ofNat 0))

/-- The library call `strtod(p, &end)` in the "C" locale on the text the
parser hands it (digits, at most one separator, colons): the digits, a
fraction after a decimal point, correctly rounded; `0.0` when there is no
digit at all. -/
def strtod (p : List Char) : Dbl :=
  let ip := p.takeWhile isDigit
  let fp : List Char :=
    match p.dropWhile isDigit with
    | c :: t => if c = '.' then t.takeWhile isDigit else []
    | [] => []
  if ip = [] ∧ fp = [] then ⟨0, 1⟩
  else roundDouble (natVal (ip ++ fp)) (10 ^ fp.length)

/-- The library call `strtoul(p, &end, 10)` on the text the parser hands it:
the leading digits, saturating at `ULONG_MAX`, `0` when there is none. -/
def strtoul (p : List Char) : Nat := min (natVal (p.takeWhile isDigit)) ULONG_MAX

/-- The first loop of `parse_time_crap`: skip digits and colons, counting the
colons; returns the text left at `ptr` and `colon_count`. -/
def scanTimeChars : List Char → Nat → List Char × Nat
  | [], colon_count => ([], colon_count)
  | c :: cs, colon_count =>
    if isDigit c || decide (c = ':') then
      scanTimeChars cs (colon_count + if c = ':' then 1 else 0)
    else (c :: cs, colon_count)

/-- The library call `strrchr(input, c)` as an index, `none` for a null
result. -/
def strrchr (c : Char) : List Char → Option Nat
  | [] => none
  | x :: xs =>
    match strrchr c xs with
    | some i => some (i + 1)
    | none => if x = c then some 0 else none

/-- The loop `while (ptr > input && *ptr != ':') --ptr;` on the index `ptr`. -/
def backToColon (input : List Char) : Nat → Nat
  | 0 => 0
  | ptr + 1 => if input.getD (ptr + 1) (Char.ofNat 0) ≠ ':' then backToColon input ptr
               else ptr + 1

/-- The field conversion inside the `for (;;)` loop of `parse_time_crap`:
the new `value`, or `none` for `return BORK_TIME`. -/
def timeField (field : List Char) (multiplier value : Nat) : Option Nat :=
  if multiplier = 1000 then
    let temp := strtod field
    if temp.ge60 then none else some (temp.mul ⟨1000, 1⟩).trunc
  else
    let temp := strtoul field
    if 60 ≤ temp ∧ multiplier < 3600000 then none
    else some ((value + temp * multiplier) % 2 ^ 64)

/-- The `for (;;)` loop of `parse_time_crap` on the index `ptr`; `fuel`
bounds the iterations, `ptr + 1` of it always suffice as `ptr` decreases. -/
def timeLoop (input : List Char) : Nat → Nat → Nat → Nat → Nat
  | 0, _, _, value => value
  | fuel + 1, ptr, multiplier, value =>
    let ptr := if ptr ≠ 0 then ptr + 1 else ptr
    match timeField (input.drop ptr) multiplier value with
    | none => BORK_TIME
    | some value =>
      if ptr = 0 then value
      else timeLoop input fuel (backToColon input (ptr - 2)) (multiplier * 60 % 2 ^ 64) value

/-- The function `parse_time_crap`. -/
def parse_time_crap (s : List Char) : Nat :=
  let input := cstr s
  let scanned := scanTimeChars input 0
  if 2 < scanned.2 then BORK_TIME else
  let malformed : Bool :=
    match scanned.1 with
    | [] => false
    | c :: rest =>
      (decide (c ≠ '.') && decide (c ≠ ',')) || !(rest.dropWhile isDigit).isEmpty
  if malformed then BORK_TIME else
  timeLoop input (input.length + 1) ((strrchr ':' input).getD 0) 1000 0

end XSFInput

end Fooyin

/-! ## Auxiliary definitions for the statements -/

namespace Fooyin.MIDIInput

/-- The loop start of `MIDIDecoder::init` after line 136 replaced the unknown
sentinel, in milliseconds. -/
def MidiContainer.knownLoopStart (f : MidiContainer) : Nat :=
  if f.loopStartMs = ULONG_MAX then 0 else f.loopStartMs

/-- The loop end of `MIDIDecoder::init` after line 137 replaced the unknown
sentinel, in milliseconds. -/
def MidiContainer.knownLoopEnd (f : MidiContainer) : Nat :=
  if f.loopEndMs = ULONG_MAX then f.timestampEndMs else f.loopEndMs

/-- The loop test of line 140. -/
def MidiContainer.loopDetected (f : MidiContainer) : Prop :=
  f.knownLoopStart ≠ 0 ∨ f.knownLoopEnd ≠ f.timestampEndMs

instance (f : MidiContainer) : Decidable f.loopDetected := by
  unfold MidiContainer.loopDetected
  infer_instance

/-- The fade length setting read at line 142, in milliseconds. -/
def Settings.fadeLength (st : Settings) : Int :=
  st.fadeLengthSetting.getD st.DefaultFadeLength

/-- A decoder as the constructor leaves it: both pointers null. -/
def MIDIDecoder.fresh (P : Type) : MIDIDecoder P :=
  ⟨none, none, false, 0, 0, 0, 0, 0, 0⟩

/-- A player engine without state that renders the constant sample `1`. -/
def onesPlayer : PlayerOps Unit where
  create := ()
  load := fun _ _ _ => ((), true)
  setLoopMode := fun _ _ => ()
  reset := fun _ => ()
  seek := fun _ _ => ()
  tell := fun _ => 0
  play := fun _ n => ((), List.replicate (2 * n) 1)

/-- The looped scenario: loop points at 1000 ms and 5000 ms of a 6000 ms
track, a configured loop count of 2 and a fade length of 1000 ms, through
`MIDIDecoder::init`. -/
def loopedScenario : MIDIDecoder Unit :=
  (MIDIDecoder.init onesPlayer ⟨some 2, some 1000, 2, 10000⟩ (MIDIDecoder.fresh Unit) [77]
    (some ⟨480, 6000, 1000, 5000⟩) ⟨false, false⟩).1

/-- A decoder in the middle of playback over a player with state `p`, with the
timeline `framesLength`, `framesFade` and
`totalFrames = framesLength + framesFade`, at position `framesRead`. -/
def MIDIDecoder.playing {P : Type} (p : P) (repeatOne : Bool)
    (framesRead framesLength framesFade : Int) : MIDIDecoder P :=
  ⟨none, some p, repeatOne, framesLength + framesFade, framesLength, framesFade,
    framesRead, 0, 0⟩

end Fooyin.MIDIInput

namespace Fooyin.XSFInput

/-- The format of an XSF session at 44100 Hz: 16-bit samples, two channels. -/
def sessionFormat : AudioFormat := ⟨44100, 2, 2⟩

/-- An emulation core without state that renders every requested frame with
the constant sample `1000`. -/
def constEmu : EmuOps Unit where
  emu_init := fun _ => ((), 0)
  execute := fun _ _ n => ⟨(), n, 0, List.replicate (2 * n) 1000⟩

/-- A session in the middle of playback over the core state `emu`, with the
timeline `framesLength`, `framesFade` and
`totalFrames = framesLength + framesFade`, at position `framesRead`. -/
def XSFDecoder.playing {E : Type} (emu : E) (framesRead framesLength framesFade : Int) :
    XSFDecoder E :=
  ⟨sessionFormat, 1, emu, framesLength + framesFade, framesLength, framesFade, framesRead⟩

/-- A core for a track of `len` frames, its state the number of frames
executed so far: a call renders the frames left up to the requested count and
reports an error when the request reaches beyond the end of the track. -/
def finiteEmu (len : Nat) : EmuOps Nat where
  emu_init := fun _ => (0, 0)
  execute := fun _ e n =>
    ⟨e + min n (len - e), min n (len - e), if len < e + n then -1 else 0,
      List.replicate (2 * min n (len - e)) 1000⟩

/-- Every `emu_render` call for the version succeeds and reports no more
frames than were requested. -/
def RendersAll {E : Type} (ops : EmuOps E) (version : Int) : Prop :=
  ∀ (e : E) (n : Nat), 0 < n →
    0 ≤ (emu_render ops version e n).err ∧ (emu_render ops version e n).count ≤ n

/-- A session over the 50-frame core with a long timeline, before `start`. -/
def shortTrack : XSFDecoder Nat := XSFDecoder.playing 0 0 1000000 0

/-- Every character of the string is a decimal digit. -/
def AllDigits (ds : List Char) : Prop := ∀ c ∈ ds, isDigit c = true

instance (ds : List Char) : Decidable (AllDigits ds) := by
  unfold AllDigits
  infer_instance

/-- The shape the character checks of `parse_time_crap` let through: a run of
digits and colons with at most two colons, then nothing or one separator
`.` or `,` followed by digits only. -/
def WellShaped (s : List Char) : Prop :=
  ∃ a f : List Char, (∀ c ∈ a, isDigit c = true ∨ c = ':') ∧ a.count ':' ≤ 2 ∧
    AllDigits f ∧ (s = a ∨ s = a ++ '.' :: f ∨ s = a ++ ',' :: f)

/-- The optional fraction `[.fff]` of a duration string: nothing, or a decimal
point followed by digits. -/
def IsFraction (frac : List Char) : Prop :=
  frac = [] ∨ ∃ ff : List Char, frac = '.' :: ff ∧ AllDigits ff

/-- The seconds field as `parse_time_crap` converts it,
`(long)(strtod(ptr, &end) * 1000.0f)`: the `double` nearest to the decimal,
times 1000 in `double` arithmetic, truncated. -/
def secondsMillis (sec : List Char) : Nat := ((strtod sec).mul ⟨1000, 1⟩).trunc

end Fooyin.XSFInput

namespace Fooyin.MIDIInput

/-- The full-track loop scenario: loop points reported at 0 ms and at the
natural end of 6000 ms, a configured loop count of 1 and a fade length of
1000 ms, through `MIDIDecoder::init`. -/
def fullLoopScenario : MIDIDecoder Unit :=
  (MIDIDecoder.init onesPlayer ⟨some 1, some 1000, 2, 10000⟩ (MIDIDecoder.fresh Unit) [77]
    (some ⟨480, 6000, 0, 6000⟩) ⟨false, false⟩).1

end Fooyin.MIDIInput

/-! ## Session life cycle: `stop`, `start` and backend construction -/

namespace Fooyin.MIDIInput

/-- The members of `MIDIDecoder` whose object `stop` releases with `delete`.
The member `bmplayer` is a second pointer to the player object, written by
`init` and read nowhere else; it is not part of the model. -/
inductive Handle where
  | midiPlayer
  | midiFile
deriving DecidableEq, Repr

/-- The function `MIDIDecoder::stop`: the decoder afterwards and the members
whose object was deleted, in order. -/
def MIDIDecoder.stop {P : Type} (d : MIDIDecoder P) : MIDIDecoder P × List Handle :=
  let deleted1 := if d.m_midiPlayer.isSome then [Handle.midiPlayer] else []
  let d := { d with m_midiPlayer := none }
  let deleted2 := if d.m_midiFile.isSome then [Handle.midiFile] else []
  let d := { d with m_midiFile := none }
  (d, deleted1 ++ deleted2)

/-- The function `MIDIDecoder::start`: `m_midiPlayer->Reset()` and `seek(0)`.
The pointer is dereferenced unchecked: `none` stands for the call on a null
player. -/
def MIDIDecoder.start {P : Type} (ops : PlayerOps P) (d : MIDIDecoder P) :
    Option (MIDIDecoder P) :=
  match d.m_midiPlayer with
  | none => none
  | some p => some (MIDIDecoder.seek ops { d with m_midiPlayer := some (ops.reset p) } 0)

end Fooyin.MIDIInput

namespace Fooyin.XSFInput

/-- The two backend pointers of `XSFDecoder`. -/
inductive Handle where
  | emulator
  | emulatorExtra
deriving DecidableEq, Repr

/-- The members `m_emulator` and `m_emulatorExtra`, a null pointer being
`none`; `H` stands for the objects they point to. -/
structure EmuPointers (H : Type) where
  m_emulator : Option H
  m_emulatorExtra : Option H
deriving DecidableEq, Repr

/-- The function `XSFDecoder::emu_cleanup` for the version tag `m_version`:
the pointers afterwards (both null) and the members whose object was released,
in order. The final `else` branch serves every tag without a branch of its
own, tags 0x01, 0x11 and 0x12 among them, and touches `m_emulator` only, as
does the branch of 0x21. -/
def emu_cleanup {H : Type} (version : Int) (p : EmuPointers H) :
    EmuPointers H × List Handle :=
  let emulator := if p.m_emulator.isSome then [Handle.emulator] else []
  let extra := if p.m_emulatorExtra.isSome then [Handle.emulatorExtra] else []
  let released :=
    if version = 0x02 then emulator ++ extra
    else if version = 0x21 then emulator
    else if version = 0x22 then emulator ++ extra
    else if version = 0x24 then emulator ++ extra
    else if version = 0x25 then emulator ++ extra
    else if version = 0x41 then emulator ++ extra
    else emulator
  (⟨none, none⟩, released)

/-- What the external calls made by `XSFDecoder::emu_init` answer for the file
at `m_path`: the allocation of the core state (`malloc`, `calloc`), the
allocation of the companion object (`psf2fs_create`, `calloc` of the loader or
running state), `psf_load` by the version passed to it, `state_init` of the
NDS core, the GSF steps (`data_size` within `UINT_MAX`, `VFileFromConstMemory`,
`mCoreFindVF`), the ROM pointer left by `twosf_loader`, and the two objects
made with `new` for NCSF. -/
structure EmuEnv (H : Type) where
  alloc_state : Option H
  alloc_extra : Option H
  psf_load : Int → Int
  state_init : Int
  gsf_size_ok : Bool
  gsf_vfile_ok : Bool
  gsf_core : Option H
  twosf_rom : Option H
  ncsf_player : H
  ncsf_state : H

/-- The function `XSFDecoder::emu_init` after its leading `emu_cleanup()` has
set both pointers to null: the pointers it leaves and its return code. -/
def emu_init {H : Type} (env : EmuEnv H) (version : Int) : EmuPointers H × Int :=
  if version = 1 ∨ version = 2 then
    match env.alloc_state with
    | none => (⟨none, none⟩, -1)
    | some emu =>
      if version = 1 then
        if env.psf_load 1 ≤ 0 then (⟨some emu, none⟩, -1)
        else (⟨some emu, none⟩, 0)
      else
        match env.alloc_extra with
        | none => (⟨some emu, none⟩, -1)
        | some fs =>
          if env.psf_load 2 ≤ 0 then (⟨some emu, some fs⟩, -1)
          else (⟨some emu, some fs⟩, 0)
  else if version = 0x11 ∨ version = 0x12 then
    if env.psf_load version ≤ 0 then (⟨none, none⟩, -1)
    else
      match env.alloc_state with
      | none => (⟨none, none⟩, -1)
      | some emu => (⟨some emu, none⟩, 0)
  else if version = 0x21 then
    match env.alloc_state with
    | none => (⟨none, none⟩, -1)
    | some emu =>
      if env.psf_load 0x21 ≤ 0 then (⟨some emu, none⟩, -1)
      else (⟨some emu, none⟩, 0)
  else if version = 0x22 then
    if env.psf_load 0x22 ≤ 0 then (⟨none, none⟩, -1)
    else if !env.gsf_size_ok then (⟨none, none⟩, -1)
    else if !env.gsf_vfile_ok then (⟨none, none⟩, -1)
    else
      match env.gsf_core with
      | none => (⟨none, none⟩, -1)
      | some core =>
        match env.alloc_extra with
        | none => (⟨none, none⟩, -1)
        | some rstate => (⟨some core, some rstate⟩, 0)
  else if version = 0x24 then
    match env.alloc_state with
    | none => (⟨none, none⟩, -1)
    | some nds =>
      if env.state_init ≠ 0 then (⟨some nds, none⟩, -1)
      else if env.psf_load 0x24 ≤ 0 then (⟨some nds, none⟩, -1)
      else (⟨some nds, env.twosf_rom⟩, 0)
  else if version = 0x25 then
    if env.psf_load 0x25 ≤ 0 then (⟨none, none⟩, -1)
    else (⟨some env.ncsf_player, some env.ncsf_state⟩, 0)
  else if version = 0x41 then
    match env.alloc_extra with
    | none => (⟨none, none⟩, -1)
    | some state =>
      if env.psf_load 0x41 ≤ 0 then (⟨none, some state⟩, -1)
      else
        match env.alloc_state with
        | none => (⟨none, some state⟩, -1)
        | some emu => (⟨some emu, some state⟩, 0)
  else (⟨none, none⟩, -1)

/-- The emulation cores over the pointer pair, with `emu_init` as the code has
it and the core calls `execute` left abstract. -/
def pointerOps {H : Type} (env : EmuEnv H)
    (execute : Int → EmuPointers H → Nat → Rendered (EmuPointers H)) :
    EmuOps (EmuPointers H) where
  emu_init := emu_init env
  execute := execute

/-- The function `XSFDecoder::stop`: `emu_cleanup()`; the session afterwards
and the members whose object was released. -/
def XSFDecoder.stop {H : Type} (d : XSFDecoder (EmuPointers H)) :
    XSFDecoder (EmuPointers H) × List Handle :=
  ({ d with emu := (emu_cleanup d.m_version d.emu).1 }, (emu_cleanup d.m_version d.emu).2)

/-- The stored settings read by the XSF decoder, with the defaults of
`xsfinputdefs.h` (a header that is not under `src/`) as fields. -/
structure Settings where
  maxLengthSetting : Option Int
  fadeLengthSetting : Option Int
  DefaultMaxLength : Int
  DefaultFadeLength : Int
deriving DecidableEq, Repr

/-- What `XSFDecoder::init` learns about the track: `isInArchive()`, the
version tag returned by the tag-reading `psf_load` call (negative on failure),
and the `length` and `fade` tags collected by `psf_info_meta`, in
milliseconds. -/
structure TrackInfo where
  isInArchive : Bool
  psf_version : Int
  tag_song_ms : Int
  tag_fade_ms : Int
deriving DecidableEq, Repr

/-- The function `XSFDecoder::init`; the result pairs the session with the
returned format, `none` for `return {}`. The products `* 60 * 1000` are taken
over the integers. -/
def XSFDecoder.init {E : Type} (ops : EmuOps E) (st : Settings) (d : XSFDecoder E)
    (track : TrackInfo) : XSFDecoder E × Option AudioFormat :=
  if track.isInArchive then (d, none) else
  if track.psf_version < 0 then (d, none) else
  let d := { d with m_version := track.psf_version }
  let built := ops.emu_init d.m_version
  let d := { d with emu := built.1 }
  if built.2 < 0 then (d, none) else
  let srate := get_srate track.psf_version
  if srate < 0 then (d, none) else
  let d := { d with m_format := { d.m_format with sampleRate := srate.toNat } }
  let tag_fade_ms :=
    if track.tag_song_ms = 0 then st.fadeLengthSetting.getD st.DefaultFadeLength
    else track.tag_fade_ms
  let tag_song_ms :=
    if track.tag_song_ms = 0 then st.maxLengthSetting.getD st.DefaultMaxLength * 60 * 1000
    else track.tag_song_ms
  let framesLength : Int := d.m_format.framesForDuration (toULong tag_song_ms)
  let framesFade : Int := d.m_format.framesForDuration (toULong tag_fade_ms)
  let d := { d with framesRead := 0, framesLength := framesLength, framesFade := framesFade,
                    totalFrames := toLong (framesLength + framesFade) }
  (d, some d.m_format)

end Fooyin.XSFInput

/-! ## The vgmstream decoder (`src/vgmstream/vgmstreaminput.cpp`) -/

namespace Fooyin.VGMStreamInput

/-- The sample formats of the host that `vgmstream_init` selects from. -/
inductive SampleFormat where
  | Unknown
  | S16
  | S24
  | S32
  | F32
deriving DecidableEq, Repr

/-- The field `format->sample_format` of the library: the four values that
`vgmstream_init` handles and any other value. -/
inductive LibSampleFormat where
  | PCM16
  | PCM24
  | PCM32
  | FLOAT
  | other
deriving DecidableEq, Repr

/-- The `switch` of `vgmstream_init` over the library's sample format; `none`
is the `default` branch. -/
def toSampleFormat : LibSampleFormat → Option SampleFormat
  | .PCM16 => some .S16
  | .PCM24 => some .S24
  | .PCM32 => some .S32
  | .FLOAT => some .F32
  | .other => none

/-- The member `m_format` of `VGMStreamDecoder`: sample format, sample rate
and channel count. -/
structure Format where
  sampleFormat : SampleFormat
  sampleRate : Nat
  channelCount : Nat
deriving DecidableEq, Repr

/-- The fields of `libvgmstream_config_t` that `vgmstream_init` sets, the rest
being zero; `fade_time` and `fade_delay` are exact rationals in place of
`double`. -/
structure VgmConfig where
  allow_play_forever : Bool
  play_forever : Bool
  loop_count : Int
  fade_time : ℚ
  fade_delay : ℚ
  ignore_loop : Bool
  auto_downmix_channels : Int

/-- The stored settings read by the decoder, with the defaults of
`vgmstreaminputdefs.h` (a header that is not under `src/`) as fields. -/
structure Settings where
  loopCountSetting : Option Int
  fadeLengthSetting : Option Int
  DefaultLoopCount : Int
  DefaultFadeLength : Int
deriving DecidableEq, Repr

/-- The library calls made by the decoder, on a decoding state `V` and a
stream file `SF`: `libstreamfile_open_from_stdio`, `libvgmstream_create`, the
fields `format->sample_format`, `format->sample_rate`, `format->channels` and
`decoder->done`, `libvgmstream_render` with its return code, and the bytes
`decoder->buf[0 .. decoder->buf_bytes)`. -/
structure VgmOps (V SF : Type) where
  open_from_stdio : String → Option SF
  create : SF → Int → VgmConfig → Option V
  sample_format : V → LibSampleFormat
  sample_rate : V → Nat
  channels : V → Nat
  done : V → Bool
  render : V → V × Int
  buf : V → List Nat

/-- The two backend pointers of `VGMStreamDecoder`. -/
inductive Handle where
  | vgm
  | sf
deriving DecidableEq, Repr

/-- The member fields of `VGMStreamDecoder`; a null pointer is `none`. -/
structure VGMStreamDecoder (V SF : Type) where
  m_options : DecoderOptions
  m_format : Format
  m_path : String
  m_subsong : Int
  bytePos : Nat
  bytesRemain : Nat
  m_vgm : Option V
  m_sf : Option SF

/-- Lines 76-98 of `vgmstream_init`: the configuration handed to
`libvgmstream_create`, computed from the settings, from the host's
`isRepeatingTrack()` and from the member `m_options`. -/
def vgmstream_config (st : Settings) (isRepeatingTrack : Bool)
    (m_options : DecoderOptions) : VgmConfig :=
  let loopCount := st.loopCountSetting.getD st.DefaultLoopCount
  let fadeLength : ℚ := ((st.fadeLengthSetting.getD st.DefaultFadeLength : Int) : ℚ) / 1000
  let loopCount :=
    if m_options.noLooping then 1
    else if m_options.noInfiniteLooping && isRepeatingTrack then st.DefaultLoopCount
    else loopCount
  let loopCount := if loopCount < 1 then 1 else if loopCount > 10 then 10 else loopCount
  { allow_play_forever := true
    play_forever := !m_options.noInfiniteLooping && isRepeatingTrack
    loop_count := loopCount
    fade_time := fadeLength
    fade_delay := 0
    ignore_loop := false
    auto_downmix_channels := 6 }

/-- The function `VGMStreamDecoder::vgmstream_init`: the decoder afterwards
and the return code. -/
def vgmstream_init {V SF : Type} (ops : VgmOps V SF) (st : Settings)
    (isRepeatingTrack : Bool) (d : VGMStreamDecoder V SF) : VGMStreamDecoder V SF × Int :=
  let vcfg := vgmstream_config st isRepeatingTrack d.m_options
  let d := { d with m_sf := ops.open_from_stdio d.m_path }
  match d.m_sf with
  | none => (d, -1)
  | some sf =>
    let d := { d with m_vgm := ops.create sf d.m_subsong vcfg }
    match d.m_vgm with
    | none => ({ d with m_sf := none }, -1)
    | some vgm =>
      match toSampleFormat (ops.sample_format vgm) with
      | none => ({ d with m_vgm := none, m_sf := none }, -1)
      | some format =>
        ({ d with m_sf := none,
                  m_format := ⟨format, ops.sample_rate vgm, ops.channels vgm⟩,
                  bytePos := 0, bytesRemain := 0 }, 0)

/-- The function `VGMStreamDecoder::vgmstream_cleanup`: the decoder afterwards
and the members whose object was released, in order. -/
def vgmstream_cleanup {V SF : Type} (d : VGMStreamDecoder V SF) :
    VGMStreamDecoder V SF × List Handle :=
  let freed := if d.m_vgm.isSome then [Handle.vgm] else []
  let d := { d with m_vgm := none }
  let closed := if d.m_sf.isSome then [Handle.sf] else []
  let d := { d with m_sf := none }
  (d, freed ++ closed)

/-- What `VGMStreamDecoder::init` reads from the track. -/
structure TrackInfo where
  isInArchive : Bool
  filepath : String
  subsong : Int
deriving DecidableEq, Repr

/-- The function `VGMStreamDecoder::init`; its parameter `options` is not
used by the function body. The result pairs the decoder with the returned
format, `none` for `return {}`. -/
def VGMStreamDecoder.init {V SF : Type} (ops : VgmOps V SF) (st : Settings)
    (isRepeatingTrack : Bool) (d : VGMStreamDecoder V SF) (track : TrackInfo)
    (_options : DecoderOptions) : VGMStreamDecoder V SF × Option Format :=
  let d := (vgmstream_cleanup d).1
  if track.isInArchive then (d, none) else
  let d := { d with m_path := track.filepath, m_subsong := track.subsong + 1 }
  let r := vgmstream_init ops st isRepeatingTrack d
  if r.2 < 0 then (r.1, none) else (r.1, some r.1.m_format)

/-- The function `VGMStreamDecoder::start`. -/
def VGMStreamDecoder.start {V SF : Type} (ops : VgmOps V SF) (st : Settings)
    (isRepeatingTrack : Bool) (d : VGMStreamDecoder V SF) : VGMStreamDecoder V SF :=
  (vgmstream_init ops st isRepeatingTrack (vgmstream_cleanup d).1).1

/-- The function `VGMStreamDecoder::stop`: the decoder afterwards and the
members whose object was released. -/
def VGMStreamDecoder.stop {V SF : Type} (d : VGMStreamDecoder V SF) :
    VGMStreamDecoder V SF × List Handle :=
  vgmstream_cleanup d

end Fooyin.VGMStreamInput

namespace Fooyin.XSFInput

/-- A file for which every allocation succeeds and `psf_load` fails. -/
def unloadableEnv : EmuEnv Nat where
  alloc_state := some 7
  alloc_extra := some 8
  psf_load := fun _ => -1
  state_init := 0
  gsf_size_ok := true
  gsf_vfile_ok := true
  gsf_core := some 9
  twosf_rom := none
  ncsf_player := 10
  ncsf_state := 11

/-- A GSF file that loads and whose core is found, while the allocation of the
running state fails. -/
def stateLessEnv : EmuEnv Nat where
  alloc_state := some 7
  alloc_extra := none
  psf_load := fun _ => 1
  state_init := 0
  gsf_size_ok := true
  gsf_vfile_ok := true
  gsf_core := some 9
  twosf_rom := none
  ncsf_player := 10
  ncsf_state := 11

end Fooyin.XSFInput

namespace Fooyin.VGMStreamInput

/-- A library whose decoding state is the configuration it was created with,
over a file that opens under every path. -/
def echoOps : VgmOps VgmConfig Unit where
  open_from_stdio := fun _ => some ()
  create := fun _ _ cfg => some cfg
  sample_format := fun _ => LibSampleFormat.PCM16
  sample_rate := fun _ => 44100
  channels := fun _ => 2
  done := fun _ => true
  render := fun v => (v, -1)
  buf := fun _ => []

/-- A library that opens every file and cannot create a decoding state for
it. -/
def uncreatableOps : VgmOps Unit Unit where
  open_from_stdio := fun _ => some ()
  create := fun _ _ _ => none
  sample_format := fun _ => LibSampleFormat.other
  sample_rate := fun _ => 0
  channels := fun _ => 0
  done := fun _ => true
  render := fun v => (v, -1)
  buf := fun _ => []

/-- A library that cannot open any file. -/
def closedOps : VgmOps Unit Unit where
  open_from_stdio := fun _ => none
  create := fun _ _ _ => none
  sample_format := fun _ => LibSampleFormat.other
  sample_rate := fun _ => 0
  channels := fun _ => 0
  done := fun _ => true
  render := fun v => (v, -1)
  buf := fun _ => []

/-- A decoder as the constructor leaves it: both pointers null and no option
set in `m_options`. -/
def VGMStreamDecoder.fresh (V SF : Type) : VGMStreamDecoder V SF :=
  ⟨⟨false, false⟩, ⟨SampleFormat.Unknown, 0, 0⟩, "", 0, 0, 0, none, none⟩

end Fooyin.VGMStreamInput

namespace Fooyin.VGMStreamInput

/-- The decoding position that `readBuffer` works on: the library state
behind `m_vgm` and the members `bytePos` and `bytesRemain`. -/
structure Cursor (V : Type) where
  vgm : V
  bytePos : Nat
  bytesRemain : Nat

/-- The inner `for(;;)` loop of `VGMStreamDecoder::readBuffer`: render until
the decoder is done, a render fails, or a render leaves bytes in the buffer.
The flag tells whether bytes were obtained; `fuel` bounds the number of
renders, `none` standing for a run of empty renders that outlasts it. -/
def renderChunk {V SF : Type} (ops : VgmOps V SF) : Nat → V → Option (V × Bool)
  | 0, _ => none
  | fuel + 1, vgm =>
    if ops.done vgm then some (vgm, false)
    else
      let r := ops.render vgm
      if r.2 < 0 then some (r.1, false)
      else if (ops.buf r.1).length = 0 then renderChunk ops fuel r.1
      else some (r.1, true)

/-- The block `if(!bytesRemain) { for(;;) { ... } }` of `readBuffer`. -/
def refill {V SF : Type} (ops : VgmOps V SF) (fuel : Nat) (c : Cursor V) :
    Option (Cursor V) :=
  if c.bytesRemain = 0 then
    match renderChunk ops fuel c.vgm with
    | none => none
    | some (vgm, true) => some ⟨vgm, 0, (ops.buf vgm).length⟩
    | some (vgm, false) => some ⟨vgm, c.bytePos, 0⟩
  else some c

/-- The loop `while(bytesDone < bytes)` of `readBuffer` on the buffer of
`bytes` bytes; the result buffer is empty for `return {}`. The first argument
bounds the iterations, `bytes` of them always suffice as every iteration that
goes on copies at least one byte. -/
def readLoop {V SF : Type} (ops : VgmOps V SF) (fuel bytes : Nat) :
    Nat → Cursor V → List Nat → Nat → Option (Cursor V × List Nat)
  | 0, c, buffer, _ => some (c, buffer)
  | n + 1, c, buffer, bytesDone =>
    if bytesDone < bytes then
      match refill ops fuel c with
      | none => none
      | some c =>
        let bytesFree := bytes - bytesDone
        let maxBytes := min c.bytesRemain bytesFree
        if maxBytes ≠ 0 then
          readLoop ops fuel bytes n ⟨c.vgm, c.bytePos + maxBytes, c.bytesRemain - maxBytes⟩
            (writeAt buffer bytesDone (((ops.buf c.vgm).drop c.bytePos).take maxBytes))
            (bytesDone + maxBytes)
        else if bytesFree ≠ 0 ∧ bytesDone ≠ 0 then
          some (c, zeroFrom 0 buffer bytesDone bytesFree)
        else some (c, [])
    else some (c, buffer)

/-- The function `VGMStreamDecoder::readBuffer`: the decoder after the call
and the returned bytes, the empty list for `return {}`; the buffer's start
time stamp is left out. `none` stands for a call that does not return: the
null `m_vgm` dereferenced, or empty renders without end. -/
def VGMStreamDecoder.readBuffer {V SF : Type} (ops : VgmOps V SF) (fuel : Nat)
    (d : VGMStreamDecoder V SF) (bytes : Nat) : Option (VGMStreamDecoder V SF × List Nat) :=
  match d.m_vgm with
  | none => none
  | some vgm =>
    match readLoop ops fuel bytes bytes ⟨vgm, d.bytePos, d.bytesRemain⟩
        (List.replicate bytes 0) 0 with
    | none => none
    | some (c, out) =>
      some ({ d with m_vgm := some c.vgm, bytePos := c.bytePos, bytesRemain := c.bytesRemain },
        out)

/-- A backend whose state counts the chunks rendered: chunk `k` holds the two
bytes `k, k`, and the decoder is done after chunk 3. -/
def countOps : VgmOps Nat Unit where
  open_from_stdio := fun _ => some ()
  create := fun _ _ _ => some 0
  sample_format := fun _ => LibSampleFormat.PCM16
  sample_rate := fun _ => 44100
  channels := fun _ => 1
  done := fun k => decide (3 ≤ k)
  render := fun k => (k + 1, 0)
  buf := fun k => [k, k]

/-- A decoder over `countOps` right after `vgmstream_init`. -/
def countDecoder : VGMStreamDecoder Nat Unit :=
  ⟨⟨false, false⟩, ⟨SampleFormat.S16, 44100, 1⟩, "", 1, 0, 0, some 0, none⟩

end Fooyin.VGMStreamInput

namespace Fooyin.VGMStreamInput

end Fooyin.VGMStreamInput

namespace Fooyin

/-- Value of an integer converted to `int` (32 bits, two's complement). -/
def toInt (x : Int) : Int := (x + 2 ^ 31) % 2 ^ 32 - 2 ^ 31

end Fooyin

/-! ## Tags of an XSF file: `psf_info_meta` -/

namespace Fooyin.XSFInput

/-- The library call `tolower` in the "C" locale. -/
def tolower (c : Char) : Char :=
  if 65 ≤ c.toNat ∧ c.toNat ≤ 90 then Char.ofNat (c.toNat + 32) else c

/-- The comparison loop of `strcasecmp` on the characters before the NUL. -/
def strcasecmpChars : List Char → List Char → Int
  | [], [] => 0
  | [], b :: _ => -((tolower b).toNat : Int)
  | a :: _, [] => ((tolower a).toNat : Int)
  | a :: as, b :: bs =>
    if tolower a = tolower b then strcasecmpChars as bs
    else ((tolower a).toNat : Int) - ((tolower b).toNat : Int)

/-- The library call `strcasecmp(a, b)` in the "C" locale: zero when the two
C strings are equal up to the case of letters, else the difference of the
first two lowered characters that differ. -/
def strcasecmp (a b : List Char) : Int := strcasecmpChars (cstr a) (cstr b)

/-- The linked list of `psf_tag` nodes, the head first: name and value. -/
abbrev TagList := List (List Char × List Char)

/-- The struct `psf_info_meta_state`; the two `int` fields are integers kept
inside 32 bits by `toInt` on assignment. -/
structure psf_info_meta_state where
  tag_song_ms : Int
  tag_fade_ms : Int
  utf8 : Bool
  tags : TagList
deriving DecidableEq, Repr

/-- The function `add_tag`: a new node with copies of the two C strings in
front of the list; `alloc_ok` tells whether `malloc` and the two `strdup`
calls succeed, the list is returned as it was when one of them fails. -/
def add_tag (alloc_ok : Bool) (tags : TagList) (name value : List Char) : TagList :=
  if alloc_ok then (cstr name, cstr value) :: tags else tags

/-- The function `psf_info_meta`, which always returns 0: the state behind
`context` after the call. -/
def psf_info_meta (alloc_ok : Bool) (state : psf_info_meta_state)
    (name value : List Char) : psf_info_meta_state :=
  if strcasecmp name ['l', 'e', 'n', 'g', 't', 'h'] = 0 then
    let n := parse_time_crap value
    if n ≠ BORK_TIME then { state with tag_song_ms := toInt n } else state
  else if strcasecmp name ['f', 'a', 'd', 'e'] = 0 then
    let n := parse_time_crap value
    if n ≠ BORK_TIME then { state with tag_fade_ms := toInt n } else state
  else if strcasecmp name ['u', 't', 'f', '8'] = 0 then { state with utf8 := true }
  else if name.headD (Char.ofNat 0) ≠ '_' then
    let name :=
      if strcasecmp name ['g', 'a', 'm', 'e'] = 0 then ['a', 'l', 'b', 'u', 'm']
      else if strcasecmp name ['y', 'e', 'a', 'r'] = 0 then ['d', 'a', 't', 'e']
      else if strcasecmp name ['t', 'r', 'a', 'c', 'k', 'n', 'u', 'm', 'b', 'e', 'r'] = 0 then
        ['t', 'r', 'a', 'c', 'k']
      else if strcasecmp name ['d', 'i', 's', 'c', 'n', 'u', 'm', 'b', 'e', 'r'] = 0 then
        ['d', 'i', 's', 'c']
      else name
    { state with tags := add_tag alloc_ok state.tags name value }
  else state

/-- The three names that `psf_info_meta` consumes into fields. -/
def IsKeyword (name : List Char) : Prop :=
  strcasecmp name ['l', 'e', 'n', 'g', 't', 'h'] = 0 ∨
  strcasecmp name ['f', 'a', 'd', 'e'] = 0 ∨
  strcasecmp name ['u', 't', 'f', '8'] = 0

instance (name : List Char) : Decidable (IsKeyword name) := by
  unfold IsKeyword
  infer_instance

/-- The name under which `psf_info_meta` files a tag: four names have an
alias, any other name is kept as it is written. -/
def tagAlias (name : List Char) : List Char :=
  if strcasecmp name ['g', 'a', 'm', 'e'] = 0 then ['a', 'l', 'b', 'u', 'm']
  else if strcasecmp name ['y', 'e', 'a', 'r'] = 0 then ['d', 'a', 't', 'e']
  else if strcasecmp name ['t', 'r', 'a', 'c', 'k', 'n', 'u', 'm', 'b', 'e', 'r'] = 0 then
    ['t', 'r', 'a', 'c', 'k']
  else if strcasecmp name ['d', 'i', 's', 'c', 'n', 'u', 'm', 'b', 'e', 'r'] = 0 then
    ['d', 'i', 's', 'c']
  else cstr name

/-- The state that `memset(&info_state, 0, sizeof(info_state))` leaves. -/
def psf_info_meta_state.zero : psf_info_meta_state := ⟨0, 0, false, []⟩

end Fooyin.XSFInput

namespace Fooyin.XSFInput

/-- The start time stamp that `XSFDecoder::readBuffer` gives the buffer it
returns: `durationForFrames(framesRead)`, taken before rendering, with
`framesRead` converted as `toULong`; `none` when the call returns the empty
buffer `{}`. -/
def XSFDecoder.readBufferStart {E : Type} (ops : EmuOps E) (d : XSFDecoder E)
    (bytes : Nat) : Option Nat :=
  if d.framesRead ≥ d.totalFrames then none else
  let startTime := d.m_format.durationForFrames (toULong d.framesRead)
  let frames := d.m_format.framesForBytes bytes
  let buffer : List Int := List.replicate (2 * frames) 0
  match XSFDecoder.renderLoop ops d.m_version frames frames d.emu buffer 0 with
  | (_, none) => none
  | (_, some _) => some startTime

end Fooyin.XSFInput

namespace Fooyin.XSFInput

/-- The format after `m_format.setSampleRate(srate)`. -/
def setSampleRate (fmt : AudioFormat) (srate : Int) : AudioFormat :=
  { fmt with sampleRate := srate.toNat }

end Fooyin.XSFInput

/-! ## The metadata readers: `MIDIReader::readTrack`, `XSFReader::readTrack` -/

namespace Fooyin.MIDIInput

/-- Lines 131-149 of `MIDIDecoder::init`: `framesLength` and `framesFade` while
they still hold milliseconds, before lines 151-152 convert them to frames. -/
def initMillis (st : Settings) (file : MidiContainer) (loopCount : Int) : Int × Int :=
  let framesLength := toLong file.timestampEndMs
  let loopStart := toLong file.loopStartMs
  let loopEnd := toLong file.loopEndMs
  let loopStart := if toULong loopStart = ULONG_MAX then 0 else loopStart
  let loopEnd := if toULong loopEnd = ULONG_MAX then framesLength else loopEnd
  let isLooped : Bool := decide (loopStart ≠ 0 ∨ loopEnd ≠ framesLength)
  let framesFade : Int :=
    if isLooped then st.fadeLengthSetting.getD st.DefaultFadeLength else 0
  let framesLength : Int :=
    if isLooped then toLong (loopStart + (loopEnd - loopStart) * loopCount)
    else toLong (framesLength + 1000)
  (framesLength, framesFade)

/-- Lines 279-311 of `MIDIReader::readTrack`: the loop count, read without a
default so that an unset value counts as 0, with 0 replaced by
`DefaultLoopCount`, then `framesLength` and `framesFade` in milliseconds. -/
def MIDIReader.millis (st : Settings) (file : MidiContainer) : Int × Int :=
  let loopCount := st.loopCountSetting.getD 0
  let loopCount := if loopCount = 0 then st.DefaultLoopCount else loopCount
  let framesLength := toLong file.timestampEndMs
  let loopStart := toLong file.loopStartMs
  let loopEnd := toLong file.loopEndMs
  let loopStart := if toULong loopStart = ULONG_MAX then 0 else loopStart
  let loopEnd := if toULong loopEnd = ULONG_MAX then framesLength else loopEnd
  let framesFade : Int :=
    if loopStart ≠ 0 ∨ loopEnd ≠ framesLength then
      st.fadeLengthSetting.getD st.DefaultFadeLength
    else 0
  let framesLength : Int :=
    if loopStart ≠ 0 ∨ loopEnd ≠ framesLength then
      toLong (loopStart + (loopEnd - loopStart) * loopCount)
    else toLong (framesLength + 1000)
  (framesLength, framesFade)

/-- The function `MIDIReader::readTrack` up to `track.setDuration`: the
duration it sets, `none` for `return false`; `data` and `parsed` are as in
`MIDIDecoder.init`. -/
def MIDIReader.readTrack (st : Settings) (data : List Nat) (parsed : Option MidiContainer) :
    Option Nat :=
  if data.isEmpty then none else
  match parsed with
  | none => none
  | some file =>
    if file.timestampEnd = 0 then none else
    let p := MIDIReader.millis st file
    let totalFrames := toLong (p.1 + p.2)
    some (toULong totalFrames)

end Fooyin.MIDIInput

namespace Fooyin.XSFInput

/-- The function `XSFReader::readTrack` up to `track.setSampleRate`: the
duration and the sample rate it sets, `none` for `return false`. The sum of
the two `int` tags is an `int`; the products `* 60 * 1000` are taken over the
integers as in `XSFDecoder.init`. -/
def XSFReader.readTrack (st : Settings) (track : TrackInfo) : Option (Nat × Int) :=
  if track.isInArchive then none else
  if track.psf_version < 0 then none else
  let tag_fade_ms :=
    if track.tag_song_ms = 0 then st.fadeLengthSetting.getD st.DefaultFadeLength
    else track.tag_fade_ms
  let tag_song_ms :=
    if track.tag_song_ms = 0 then st.maxLengthSetting.getD st.DefaultMaxLength * 60 * 1000
    else track.tag_song_ms
  let totalFrames : Int := toInt (tag_song_ms + tag_fade_ms)
  let SampleRate := get_srate track.psf_version
  if SampleRate < 0 then none else
  some (toULong totalFrames, SampleRate)

/-- The `length` and `fade` values in milliseconds that lines 1416-1422 of
`XSFDecoder::init` hand to `framesForDuration`, and lines 1554-1560 of
`XSFReader::readTrack` add up: the tags of the file, or the configured
maximum length and fade length when the length tag is zero. -/
def tagMillis (st : Settings) (track : TrackInfo) : Int × Int :=
  (if track.tag_song_ms = 0 then st.maxLengthSetting.getD st.DefaultMaxLength * 60 * 1000
   else track.tag_song_ms,
   if track.tag_song_ms = 0 then st.fadeLengthSetting.getD st.DefaultFadeLength
   else track.tag_fade_ms)

end Fooyin.XSFInput

/-! ## Section loaders of `src/xsf/xsfinput.cpp` -/

namespace Fooyin.XSFInput

/-- The function `get_le32` on the bytes at `p`: four bytes, the lowest
first. A byte is a number below 256; a byte missing from the list reads as 0. -/
def get_le32 (p : List Nat) : Nat :=
  (p.getD 3 0 % 256) <<< 24 ||| (p.getD 2 0 % 256) <<< 16 |||
    (p.getD 1 0 % 256) <<< 8 ||| (p.getD 0 0 % 256)

/-- The block of `size` bytes that `realloc(block, size)` returns: the old
bytes up to `size`, then bytes of unspecified content, here `fill`. -/
def realloc (fill : Nat) (block : List Nat) (size : Nat) : List Nat :=
  (block ++ List.replicate (size - block.length) fill).take size

/-- The outcome of a loader call: `return -1` with the state it leaves,
`return 0` with the state it leaves, or a `memcpy` that leaves the input
(`srcEnd > srcSize`) or the allocated block (`dstEnd > dstSize`), after which
the behaviour of the program is undefined. -/
inductive LoadResult (σ : Type) where
  | rejected : σ → LoadResult σ
  | loaded : σ → LoadResult σ
  | outOfBounds : (srcEnd srcSize dstEnd dstSize : Nat) → LoadResult σ
deriving DecidableEq, Repr

/-- The struct `gsf_loader_state`; `data` is the allocated block, `none` for a
null pointer. -/
structure gsf_loader_state where
  entry_set : Int
  entry : Nat
  data : Option (List Nat)
  data_size : Nat
deriving DecidableEq, Repr

/-- The rounding block of `gsf_loader` and `load_twosf_map` on a `size_t`:
`rsize -= 1; rsize |= rsize >> 1; ... rsize |= rsize >> 16; rsize += 1`. -/
def roundSize (rsize : Nat) : Nat :=
  let r := (rsize + (2 ^ 64 - 1)) % 2 ^ 64
  let r := r ||| (r >>> 1)
  let r := r ||| (r >>> 2)
  let r := r ||| (r >>> 4)
  let r := r ||| (r >>> 8)
  let r := r ||| (r >>> 16)
  (r + 1) % 2 ^ 64

/-- The function `gsf_loader` on a section of `exe.length` bytes;
`alloc_ok` tells whether `malloc` resp. `realloc` succeeds. The sum
`xofs + xsize` is an `unsigned` and wraps at 32 bits. -/
def gsf_loader (fill : Nat) (alloc_ok : Bool) (state : gsf_loader_state) (exe : List Nat) :
    LoadResult gsf_loader_state :=
  let exe_size := exe.length
  if exe_size < 12 then LoadResult.rejected state else
  let xentry := get_le32 exe
  let xsize := get_le32 (exe.drop 8)
  let xofs := get_le32 (exe.drop 4) &&& 0x1ffffff
  if xsize < exe_size - 12 then LoadResult.rejected state else
  let state := if state.entry_set = 0 then { state with entry := xentry, entry_set := 1 } else state
  let iptr := state.data
  let isize := state.data_size
  let state := { state with data := none, data_size := 0 }
  let rsize := roundSize ((xofs + xsize) % 2 ^ 32)
  let grown : Option (List Nat × Nat) :=
    match iptr with
    | none =>
      if alloc_ok then some (List.replicate ((rsize + 10) % 2 ^ 64) 0, rsize) else none
    | some block =>
      if isize < (xofs + xsize) % 2 ^ 32 then
        if alloc_ok then some (realloc fill block ((xofs + rsize + 10) % 2 ^ 64), rsize) else none
      else some (block, isize)
  match grown with
  | none => LoadResult.rejected state
  | some (block, isize) =>
    if 12 + xsize ≤ exe_size ∧ xofs + xsize ≤ block.length then
      LoadResult.loaded
        { state with data := some (writeAt block xofs ((exe.drop 12).take xsize)),
                     data_size := isize }
    else LoadResult.outOfBounds (12 + xsize) exe_size (xofs + xsize) block.length

/-- The image fields of the struct `twosf_loader_state`; the fields set by
`twosf_info` are not touched by the loader and are left out. -/
structure twosf_loader_state where
  rom : Option (List Nat)
  state : Option (List Nat)
  rom_size : Nat
  state_size : Nat
deriving DecidableEq, Repr

/-- The function `load_twosf_map` on `udata.length` bytes; `alloc_ok` tells
whether `malloc` resp. `realloc` succeeds. The sum `xofs + xsize` is an
`unsigned` and wraps at 32 bits. -/
def load_twosf_map (fill : Nat) (alloc_ok : Bool) (state : twosf_loader_state) (issave : Bool)
    (udata : List Nat) : LoadResult twosf_loader_state :=
  let usize := udata.length
  if usize < 8 then LoadResult.rejected state else
  let xsize := get_le32 (udata.drop 4)
  let xofs := get_le32 udata
  let iptr := if issave then state.state else state.rom
  let isize := if issave then state.state_size else state.rom_size
  let state :=
    if issave then { state with state := none, state_size := 0 }
    else { state with rom := none, rom_size := 0 }
  let rsize := if issave then (xofs + xsize) % 2 ^ 32 else roundSize ((xofs + xsize) % 2 ^ 32)
  let grown : Option (List Nat × Nat) :=
    match iptr with
    | none =>
      if alloc_ok then some (List.replicate ((rsize + 10) % 2 ^ 64) 0, rsize) else none
    | some block =>
      if isize < (xofs + xsize) % 2 ^ 32 then
        if alloc_ok then some (realloc fill block ((xofs + rsize + 10) % 2 ^ 64), rsize) else none
      else some (block, isize)
  match grown with
  | none => LoadResult.rejected state
  | some (block, isize) =>
    if 8 + xsize ≤ usize ∧ xofs + xsize ≤ block.length then
      let block := writeAt block xofs ((udata.drop 8).take xsize)
      LoadResult.loaded
        (if issave then { state with state := some block, state_size := isize }
         else { state with rom := some block, rom_size := isize })
    else LoadResult.outOfBounds (8 + xsize) usize (xofs + xsize) block.length

/-- The program part of `twosf_loader`, lines 767-771: a section of at least 8
bytes goes to `load_twosf_map` whole as the ROM image. -/
def twosf_loader_exe (fill : Nat) (alloc_ok : Bool) (state : twosf_loader_state)
    (exe : List Nat) : LoadResult twosf_loader_state :=
  if 8 ≤ exe.length then
    match load_twosf_map fill alloc_ok state false exe with
    | LoadResult.loaded s => LoadResult.loaded s
    | LoadResult.rejected s => LoadResult.rejected s
    | LoadResult.outOfBounds a b c e => LoadResult.outOfBounds a b c e
  else LoadResult.loaded state

end Fooyin.XSFInput

/-! ## The push-style core of version 0x22 in `emu_render` -/

namespace Fooyin.XSFInput

/-- The sample buffer of the struct `gsf_running_state`: `samples`, of
`BufferLen * 2` entries, and `buffered`, the frames it holds. The fields
`stream` and `rom` play no part in rendering. -/
structure gsf_running_state where
  samples : List Int
  buffered : Nat
deriving DecidableEq, Repr

/-- The state that `calloc` leaves in `emu_init`. -/
def gsf_running_state.zero : gsf_running_state := ⟨List.replicate (2 * BufferLen) 0, 0⟩

/-- The callback `_gsf_postAudioBuffer`: the two `blip_read_samples` calls put
up to `BufferLen` frames of the core's audio, `block` with left and right
interleaved, at the start of `samples`, and `buffered` becomes `BufferLen`. -/
def gsf_postAudioBuffer (state : gsf_running_state) (block : List Int) : gsf_running_state :=
  ⟨writeAt state.samples 0 (block.take (2 * BufferLen)), BufferLen⟩

/-- The emulation core behind `m_emulator` for version 0x22: `runFrame`
returns the core after one video frame and the audio blocks it handed to the
callback during that frame, in order. -/
structure GsfCore (C : Type) where
  runFrame : C → C × List (List Int)

/-- The loop `while ( !rstate->buffered ) core->runFrame(core);`; `fuel`
bounds the frames run, `none` stands for a core that posts no audio within
it. -/
def runUntilBuffered {C : Type} (core : GsfCore C) :
    Nat → C → gsf_running_state → Option (C × gsf_running_state)
  | 0, c, r => if r.buffered ≠ 0 then some (c, r) else none
  | fuel + 1, c, r =>
    if r.buffered ≠ 0 then some (c, r)
    else
      let f := core.runFrame c
      runUntilBuffered core fuel f.1 (f.2.foldl gsf_postAudioBuffer r)

/-- The `do { ... } while (frames_to_render);` loop of case 0x22 of
`emu_render` with a buffer `buf` that is not null: `out` are the samples
written through `buf` so far, and the result ends with `frames_to_render` as
the loop leaves it. The copy inside `samples` moves the frames left over to
the front. The first argument bounds the iterations; `count + 2` of them
always suffice. -/
def drainLoop {C : Type} (core : GsfCore C) (fuel : Nat) :
    Nat → C → gsf_running_state → List Int → Nat →
      Option (C × gsf_running_state × List Int × Nat)
  | 0, _, _, _, _ => none
  | n + 1, c, r, out, frames_to_render =>
    let frames_rendered := r.buffered
    if frames_rendered ≥ frames_to_render then
      let out := out ++ r.samples.take (2 * frames_to_render)
      let frames_rendered := frames_rendered - frames_to_render
      let samples := writeAt r.samples 0
        ((r.samples.drop (2 * frames_to_render)).take (2 * frames_rendered))
      some (c, ⟨samples, frames_rendered⟩, out, 0)
    else
      let out := out ++ r.samples.take (2 * frames_rendered)
      let frames_to_render := frames_to_render - frames_rendered
      match runUntilBuffered core fuel c ⟨r.samples, 0⟩ with
      | none => none
      | some (c, r) => drainLoop core fuel n c r out frames_to_render

/-- What case 0x22 of `emu_render` leaves: the core, the sample buffer, the
frame count reported through `count`, the return value and the samples
written. -/
structure GsfRendered (C : Type) where
  core : C
  rstate : gsf_running_state
  count : Nat
  err : Int
  samples : List Int

/-- The function `XSFDecoder::emu_render` for `m_version = 0x22`:
`count -= frames_to_render` after the loop, then a zero count turns into the
return value `-1`. `none` stands for a
call that does not return. -/
def gsf_render {C : Type} (core : GsfCore C) (fuel : Nat) (c : C) (r : gsf_running_state)
    (count : Nat) : Option (GsfRendered C) :=
  match drainLoop core fuel (count + 2) c r [] count with
  | none => none
  | some (c, r, out, frames_to_render) =>
    some ⟨c, r, count - frames_to_render, if count - frames_to_render = 0 then -1 else 0, out⟩

/-- The next audio block that the core posts from the state `c` on, with the
core after the frame that posted it; `none` when no frame within `fuel`
posts one. -/
def nextBlock {C : Type} (core : GsfCore C) : Nat → C → Option (C × List Int)
  | 0, _ => none
  | fuel + 1, c =>
    match (core.runFrame c).2.getLast? with
    | some b => some ((core.runFrame c).1, b)
    | none => nextBlock core fuel (core.runFrame c).1

/-- The concatenation of the next `n` audio blocks that the core posts. -/
def pushedBlocks {C : Type} (core : GsfCore C) (fuel : Nat) : Nat → C → List Int
  | 0, _ => []
  | n + 1, c =>
    match nextBlock core fuel c with
    | some (c1, b) => b ++ pushedBlocks core fuel n c1
    | none => []

/-- The samples ahead of a session: the frames still held in `samples`, then
the next `n` blocks of the core. -/
def gsfTape {C : Type} (core : GsfCore C) (fuel n : Nat) (c : C) (r : gsf_running_state) :
    List Int :=
  r.samples.take (2 * r.buffered) ++ pushedBlocks core fuel n c

/-- The assumption of the claim on the core: a frame posts at most one block
before the adapter drains it, every block has `BufferLen` frames, and from
every state some frame within `fuel` posts a block. -/
def PushesBlocks {C : Type} (core : GsfCore C) (fuel : Nat) : Prop :=
  (∀ c, (core.runFrame c).2.length ≤ 1) ∧
  (∀ c, ∀ b ∈ (core.runFrame c).2, b.length = 2 * BufferLen) ∧
  (∀ c, (nextBlock core fuel c).isSome = true)

/-- The buffer has its `BufferLen * 2` entries and holds at most `BufferLen`
frames. -/
def gsf_running_state.Valid (r : gsf_running_state) : Prop :=
  r.samples.length = 2 * BufferLen ∧ r.buffered ≤ BufferLen

/-- Successive `emu_render` calls for the requested counts, with the samples
they write concatenated and the counts they report. -/
def renderAll {C : Type} (core : GsfCore C) (fuel : Nat) :
    List Nat → C → gsf_running_state → Option (C × gsf_running_state × List Int × List Nat)
  | [], c, r => some (c, r, [], [])
  | n :: ns, c, r =>
    match gsf_render core fuel c r n with
    | none => none
    | some x =>
      match renderAll core fuel ns x.core x.rstate with
      | none => none
      | some (c1, r1, out, counts) => some (c1, r1, x.samples ++ out, x.count :: counts)

/-- A core whose state counts the frames run: every second frame posts a
block, filled with the number of the frame. -/
def tickCore : GsfCore Nat where
  runFrame := fun k => (k + 1, if k % 2 = 1 then [List.replicate (2 * BufferLen) (k : Int)] else [])

end Fooyin.XSFInput

namespace Fooyin.XSFInput

/-- The function `set_le32`: the four bytes written at `p`, the lowest
first. -/
def set_le32 (n : Nat) : List Nat :=
  [n % 256, (n >>> 8) % 256, (n >>> 16) % 256, (n >>> 24) % 256]

/-- The struct `sdsf_loader_state`: the block behind `data`, empty for a null
pointer, and `data_size`. -/
structure sdsf_loader_state where
  data : List Nat
  data_size : Nat
deriving DecidableEq, Repr

/-- Lines 342-352 of `sdsf_loader`, the block `if ( src_start < dst_start )`:
the image grows downwards by `diff` bytes, the payload moves up, the gap is
zeroed and the new start address is written to the header. The result is
`dst`, `data_size`, `dst_len` and `dst_start` after the block. Bytes that
`realloc` adds have the unspecified content `fill` until they are written. -/
def sdsfGrowDown (fill : Nat) (dst : List Nat) (data_size dst_len dst_start src_start : Nat) :
    List Nat × Nat × Nat × Nat :=
  if src_start < dst_start then
    let diff := dst_start - src_start
    let data_size := dst_len + 4 + diff
    let dst := realloc fill dst data_size
    let dst := writeAt dst (4 + diff) ((dst.drop 4).take dst_len)
    let dst := zeroFrom 0 dst 4 diff
    let dst_len := dst_len + diff
    let dst_start := src_start
    let dst := writeAt dst 0 (set_le32 dst_start)
    (dst, data_size, dst_len, dst_start)
  else (dst, data_size, dst_len, dst_start)

/-- Lines 353-359 of `sdsf_loader`, the block
`if ( ( src_start + src_len ) > ( dst_start + dst_len ) )`: the image grows
upwards by `diff` zero bytes. The result is `dst` and `data_size` after the
block. -/
def sdsfGrowUp (fill : Nat) (dst : List Nat) (data_size dst_len dst_start src_start src_len : Nat) :
    List Nat × Nat :=
  if src_start + src_len > dst_start + dst_len then
    let diff := (src_start + src_len) - (dst_start + dst_len)
    let data_size := dst_len + 4 + diff
    let dst := realloc fill dst data_size
    let dst := zeroFrom 0 dst (4 + dst_len) diff
    (dst, data_size)
  else (dst, data_size)

/-- The function `sdsf_loader` on a section of `exe.length` bytes; the result
is the state after `return 0`, `none` for `return -1`. -/
def sdsf_loader (fill : Nat) (state : sdsf_loader_state) (exe : List Nat) :
    Option sdsf_loader_state :=
  let exe_size := exe.length
  if exe_size < 4 then none else
  if state.data_size < 4 then some ⟨exe, exe_size⟩ else
  let dst := state.data
  let dst_start := get_le32 dst &&& 0x7fffff
  let src_start := get_le32 exe &&& 0x7fffff
  let dst_len := min (state.data_size - 4) 0x800000
  let src_len := min (exe_size - 4) 0x800000
  let down := sdsfGrowDown fill dst state.data_size dst_len dst_start src_start
  let dst := down.1
  let data_size := down.2.1
  let dst_len := down.2.2.1
  let dst_start := down.2.2.2
  let up := sdsfGrowUp fill dst data_size dst_len dst_start src_start src_len
  let dst := up.1
  let data_size := up.2
  let dst := writeAt dst (4 + (src_start - dst_start)) ((exe.drop 4).take src_len)
  some ⟨dst, data_size⟩

/-- The start address of an SDSF image: its first four bytes, masked to 23
bits as `sdsf_loader` does. -/
def sdsfStart (image : List Nat) : Nat := get_le32 image &&& 0x7fffff

/-- The address after the last byte of an SDSF image. -/
def sdsfEnd (image : List Nat) : Nat := sdsfStart image + (image.length - 4)

/-- The byte that an SDSF image holds for the address `a`. -/
def sdsfByte (image : List Nat) (a : Nat) : Nat := image.getD (4 + (a - sdsfStart image)) 0

end Fooyin.XSFInput

namespace Fooyin.XSFInput

/-- The three arrays of the struct `qsf_loader_state`; each size field
(`key_size`, `z80_size`, `sample_size`) is the length of its array, the two
being set together, and a null pointer is the empty array. -/
structure qsf_loader_state where
  key : List Nat
  z80_rom : List Nat
  sample_rom : List Nat
deriving DecidableEq, Repr

/-- The tail of `qsf_upload_section` on the selected array, from the overflow
test on: the array after the upload, `none` for `return -1`. Bytes that
`realloc` adds have the unspecified content `fill` until `memset` zeroes
them. -/
def qsf_upload_array (fill : Nat) (array : List Nat) (max_size start : Nat) (data : List Nat)
    (size : Nat) : Option (List Nat) :=
  if (start + size) % 2 ^ 32 < start then none else
  let new_size := (start + size) % 2 ^ 32
  let old_size := array.length
  if new_size > max_size then none else
  let array :=
    if new_size > old_size then
      zeroFrom 0 (realloc fill array new_size) old_size (new_size - old_size)
    else array
  some (writeAt array start (data.take size))

/-- The function `qsf_upload_section`: `sect` holds the three tag bytes of `section`,
compared with `KEY`, `Z80` and `SMP`; the state after the upload, `none` for
`return -1`. -/
def qsf_upload_section (fill : Nat) (state : qsf_loader_state) (sect : List Nat)
    (start : Nat) (data : List Nat) (size : Nat) : Option qsf_loader_state :=
  if sect = [75, 69, 89] then
    (qsf_upload_array fill state.key 11 start data size).map
      (fun a => { state with key := a })
  else if sect = [90, 56, 48] then
    (qsf_upload_array fill state.z80_rom 0x7fffffff start data size).map
      (fun a => { state with z80_rom := a })
  else if sect = [83, 77, 80] then
    (qsf_upload_array fill state.sample_rom 0x7fffffff start data size).map
      (fun a => { state with sample_rom := a })
  else none

/-- The loop of `qsf_load`: the state at `return 0`, `none` for `return -1`.
The first argument bounds the iterations; every iteration takes at least 11
bytes, so the number of input bytes always suffices. -/
def qsf_loop (fill : Nat) : Nat → qsf_loader_state → List Nat → Option qsf_loader_state
  | 0, state, exe => if exe.length < 11 then some state else none
  | fuel + 1, state, exe =>
    if exe.length < 11 then some state else
    let s := exe.take 3
    let exe := exe.drop 3
    let dataofs := get_le32 exe
    let exe := exe.drop 4
    let datasize := get_le32 exe
    let exe := exe.drop 4
    if datasize > exe.length then none else
    match qsf_upload_section fill state s dataofs exe datasize with
    | none => none
    | some state => qsf_loop fill fuel state (exe.drop datasize)

/-- The function `qsf_load`. -/
def qsf_load (fill : Nat) (state : qsf_loader_state) (exe : List Nat) :
    Option qsf_loader_state :=
  qsf_loop fill exe.length state exe

/-- A chunk of a QSF program section: the tag of three bytes, the offset and
the length of four bytes each, and the payload. -/
structure QsfChunk where
  tag : List Nat
  ofs : List Nat
  len : List Nat
  payload : List Nat
deriving DecidableEq, Repr

/-- The bytes of a chunk in the file. -/
def QsfChunk.encode (c : QsfChunk) : List Nat := c.tag ++ c.ofs ++ c.len ++ c.payload

/-- The offset of a chunk, its four offset bytes read little-endian. -/
def QsfChunk.offset (c : QsfChunk) : Nat := get_le32 c.ofs

/-- The limit that `qsf_upload_section` sets on offset plus length: 11 for
`KEY`, 0x7fffffff for the two ROM sections. -/
def QsfChunk.limit (c : QsfChunk) : Nat := if c.tag = [75, 69, 89] then 11 else 0x7fffffff

/-- A chunk as the claim describes it: a tag among `KEY`, `Z80`, `SMP`, four
offset bytes, four length bytes that give the length of the payload, and
offset plus length inside 32 bits and inside the limit of the section. -/
def QsfChunk.Valid (c : QsfChunk) : Prop :=
  (c.tag = [75, 69, 89] ∨ c.tag = [90, 56, 48] ∨ c.tag = [83, 77, 80]) ∧
  c.ofs.length = 4 ∧ c.len.length = 4 ∧ c.payload.length = get_le32 c.len ∧
  c.offset + c.payload.length < 2 ^ 32 ∧ c.offset + c.payload.length ≤ c.limit

/-- The payload written at its offset over the previous image, the image
first extended with zero bytes to offset plus length when it is shorter. -/
def placeAt (image : List Nat) (ofs : Nat) (payload : List Nat) : List Nat :=
  writeAt (image ++ List.replicate (ofs + payload.length - image.length) 0) ofs payload

/-- The state after a chunk has been handed to its section. -/
def QsfChunk.apply (state : qsf_loader_state) (c : QsfChunk) : qsf_loader_state :=
  if c.tag = [75, 69, 89] then { state with key := placeAt state.key c.offset c.payload }
  else if c.tag = [90, 56, 48] then
    { state with z80_rom := placeAt state.z80_rom c.offset c.payload }
  else { state with sample_rom := placeAt state.sample_rom c.offset c.payload }

/-- The bytes of a sequence of chunks, one after the other. -/
def encodeChunks : List QsfChunk → List Nat
  | [] => []
  | c :: cs => c.encode ++ encodeChunks cs

end Fooyin.XSFInput

namespace Fooyin.XSFInput

/-- The lengths of the four parts of a chunk agree with its layout. -/
def QsfChunk.Shaped (c : QsfChunk) : Prop :=
  c.tag.length = 3 ∧ c.ofs.length = 4 ∧ c.len.length = 4 ∧ c.payload.length = get_le32 c.len

end Fooyin.XSFInput

/-! # Theorems -/

namespace Fooyin

theorem toLong_of_lt (x : Int) (h0 : 0 ≤ x) (h1 : x < 2 ^ 63) : toLong x = x := by
  unfold toLong
  omega

theorem toULong_of_lt (x : Int) (h0 : 0 ≤ x) (h1 : x < 2 ^ 64) : toULong x = x.toNat := by
  unfold toULong
  rw [Int.emod_eq_of_lt h0 h1]

theorem toULong_natCast (n : Nat) (h : n < 2 ^ 64) : toULong (n : Int) = n := by
  rw [toULong_of_lt _ (by omega) (by omega)]
  simp

end Fooyin

namespace Fooyin.MIDIInput

theorem knownLoopStart_long (f : MidiContainer)
    (h : f.loopStartMs = ULONG_MAX ∨ f.loopStartMs < 2 ^ 32) :
    (if toULong (toLong f.loopStartMs) = ULONG_MAX then (0 : Int)
      else toLong f.loopStartMs) = (f.knownLoopStart : Int) := by
  unfold MidiContainer.knownLoopStart
  rcases h with h | h
  · rw [h]
    have : toULong (toLong (ULONG_MAX : Int)) = ULONG_MAX := by decide
    simp [this]
  · have h1 : toLong (f.loopStartMs : Int) = f.loopStartMs :=
      toLong_of_lt _ (by omega) (by omega)
    have h2 : f.loopStartMs ≠ ULONG_MAX := by unfold ULONG_MAX; omega
    rw [h1, toULong_natCast _ (by omega)]
    simp [h2]

theorem knownLoopEnd_long (f : MidiContainer) (hE : f.timestampEndMs < 2 ^ 32)
    (h : f.loopEndMs = ULONG_MAX ∨ f.loopEndMs < 2 ^ 32) :
    (if toULong (toLong f.loopEndMs) = ULONG_MAX then toLong f.timestampEndMs
      else toLong f.loopEndMs) = (f.knownLoopEnd : Int) := by
  have hEL : toLong (f.timestampEndMs : Int) = f.timestampEndMs :=
    toLong_of_lt _ (by omega) (by omega)
  unfold MidiContainer.knownLoopEnd
  rcases h with h | h
  · rw [h]
    have : toULong (toLong (ULONG_MAX : Int)) = ULONG_MAX := by decide
    simp [this, hEL]
  · have h1 : toLong (f.loopEndMs : Int) = f.loopEndMs :=
      toLong_of_lt _ (by omega) (by omega)
    have h2 : f.loopEndMs ≠ ULONG_MAX := by unfold ULONG_MAX; omega
    rw [h1, toULong_natCast _ (by omega), if_neg h2, if_neg h2]

theorem init_timeline {P : Type} (ops : PlayerOps P) (st : Settings)
    (d : MIDIDecoder P) (data : List Nat) (file : MidiContainer)
    (options : DecoderOptions) (hdata : data ≠ []) (hend : file.timestampEnd ≠ 0) :
    let r := (MIDIDecoder.init ops st d data (some file) options).1
    let t := loopTimeline st file (effectiveLoopCount st options)
    r.framesLength = t.framesLength ∧ r.framesFade = t.framesFade ∧
      r.totalFrames = t.totalFrames ∧ r.loopStart = t.loopStart ∧
      r.loopEnd = t.loopEnd := by
  have hne : data.isEmpty = false := by
    cases data with
    | nil => exact absurd rfl hdata
    | cons a l => rfl
  unfold MIDIDecoder.init
  rw [hne]
  dsimp only
  rw [if_neg (by decide), if_neg hend]
  split <;> simp

theorem loopTimeline_looped (st : Settings) (file : MidiContainer) (lc : Int)
    (hE : file.timestampEndMs < 2 ^ 32)
    (hS : file.loopStartMs = ULONG_MAX ∨ file.loopStartMs < 2 ^ 32)
    (hL : file.loopEndMs = ULONG_MAX ∨ file.loopEndMs < 2 ^ 32)
    (hloop : file.loopDetected) :
    let t := loopTimeline st file lc
    t.framesLength = m_format.framesForDuration (toULong (toLong
        (file.knownLoopStart + ((file.knownLoopEnd : Int) - file.knownLoopStart) * lc))) ∧
    t.framesFade = m_format.framesForDuration (toULong st.fadeLength) ∧
    t.totalFrames = toLong (t.framesLength + t.framesFade) ∧ t.isLooped = true := by
  have hEL : toLong (file.timestampEndMs : Int) = file.timestampEndMs :=
    toLong_of_lt _ (by omega) (by omega)
  have hdec : (file.knownLoopStart : Int) ≠ 0 ∨
      (file.knownLoopEnd : Int) ≠ (file.timestampEndMs : Int) := by
    rcases hloop with h | h
    · left; exact_mod_cast h
    · right; exact_mod_cast h
  have hl : ¬file.knownLoopStart = 0 ∨ ¬file.knownLoopEnd = file.timestampEndMs := hloop
  simp only [loopTimeline]
  rw [knownLoopStart_long file hS, knownLoopEnd_long file hE hL, hEL]
  simp [hl, Settings.fadeLength]

theorem loopTimeline_unlooped (st : Settings) (file : MidiContainer) (lc : Int)
    (hE : file.timestampEndMs < 2 ^ 32)
    (hS : file.loopStartMs = ULONG_MAX ∨ file.loopStartMs < 2 ^ 32)
    (hL : file.loopEndMs = ULONG_MAX ∨ file.loopEndMs < 2 ^ 32)
    (hloop : ¬ file.loopDetected) :
    let t := loopTimeline st file lc
    t.framesLength = m_format.framesForDuration (file.timestampEndMs + 1000) ∧
    t.framesFade = 0 ∧ t.totalFrames = t.framesLength ∧ t.isLooped = false := by
  have hEL : toLong (file.timestampEndMs : Int) = file.timestampEndMs :=
    toLong_of_lt _ (by omega) (by omega)
  have hdec : ¬ ((file.knownLoopStart : Int) ≠ 0 ∨
      (file.knownLoopEnd : Int) ≠ (file.timestampEndMs : Int)) := by
    intro h
    apply hloop
    rcases h with h | h
    · left; exact_mod_cast h
    · right; exact_mod_cast h
  simp only [loopTimeline]
  rw [knownLoopStart_long file hS, knownLoopEnd_long file hE hL, hEL]
  have hl : ¬ (¬file.knownLoopStart = 0 ∨ ¬file.knownLoopEnd = file.timestampEndMs) := hloop
  have h1 : toLong ((file.timestampEndMs : Int) + 1000) = ((file.timestampEndMs + 1000 : Nat) : Int) := by
    rw [toLong_of_lt _ (by omega) (by omega)]
    simp
  have h0 : toULong 0 = 0 := by decide
  have h2 : toULong ((file.timestampEndMs + 1000 : Nat) : Int) = file.timestampEndMs + 1000 :=
    toULong_natCast _ (by omega)
  have h3 : m_format.framesForDuration 0 = 0 := by decide
  have h4 : (m_format.framesForDuration (file.timestampEndMs + 1000) : Int) < 2 ^ 63 := by
    unfold AudioFormat.framesForDuration m_format
    simp only
    omega
  have hd : decide ((file.knownLoopStart : Int) ≠ 0 ∨
      (file.knownLoopEnd : Int) ≠ (file.timestampEndMs : Int)) = false := decide_eq_false hdec
  simp only [hd, h1, h0, h2, h3, if_false, Bool.false_eq_true, Nat.cast_zero,
    add_zero, true_and, and_true]
  exact toLong_of_lt _ (by omega) h4

theorem framesForDuration_lt (ms : Nat) (h : ms < 2 ^ 48) :
    m_format.framesForDuration ms < 2 ^ 54 := by
  unfold AudioFormat.framesForDuration m_format
  simp only
  omega

/-- C1, as the code has it: for every source in which `MIDIDecoder::init`
detects a loop, with the loop points in milliseconds and the unknown sentinels
replaced, the length is converted to frames after the loop expansion:
`frames_length = frames_for(loop_start + (loop_end - loop_start) * loop_count)`,
`frames_fade = frames_for(fade_ms)` and
`total_frames = frames_length + frames_fade`. -/
theorem init_looped_timeline {P : Type} (ops : PlayerOps P) (st : Settings)
    (d : MIDIDecoder P) (data : List Nat) (file : MidiContainer)
    (options : DecoderOptions) (lc fade : Nat)
    (hdata : data ≠ []) (hend : file.timestampEnd ≠ 0)
    (hE : file.timestampEndMs < 2 ^ 32)
    (hS : file.loopStartMs = ULONG_MAX ∨ file.loopStartMs < 2 ^ 32)
    (hL : file.loopEndMs = ULONG_MAX ∨ file.loopEndMs < 2 ^ 32)
    (hloop : file.loopDetected)
    (hord : file.knownLoopStart ≤ file.knownLoopEnd)
    (hlc : effectiveLoopCount st options = lc)
    (hlen : file.knownLoopStart + (file.knownLoopEnd - file.knownLoopStart) * lc < 2 ^ 48)
    (hfade : st.fadeLength = fade) (hfb : fade < 2 ^ 31) :
    (MIDIDecoder.init ops st d data (some file) options).1.framesLength =
      m_format.framesForDuration
        (file.knownLoopStart + (file.knownLoopEnd - file.knownLoopStart) * lc) ∧
    (MIDIDecoder.init ops st d data (some file) options).1.framesFade =
      m_format.framesForDuration fade ∧
    (MIDIDecoder.init ops st d data (some file) options).1.totalFrames =
      (MIDIDecoder.init ops st d data (some file) options).1.framesLength +
      (MIDIDecoder.init ops st d data (some file) options).1.framesFade := by
  obtain ⟨h1, h2, h3, -, -⟩ := init_timeline ops st d data file options hdata hend
  rw [hlc] at h1 h2 h3
  obtain ⟨t1, t2, t3, -⟩ := loopTimeline_looped st file (lc : Int) hE hS hL hloop
  have hcast : (file.knownLoopStart : Int) +
      ((file.knownLoopEnd : Int) - file.knownLoopStart) * (lc : Int) =
      ((file.knownLoopStart + (file.knownLoopEnd - file.knownLoopStart) * lc : Nat) : Int) := by
    push_cast [Nat.cast_sub hord]
    ring
  have hlenms : toULong (toLong ((file.knownLoopStart : Int) +
      ((file.knownLoopEnd : Int) - file.knownLoopStart) * (lc : Int))) =
      file.knownLoopStart + (file.knownLoopEnd - file.knownLoopStart) * lc := by
    rw [hcast, toLong_of_lt _ (by omega) (by omega), toULong_natCast _ (by omega)]
  have hfadems : toULong st.fadeLength = fade := by
    rw [hfade, toULong_natCast _ (by omega)]
  have b1 := framesForDuration_lt _ hlen
  have b2 := framesForDuration_lt fade (by omega)
  rw [hlenms] at t1
  rw [hfadems] at t2
  rw [h1, h2, h3, t3, t1, t2]
  exact ⟨rfl, rfl, toLong_of_lt _ (by omega) (by omega)⟩

/-- The looped timeline theorem at the scenario of the spec: loop points at
1000 ms and 5000 ms, loop count 2, fade 1000 ms. -/
theorem init_looped_timeline_witness :
    loopedScenario.framesLength = m_format.framesForDuration (1000 + (5000 - 1000) * 2) ∧
    loopedScenario.framesFade = m_format.framesForDuration 1000 ∧
    loopedScenario.totalFrames = loopedScenario.framesLength + loopedScenario.framesFade :=
  init_looped_timeline onesPlayer ⟨some 2, some 1000, 2, 10000⟩ (MIDIDecoder.fresh Unit) [77]
    ⟨480, 6000, 1000, 5000⟩ ⟨false, false⟩ 2 1000 (by decide) (by decide) (by decide)
    (by decide) (by decide) (by decide) (by decide) (by decide) (by decide) (by decide)
    (by decide)

/-- C1, the scenario as the spec words it: with loop points 1000 and 5000, a
loop count of 2 and a fade of 1000 ms at 44100 Hz the code yields
`frames_length = 396900` and `total_frames = 441000`, not 9000 and 53100. -/
theorem init_looped_scenario_frames :
    loopedScenario.framesLength = 396900 ∧ loopedScenario.framesFade = 44100 ∧
    loopedScenario.totalFrames = 441000 ∧ loopedScenario.framesLength ≠ 9000 ∧
    loopedScenario.totalFrames ≠ 53100 := by
  decide

end Fooyin.MIDIInput

namespace Fooyin

/-- C3: in `MIDIDecoder::readBuffer` with `repeatOne` false and in
`XSFDecoder::readBuffer`, a call at `framesRead >= totalFrames` returns the
empty buffer and leaves the whole decoder, the backend state and `framesRead`
included, as it was, for every backend: no render call is made. -/
theorem readBuffer_end_of_stream :
    (∀ (P : Type) (ops : MIDIInput.PlayerOps P) (d : MIDIInput.MIDIDecoder P) (bytes : Nat),
      d.repeatOne = false → d.framesRead ≥ d.totalFrames →
      MIDIInput.MIDIDecoder.readBuffer ops d bytes = (d, [])) ∧
    (∀ (E : Type) (ops : XSFInput.EmuOps E) (d : XSFInput.XSFDecoder E) (bytes : Nat),
      d.framesRead ≥ d.totalFrames →
      XSFInput.XSFDecoder.readBuffer ops d bytes = (d, [])) := by
  constructor
  · intro P ops d bytes hrep hge
    unfold MIDIInput.MIDIDecoder.readBuffer
    simp [hrep, hge]
  · intro E ops d bytes hge
    unfold XSFInput.XSFDecoder.readBuffer
    simp [hge]

/-- The end-of-stream theorem at sessions that stand at frame 5 of 5. -/
theorem readBuffer_end_of_stream_witness :
    MIDIInput.MIDIDecoder.readBuffer MIDIInput.onesPlayer
        (MIDIInput.MIDIDecoder.playing () false 5 3 2) 64 =
      (MIDIInput.MIDIDecoder.playing () false 5 3 2, []) ∧
    XSFInput.XSFDecoder.readBuffer XSFInput.constEmu (XSFInput.XSFDecoder.playing () 5 3 2) 64 =
      (XSFInput.XSFDecoder.playing () 5 3 2, []) :=
  ⟨readBuffer_end_of_stream.1 Unit _ _ 64 rfl (by decide),
   readBuffer_end_of_stream.2 Unit _ _ 64 (by decide)⟩

/-- C4 at a failing input: a session at frame 100 with `framesLength = 100`
and `framesFade = 4` reads four frames, the whole fade window. The loop adds
`fadeStep` to `fadeScale`, so the gains applied to positions 100, 101, 102,
103 are 1, 5/4, 3/2, 7/4 (the MIDI player renders the sample 1, the XSF core
the sample 1000), where the claim has 1, 3/4, 1/2, 1/4. -/
theorem fade_gain_increases :
    (MIDIInput.MIDIDecoder.readBuffer MIDIInput.onesPlayer
        (MIDIInput.MIDIDecoder.playing () false 100 100 4) 32).2 =
      [1, 1, 5 / 4, 5 / 4, 3 / 2, 3 / 2, 7 / 4, 7 / 4] ∧
    (XSFInput.XSFDecoder.readBuffer XSFInput.constEmu
        (XSFInput.XSFDecoder.playing () 100 100 4) 16).2 =
      [1000, 1000, 1250, 1250, 1500, 1500, 1750, 1750] := by
  constructor
  · simp [MIDIInput.MIDIDecoder.readBuffer, MIDIInput.MIDIDecoder.playing,
      MIDIInput.MIDIDecoder.playLoop, MIDIInput.onesPlayer, MIDIInput.m_format,
      AudioFormat.framesForBytes, AudioFormat.bytesPerFrame, applyFade, fadeLoop, modifyAt,
      writeAt, MIDIInput.BufferLen, List.replicate]
    norm_num
  · simp [XSFInput.XSFDecoder.readBuffer, XSFInput.XSFDecoder.playing,
      XSFInput.XSFDecoder.renderLoop, XSFInput.emu_render, XSFInput.emu_switch,
      XSFInput.constEmu,
      XSFInput.sessionFormat, XSFInput.mulS16,
      AudioFormat.framesForBytes, AudioFormat.bytesPerFrame, applyFade, fadeLoop, modifyAt,
      writeAt, XSFInput.BufferLen, List.replicate]
    norm_num

/-- C5 at a failing input: a session at frame 0 with `framesLength = 3` and
`framesFade = 4` reads five frames, so `fadeStart = 3` and `fadeEnd = 5`. The
start pointer is advanced by `fadeStart - framesRead` samples, not frames: the
loop scales samples 3, 4 (by 1) and 5, 6 (by 5/4). Frame 2, before
`fadeStart`, comes back as (1, 5/4) and frame 4, inside the fade window, comes
back as rendered. -/
theorem fade_window_misplaced :
    (MIDIInput.MIDIDecoder.readBuffer MIDIInput.onesPlayer
        (MIDIInput.MIDIDecoder.playing () false 0 3 4) 40).2 =
      [1, 1, 1, 1, 1, 5 / 4, 5 / 4, 1, 1, 1] ∧
    (XSFInput.XSFDecoder.readBuffer XSFInput.constEmu
        (XSFInput.XSFDecoder.playing () 0 3 4) 20).2 =
      [1000, 1000, 1000, 1000, 1000, 1250, 1250, 1000, 1000, 1000] := by
  constructor
  · simp [MIDIInput.MIDIDecoder.readBuffer, MIDIInput.MIDIDecoder.playing,
      MIDIInput.MIDIDecoder.playLoop, MIDIInput.onesPlayer, MIDIInput.m_format,
      AudioFormat.framesForBytes, AudioFormat.bytesPerFrame, applyFade, fadeLoop, modifyAt,
      writeAt, MIDIInput.BufferLen, List.replicate]
    norm_num
  · simp [XSFInput.XSFDecoder.readBuffer, XSFInput.XSFDecoder.playing,
      XSFInput.XSFDecoder.renderLoop, XSFInput.emu_render, XSFInput.emu_switch,
      XSFInput.constEmu,
      XSFInput.sessionFormat, XSFInput.mulS16,
      AudioFormat.framesForBytes, AudioFormat.bytesPerFrame, applyFade, fadeLoop, modifyAt,
      writeAt, XSFInput.BufferLen, List.replicate]
    norm_num

/-- C6 at a failing input: a session at frame 0 with `framesLength = 1` and
`framesFade = 1`, so `totalFrames = 2`, reads four frames. `MIDIDecoder`
returns all four frames as rendered, frames 2 and 3 included; `XSFDecoder`
clears them. -/
theorem midi_tail_not_silenced :
    (MIDIInput.MIDIDecoder.readBuffer MIDIInput.onesPlayer
        (MIDIInput.MIDIDecoder.playing () false 0 1 1) 32).2 =
      [1, 1, 1, 1, 1, 1, 1, 1] ∧
    (XSFInput.XSFDecoder.readBuffer XSFInput.constEmu
        (XSFInput.XSFDecoder.playing () 0 1 1) 16).2 =
      [1000, 1000, 1000, 1000, 0, 0, 0, 0] := by
  constructor
  · simp [MIDIInput.MIDIDecoder.readBuffer, MIDIInput.MIDIDecoder.playing,
      MIDIInput.MIDIDecoder.playLoop, MIDIInput.onesPlayer, MIDIInput.m_format,
      AudioFormat.framesForBytes, AudioFormat.bytesPerFrame, applyFade, fadeLoop, modifyAt,
      writeAt, MIDIInput.BufferLen, List.replicate]
  · simp [XSFInput.XSFDecoder.readBuffer, XSFInput.XSFDecoder.playing,
      XSFInput.XSFDecoder.renderLoop, XSFInput.emu_render, XSFInput.emu_switch,
      XSFInput.constEmu,
      XSFInput.sessionFormat, XSFInput.mulS16, toULong, zeroFrom,
      AudioFormat.framesForBytes, AudioFormat.bytesPerFrame, applyFade, fadeLoop, modifyAt,
      writeAt, XSFInput.BufferLen, List.replicate]

end Fooyin

namespace Fooyin.XSFInput

theorem emu_render_count_pos {E : Type} (ops : EmuOps E) (v : Int) (e : E) (n : Nat)
    (h : 0 ≤ (emu_render ops v e n).err) : 0 < (emu_render ops v e n).count := by
  unfold emu_render at h ⊢
  dsimp only at h ⊢
  by_cases hc : (emu_switch ops v e n).count = 0
  · rw [if_pos hc] at h
    simp at h
  · rw [if_neg hc]
    omega

theorem seekLoop_fields {E : Type} (ops : EmuOps E) (target : Nat) :
    ∀ (fuel : Nat) (d : XSFDecoder E),
      (XSFDecoder.seekLoop ops target fuel d).m_format = d.m_format ∧
      (XSFDecoder.seekLoop ops target fuel d).m_version = d.m_version ∧
      (XSFDecoder.seekLoop ops target fuel d).totalFrames = d.totalFrames ∧
      (XSFDecoder.seekLoop ops target fuel d).framesLength = d.framesLength ∧
      (XSFDecoder.seekLoop ops target fuel d).framesFade = d.framesFade := by
  intro fuel
  induction fuel with
  | zero => intro d; simp [XSFDecoder.seekLoop]
  | succ fuel ih =>
    intro d
    unfold XSFDecoder.seekLoop
    by_cases h1 : toULong d.framesRead < target
    · rw [if_pos h1]
      dsimp only
      generalize (if BufferLen > target - toULong d.framesRead then
        target - toULong d.framesRead else BufferLen) = toSkip
      by_cases h2 : (emu_render ops d.m_version d.emu toSkip).err < 0
      · rw [if_pos h2]
        exact ⟨rfl, rfl, rfl, rfl, rfl⟩
      · rw [if_neg h2]
        exact ih _
    · rw [if_neg h1]
      exact ⟨rfl, rfl, rfl, rfl, rfl⟩

theorem seekLoop_reaches {E : Type} (ops : EmuOps E) (target : Nat) (v : Int)
    (hall : RendersAll ops v) (ht : target < 2 ^ 63) :
    ∀ (fuel : Nat) (d : XSFDecoder E), d.m_version = v → 0 ≤ d.framesRead →
      d.framesRead ≤ target → target - d.framesRead.toNat ≤ fuel →
      (XSFDecoder.seekLoop ops target fuel d).framesRead = target := by
  intro fuel
  induction fuel with
  | zero =>
    intro d _ h0 h1 h2
    simp only [XSFDecoder.seekLoop]
    omega
  | succ fuel ih =>
    intro d hv h0 h1 h2
    have hu : toULong d.framesRead = d.framesRead.toNat :=
      toULong_of_lt _ h0 (by omega)
    unfold XSFDecoder.seekLoop
    rw [hu]
    by_cases hlt : d.framesRead.toNat < target
    · rw [if_pos hlt]
      dsimp only
      have hskip : 0 < (if BufferLen > target - d.framesRead.toNat then
          target - d.framesRead.toNat else BufferLen) := by
        split
        · omega
        · decide
      have hle : (if BufferLen > target - d.framesRead.toNat then
          target - d.framesRead.toNat else BufferLen) ≤ target - d.framesRead.toNat := by
        split <;> omega
      rw [hv]
      obtain ⟨herr, hcount⟩ := hall d.emu _ hskip
      have hpos := emu_render_count_pos ops v d.emu _ herr
      rw [if_neg (by omega)]
      refine ih _ rfl ?_ ?_ ?_
      · show 0 ≤ d.framesRead + _
        omega
      · show d.framesRead + _ ≤ (target : Int)
        omega
      · show target - (d.framesRead + _).toNat ≤ fuel
        omega
    · rw [if_neg hlt]
      omega

theorem start_fields {E : Type} (ops : EmuOps E) (d : XSFDecoder E) :
    XSFDecoder.start ops d = ⟨d.m_format, d.m_version, (ops.emu_init d.m_version).1,
      d.totalFrames, d.framesLength, d.framesFade, 0⟩ := rfl

theorem seek_fields {E : Type} (ops : EmuOps E) (d : XSFDecoder E) (pos : Nat) :
    (XSFDecoder.seek ops d pos).m_format = d.m_format ∧
    (XSFDecoder.seek ops d pos).m_version = d.m_version ∧
    (XSFDecoder.seek ops d pos).totalFrames = d.totalFrames ∧
    (XSFDecoder.seek ops d pos).framesLength = d.framesLength ∧
    (XSFDecoder.seek ops d pos).framesFade = d.framesFade := by
  unfold XSFDecoder.seek
  dsimp only
  split
  · exact seekLoop_fields ops _ _ _
  · exact seekLoop_fields ops _ _ _

theorem start_seek {E : Type} (ops : EmuOps E) (d : XSFDecoder E) (pos : Nat) :
    XSFDecoder.start ops (XSFDecoder.seek ops d pos) = XSFDecoder.start ops d := by
  obtain ⟨h1, h2, h3, h4, h5⟩ := seek_fields ops d pos
  rw [start_fields, start_fields, h1, h2, h3, h4, h5]

theorem seek_of_start {E : Type} (ops : EmuOps E) (d : XSFDecoder E) (pos : Nat) :
    XSFDecoder.seek ops (XSFDecoder.start ops d) pos =
      XSFDecoder.seekLoop ops (d.m_format.framesForDuration pos)
        (d.m_format.framesForDuration pos) (XSFDecoder.start ops d) := by
  have h0 : toULong 0 = 0 := by decide
  unfold XSFDecoder.seek
  dsimp only
  have hf : (XSFDecoder.start ops d).framesRead = 0 := rfl
  have hm : (XSFDecoder.start ops d).m_format = d.m_format := rfl
  rw [hf, hm, h0, if_neg (Nat.not_lt_zero _), hf, h0, Nat.sub_zero]

theorem seek_rebuilds {E : Type} (ops : EmuOps E) (d0 d : XSFDecoder E) (pos : Nat)
    (hd : XSFDecoder.start ops d = XSFDecoder.start ops d0) (hm : d.m_format = d0.m_format)
    (h : d.m_format.framesForDuration pos < toULong d.framesRead) :
    XSFDecoder.seek ops d pos = XSFDecoder.seek ops (XSFDecoder.start ops d0) pos := by
  rw [seek_of_start]
  have h0 : toULong 0 = 0 := by decide
  unfold XSFDecoder.seek
  dsimp only
  rw [if_pos h, hd]
  have hf : (XSFDecoder.start ops d0).framesRead = 0 := rfl
  rw [hf, h0, Nat.sub_zero, hm]

/-- C9, as the code has it: `MIDIDecoder::seek` always ends with `framesRead`
at the target frame `framesForDuration(pos)`; `XSFDecoder::seek` does so when
the render calls of its catch-up loop succeed, the loop leaving by `break` at
the first call that fails. -/
theorem seek_ends_at_target :
    (∀ (P : Type) (ops : MIDIInput.PlayerOps P) (d : MIDIInput.MIDIDecoder P) (pos : Nat),
      (MIDIInput.MIDIDecoder.seek ops d pos).framesRead =
        MIDIInput.m_format.framesForDuration pos) ∧
    (∀ (E : Type) (ops : EmuOps E) (d : XSFDecoder E) (pos : Nat),
      RendersAll ops d.m_version → -2 ^ 63 ≤ d.framesRead → d.framesRead < 2 ^ 63 →
      d.m_format.framesForDuration pos < 2 ^ 63 →
      (XSFDecoder.seek ops d pos).framesRead = d.m_format.framesForDuration pos) := by
  constructor
  · intro P ops d pos
    rfl
  · intro E ops d pos hall hlo hhi ht
    unfold XSFDecoder.seek
    dsimp only
    by_cases hlt : d.m_format.framesForDuration pos < toULong d.framesRead
    · rw [if_pos hlt]
      exact seekLoop_reaches ops _ d.m_version hall ht _ _ rfl (le_refl _)
        (by show (0 : Int) ≤ _; omega) (by show _ - (0 : Int).toNat ≤ _ - toULong 0; simp [toULong])
    · rw [if_neg hlt]
      have hnn : 0 ≤ d.framesRead := by
        unfold toULong at hlt
        omega
      have hu : toULong d.framesRead = d.framesRead.toNat :=
        toULong_of_lt _ hnn (by omega)
      rw [hu] at hlt ⊢
      exact seekLoop_reaches ops _ d.m_version hall ht _ _ rfl hnn (by omega) (le_refl _)

theorem constEmu_rendersAll : RendersAll constEmu 1 := by
  intro e n hn
  have h : emu_render constEmu 1 e n = ⟨(), n, 0, List.replicate (2 * n) 1000⟩ := by
    unfold emu_render emu_switch constEmu
    simp
    omega
  rw [h]
  exact ⟨le_refl _, le_refl _⟩

/-- The seek theorem at a MIDI session and at an XSF session over the core that
renders every frame, both sought to 1 ms. -/
theorem seek_ends_at_target_witness :
    (MIDIInput.MIDIDecoder.seek MIDIInput.onesPlayer
        (MIDIInput.MIDIDecoder.playing () false 7 100 0) 1).framesRead =
      MIDIInput.m_format.framesForDuration 1 ∧
    RendersAll constEmu (XSFDecoder.playing () 7 100 0).m_version ∧
    (XSFDecoder.seek constEmu (XSFDecoder.playing () 7 100 0) 1).framesRead =
      (XSFDecoder.playing () 7 100 0).m_format.framesForDuration 1 :=
  ⟨seek_ends_at_target.1 Unit MIDIInput.onesPlayer _ 1, constEmu_rendersAll,
   seek_ends_at_target.2 Unit constEmu (XSFDecoder.playing () 7 100 0) 1 constEmu_rendersAll
     (by decide) (by decide) (by decide)⟩

/-- C9 as stated fails for `XSFDecoder::seek`: over a core whose track ends
after 3 frames, a seek to 1 ms (frame 44) from frame 0 leaves `framesRead` at
0, since the first render call reports the end and the loop breaks. -/
theorem xsf_seek_stops_short :
    (XSFDecoder.playing (0 : Nat) 0 100000 0).m_format.framesForDuration 1 = 44 ∧
    (XSFDecoder.seek (finiteEmu 3) (XSFDecoder.playing (0 : Nat) 0 100000 0) 1).framesRead = 0 ∧
    (XSFDecoder.seek (finiteEmu 3) (XSFDecoder.playing (0 : Nat) 0 100000 0) 1).framesRead ≠ 44 := by
  decide

theorem framesForDuration_mono (fmt : AudioFormat) (a b : Nat) (h : a ≤ b) :
    fmt.framesForDuration a ≤ fmt.framesForDuration b := by
  unfold AudioFormat.framesForDuration
  exact Nat.div_le_div_right (Nat.mul_le_mul_right _ h)

/-- C10, as the code has it: for all target times `t2 < t1` such that
`seek(t1)` from a freshly started session reached its target frame, the
session after `seek(t1); seek(t2)` equals the session after a fresh start
followed by `seek(t2)` alone, backend state and `framesRead` included. -/
theorem seek_back_equals_fresh_seek {E : Type} (ops : EmuOps E) (d : XSFDecoder E)
    (t1 t2 : Nat) (ht : t2 < t1) (hb : d.m_format.framesForDuration t1 < 2 ^ 63)
    (hreach : (XSFDecoder.seek ops (XSFDecoder.start ops d) t1).framesRead =
      d.m_format.framesForDuration t1) :
    XSFDecoder.seek ops (XSFDecoder.seek ops (XSFDecoder.start ops d) t1) t2 =
      XSFDecoder.seek ops (XSFDecoder.start ops d) t2 := by
  have hmono := framesForDuration_mono d.m_format t2 t1 (le_of_lt ht)
  have hfmt : (XSFDecoder.seek ops (XSFDecoder.start ops d) t1).m_format = d.m_format :=
    (seek_fields ops (XSFDecoder.start ops d) t1).1
  have hu : toULong (XSFDecoder.seek ops (XSFDecoder.start ops d) t1).framesRead =
      d.m_format.framesForDuration t1 := by
    rw [hreach]
    exact toULong_natCast _ (by omega)
  rcases Nat.lt_or_ge (d.m_format.framesForDuration t2) (d.m_format.framesForDuration t1)
    with hlt | hge
  · apply seek_rebuilds ops d
    · rw [start_seek]
      rfl
    · exact hfmt
    · rw [hfmt, hu]
      exact hlt
  · have heq : d.m_format.framesForDuration t2 = d.m_format.framesForDuration t1 :=
      le_antisymm hmono hge
    have hR : XSFDecoder.seek ops (XSFDecoder.start ops d) t2 =
        XSFDecoder.seek ops (XSFDecoder.start ops d) t1 := by
      rw [seek_of_start, seek_of_start, heq]
    rw [hR]
    generalize hd1 : XSFDecoder.seek ops (XSFDecoder.start ops d) t1 = d1 at hfmt hu ⊢
    unfold XSFDecoder.seek
    dsimp only
    rw [hfmt, hu, heq, if_neg (lt_irrefl _), hu, Nat.sub_self]
    rfl

/-- The backward-seek theorem at the core that renders every frame:
`seek(2 ms)` then `seek(1 ms)` against a fresh start and `seek(1 ms)`. -/
theorem seek_back_equals_fresh_seek_witness :
    (XSFDecoder.seek constEmu (XSFDecoder.start constEmu (XSFDecoder.playing () 0 100 0)) 2).framesRead =
      (XSFDecoder.playing () 0 100 0).m_format.framesForDuration 2 ∧
    XSFDecoder.seek constEmu
        (XSFDecoder.seek constEmu (XSFDecoder.start constEmu (XSFDecoder.playing () 0 100 0)) 2) 1 =
      XSFDecoder.seek constEmu (XSFDecoder.start constEmu (XSFDecoder.playing () 0 100 0)) 1 :=
  ⟨by decide,
   seek_back_equals_fresh_seek constEmu (XSFDecoder.playing () 0 100 0) 2 1 (by decide)
     (by decide) (by decide)⟩

/-- C10 as stated fails when `seek(t1)` stops short: over a core whose track
ends after 50 frames, `seek(2 ms)` (frame 88) breaks at the first render call
with `framesRead = 0` and the core at its end, so `seek(1 ms)` (frame 44) does
not rebuild and ends at `framesRead = 0` with the core at frame 50; a fresh
start followed by `seek(1 ms)` ends at `framesRead = 44` with the core at
frame 44, and the next `readBuffer` of four frames returns nothing in the first
run and four frames in the second. -/
theorem seek_back_differs_after_failure :
    (XSFDecoder.seek (finiteEmu 50)
        (XSFDecoder.seek (finiteEmu 50) (XSFDecoder.start (finiteEmu 50) shortTrack) 2) 1).framesRead
      = 0 ∧
    (XSFDecoder.seek (finiteEmu 50)
        (XSFDecoder.seek (finiteEmu 50) (XSFDecoder.start (finiteEmu 50) shortTrack) 2) 1).emu
      = 50 ∧
    (XSFDecoder.seek (finiteEmu 50) (XSFDecoder.start (finiteEmu 50) shortTrack) 1).framesRead
      = 44 ∧
    (XSFDecoder.seek (finiteEmu 50) (XSFDecoder.start (finiteEmu 50) shortTrack) 1).emu = 44 ∧
    (XSFDecoder.readBuffer (finiteEmu 50) (XSFDecoder.seek (finiteEmu 50)
        (XSFDecoder.seek (finiteEmu 50) (XSFDecoder.start (finiteEmu 50) shortTrack) 2) 1) 16).2
      = [] ∧
    (XSFDecoder.readBuffer (finiteEmu 50)
        (XSFDecoder.seek (finiteEmu 50) (XSFDecoder.start (finiteEmu 50) shortTrack) 1) 16).2
      = [1000, 1000, 1000, 1000, 1000, 1000, 1000, 1000] := by
  decide

theorem scanTimeChars_spec : ∀ (s : List Char) (n : Nat),
    ∃ a : List Char, s = a ++ (scanTimeChars s n).1 ∧
      (∀ c ∈ a, isDigit c = true ∨ c = ':') ∧ (scanTimeChars s n).2 = n + a.count ':' := by
  intro s
  induction s with
  | nil => intro n; exact ⟨[], rfl, by simp, by simp [scanTimeChars]⟩
  | cons c cs ih =>
    intro n
    unfold scanTimeChars
    by_cases hc : (isDigit c || decide (c = ':')) = true
    · rw [if_pos hc]
      obtain ⟨a, h1, h2, h3⟩ := ih (n + if c = ':' then 1 else 0)
      refine ⟨c :: a, ?_, ?_, ?_⟩
      · rw [List.cons_append, ← h1]
      · intro x hx
        rcases List.mem_cons.1 hx with h | h
        · subst h
          simpa using hc
        · exact h2 x h
      · rw [h3, List.count_cons]
        by_cases hcc : c = ':'
        · subst hcc
          simp
          omega
        · have : (c == ':') = false := by simpa using hcc
          simp [hcc, this]
    · rw [if_neg hc]
      exact ⟨[], rfl, by simp, by simp⟩

/-- C8, as the code has it: every string (up to its terminator) that is not a
run of digits and at most two colons, optionally followed by one `.` or `,` and
digits only, is answered with the sentinel `BORK_TIME`. -/
theorem parse_time_crap_rejects (s : List Char) (h : ¬ WellShaped (cstr s)) :
    parse_time_crap s = BORK_TIME := by
  unfold parse_time_crap
  dsimp only
  obtain ⟨a, h1, h2, h3⟩ := scanTimeChars_spec (cstr s) 0
  by_cases hcol : 2 < (scanTimeChars (cstr s) 0).2
  · rw [if_pos hcol]
  · rw [if_neg hcol]
    have hcount : a.count ':' ≤ 2 := by omega
    cases hrest : (scanTimeChars (cstr s) 0).1 with
    | nil =>
      exfalso
      apply h
      refine ⟨a, [], h2, hcount, by simp [AllDigits], Or.inl ?_⟩
      rw [h1, hrest, List.append_nil]
    | cons c rest =>
      dsimp only
      by_cases hm : ((decide (c ≠ '.') && decide (c ≠ ',')) ||
          !(rest.dropWhile isDigit).isEmpty) = true
      · rw [if_pos hm]
      · exfalso
        apply h
        simp only [Bool.or_eq_true, Bool.and_eq_true, decide_eq_true_eq, Bool.not_eq_true',
          not_or, not_and, Bool.not_eq_false, List.isEmpty_iff] at hm
        obtain ⟨hsep, hdig⟩ := hm
        have hf : AllDigits rest := List.dropWhile_eq_nil_iff.1 hdig
        by_cases hdot : c = '.'
        · refine ⟨a, rest, h2, hcount, hf, Or.inr (Or.inl ?_)⟩
          rw [h1, hrest, hdot]
        · have hcomma : c = ',' := by
            by_contra hne
            exact hsep hdot hne
          refine ⟨a, rest, h2, hcount, hf, Or.inr (Or.inr ?_)⟩
          rw [h1, hrest, hcomma]

theorem colon_not_digit : isDigit ':' = false := by decide

theorem allDigits_count_colon (f : List Char) (h : AllDigits f) : f.count ':' = 0 := by
  rw [List.count_eq_zero]
  intro hmem
  have := h ':' hmem
  rw [colon_not_digit] at this
  exact Bool.false_ne_true this

theorem wellShaped_colons (s : List Char) (h : WellShaped s) : s.count ':' ≤ 2 := by
  obtain ⟨a, f, -, hc, hf, hs⟩ := h
  have hf0 := allDigits_count_colon f hf
  rcases hs with hs | hs | hs
  · rw [hs]; exact hc
  · rw [hs, List.count_append, List.count_cons, hf0]
    have : ('.' == ':') = false := by decide
    simp [this]
    exact hc
  · rw [hs, List.count_append, List.count_cons, hf0]
    have : (',' == ':') = false := by decide
    simp [this]
    exact hc

/-- The rejection theorem at `"1:2:3:4"`, which has three colons. -/
theorem parse_time_crap_rejects_witness :
    ¬ WellShaped (cstr ['1', ':', '2', ':', '3', ':', '4']) ∧
    parse_time_crap ['1', ':', '2', ':', '3', ':', '4'] = BORK_TIME := by
  have hw : ¬ WellShaped (cstr ['1', ':', '2', ':', '3', ':', '4']) := by
    intro hws
    have hle := wellShaped_colons _ hws
    revert hle
    decide
  exact ⟨hw, parse_time_crap_rejects _ hw⟩

/-- C8 as stated fails on empty fields and on the comma: the empty string and
`":5"` parse to 0, `"1::5"` to 3605000 and `"1,5"` to 1000, none of them to
the sentinel. -/
theorem parse_time_crap_accepts_empty_fields :
    parse_time_crap [] = 0 ∧ parse_time_crap [':', '5'] = 0 ∧
    parse_time_crap ['1', ':', ':', '5'] = 3605000 ∧
    parse_time_crap ['1', ',', '5'] = 1000 ∧ BORK_TIME = 3234512922 := by
  decide

theorem cstr_self (s : List Char) (h : ∀ c ∈ s, c ≠ Char.ofNat 0) : cstr s = s := by
  unfold cstr
  rw [List.takeWhile_eq_self_iff]
  intro c hc
  simpa using h c hc

theorem digit_ne_nul (c : Char) (h : isDigit c = true) : c ≠ Char.ofNat 0 := by
  intro hc
  subst hc
  revert h
  decide

theorem digit_ne_colon (c : Char) (h : isDigit c = true) : c ≠ ':' := by
  intro hc
  subst hc
  revert h
  decide

theorem scan_prefix : ∀ (a rest : List Char) (n : Nat),
    (∀ c ∈ a, isDigit c = true ∨ c = ':') →
    (rest = [] ∨ ∃ c r, rest = c :: r ∧ isDigit c = false ∧ c ≠ ':') →
    scanTimeChars (a ++ rest) n = (rest, n + a.count ':') := by
  intro a
  induction a with
  | nil =>
    intro rest n _ hrest
    rcases hrest with h | ⟨c, r, h, hd, hc⟩
    · subst h
      simp [scanTimeChars]
    · subst h
      simp [scanTimeChars, hd, hc]
  | cons x xs ih =>
    intro rest n ha hrest
    have hx : (isDigit x || decide (x = ':')) = true := by
      have := ha x (List.mem_cons_self _ _)
      simpa using this
    rw [List.cons_append]
    unfold scanTimeChars
    rw [if_pos hx, ih rest _ (fun c hc => ha c (List.mem_cons_of_mem _ hc)) hrest,
      List.count_cons]
    by_cases hcc : x = ':'
    · subst hcc
      simp
      omega
    · have : (x == ':') = false := by simpa using hcc
      simp [hcc, this]

theorem fraction_rest (frac : List Char) (h : IsFraction frac) :
    frac = [] ∨ ∃ c r, frac = c :: r ∧ isDigit c = false ∧ c ≠ ':' := by
  rcases h with h | ⟨ff, h, -⟩
  · exact Or.inl h
  · exact Or.inr ⟨'.', ff, h, by decide, by decide⟩

theorem parse_valid (body frac : List Char)
    (hbody : ∀ c ∈ body, isDigit c = true ∨ c = ':') (hcount : body.count ':' ≤ 2)
    (hfrac : IsFraction frac) :
    parse_time_crap (body ++ frac) =
      timeLoop (body ++ frac) ((body ++ frac).length + 1)
        ((strrchr ':' (body ++ frac)).getD 0) 1000 0 := by
  have hnul : ∀ c ∈ body ++ frac, c ≠ Char.ofNat 0 := by
    intro c hc
    rcases List.mem_append.1 hc with h | h
    · rcases hbody c h with hd | hd
      · exact digit_ne_nul c hd
      · subst hd; decide
    · rcases hfrac with hf | ⟨ff, hf, hff⟩
      · subst hf; simp at h
      · subst hf
        rcases List.mem_cons.1 h with h | h
        · subst h; decide
        · exact digit_ne_nul c (hff c h)
  unfold parse_time_crap
  dsimp only
  rw [cstr_self _ hnul, scan_prefix body frac 0 hbody (fraction_rest frac hfrac)]
  dsimp only
  rw [if_neg (by omega)]
  rcases hfrac with hf | ⟨ff, hf, hff⟩
  · subst hf
    simp
  · subst hf
    have : List.dropWhile isDigit ff = [] := List.dropWhile_eq_nil_iff.2 hff
    simp [this]

theorem strrchr_none (b : List Char) (h : ':' ∉ b) : strrchr ':' b = none := by
  induction b with
  | nil => rfl
  | cons x xs ih =>
    have hx : x ≠ ':' := fun hx => h (hx ▸ List.mem_cons_self _ _)
    have hxs : ':' ∉ xs := fun hm => h (List.mem_cons_of_mem _ hm)
    unfold strrchr
    rw [ih hxs]
    simp [hx]

theorem strrchr_last (a b : List Char) (h : ':' ∉ b) :
    strrchr ':' (a ++ ':' :: b) = some a.length := by
  induction a with
  | nil =>
    rw [List.nil_append]
    unfold strrchr
    rw [strrchr_none b h]
    simp
  | cons x xs ih =>
    rw [List.cons_append]
    unfold strrchr
    rw [ih]
    simp

theorem allDigits_no_colon (ds : List Char) (h : AllDigits ds) : ':' ∉ ds := by
  intro hm
  exact digit_ne_colon ':' (h ':' hm) rfl

theorem seconds_no_colon (ss frac : List Char) (hS : AllDigits ss) (hF : IsFraction frac) :
    ':' ∉ ss ++ frac := by
  intro hm
  rcases List.mem_append.1 hm with h | h
  · exact allDigits_no_colon ss hS h
  · rcases hF with hf | ⟨ff, hf, hff⟩
    · subst hf; simp at h
    · subst hf
      rcases List.mem_cons.1 h with h | h
      · revert h; decide
      · exact allDigits_no_colon ff hff h

theorem backToColon_stop (input : List Char) : ∀ (k j : Nat), j ≤ k →
    (j = 0 ∨ input.getD j (Char.ofNat 0) = ':') →
    (∀ i, j < i → i ≤ k → input.getD i (Char.ofNat 0) ≠ ':') →
    backToColon input k = j := by
  intro k
  induction k with
  | zero =>
    intro j hj _ _
    have : j = 0 := by omega
    subst this
    rfl
  | succ k ih =>
    intro j hj hcol hrun
    unfold backToColon
    by_cases hjk : j = k + 1
    · subst hjk
      rcases hcol with h | h
      · omega
      · rw [if_neg (by simpa using h)]
    · rw [if_pos (hrun (k + 1) (by omega) (le_refl _))]
      exact ih j (by omega) hcol (fun i h1 h2 => hrun i h1 (by omega))

theorem getD_middle (a m rest : List Char) (d : Char) (i : Nat) (h1 : a.length ≤ i)
    (h2 : i < a.length + m.length) : (a ++ (m ++ rest)).getD i d ∈ m := by
  rw [List.getD_append_right _ _ _ _ h1, List.getD_append _ _ _ _ (by omega),
    List.getD_eq_getElem _ _ (by omega)]
  exact List.getElem_mem _

theorem getD_colon (a rest : List Char) (d : Char) :
    (a ++ ':' :: rest).getD a.length d = ':' := by
  rw [List.getD_append_right _ _ _ _ (le_refl _), Nat.sub_self]
  rfl

theorem takeWhile_digits (m rest : List Char) (hm : AllDigits m) :
    (m ++ ':' :: rest).takeWhile isDigit = m := by
  induction m with
  | nil => simp [List.takeWhile, colon_not_digit]
  | cons x xs ih =>
    have hx : isDigit x = true := hm x (List.mem_cons_self _ _)
    rw [List.cons_append, List.takeWhile_cons, hx]
    simp only [if_true]
    rw [ih (fun c hc => hm c (List.mem_cons_of_mem _ hc))]

theorem strtoul_field (m rest : List Char) (hm : AllDigits m) :
    strtoul (m ++ ':' :: rest) = min (natVal m) ULONG_MAX := by
  unfold strtoul
  rw [takeWhile_digits m rest hm]

theorem timeLoop_at_start (input : List Char) (fuel multiplier value : Nat) :
    timeLoop input (fuel + 1) 0 multiplier value =
      match timeField input multiplier value with
      | none => BORK_TIME
      | some value => value := by
  unfold timeLoop
  simp

theorem timeLoop_at_colon (input : List Char) (fuel ptr multiplier value : Nat)
    (h : ptr ≠ 0) :
    timeLoop input (fuel + 1) ptr multiplier value =
      match timeField (input.drop (ptr + 1)) multiplier value with
      | none => BORK_TIME
      | some value =>
        timeLoop input fuel (backToColon input (ptr - 1)) (multiplier * 60 % 2 ^ 64) value := by
  conv_lhs => unfold timeLoop
  simp [h]

theorem timeField_seconds (sec : List Char) (value : Nat)
    (h : (strtod sec).ge60 = false) :
    timeField sec 1000 value = some (secondsMillis sec) := by
  unfold timeField secondsMillis
  simp [h]

theorem timeField_minutes (field : List Char) (value : Nat) (h : strtoul field < 60) :
    timeField field 60000 value = some ((value + strtoul field * 60000) % 2 ^ 64) := by
  unfold timeField
  have : ¬ (60 ≤ strtoul field) := by omega
  simp [this]

theorem timeField_hours (field : List Char) (value : Nat) :
    timeField field 3600000 value = some ((value + strtoul field * 3600000) % 2 ^ 64) := by
  unfold timeField
  simp

theorem body_chars (ds : List Char) (h : AllDigits ds) :
    ∀ c ∈ ds, isDigit c = true ∨ c = ':' := fun c hc => Or.inl (h c hc)

theorem backToColon_field (m rest : List Char) (hm : AllDigits m) (k : Nat)
    (hk : k < m.length ∨ k = 0) : backToColon (m ++ rest) k = 0 := by
  apply backToColon_stop _ k 0 (Nat.zero_le _) (Or.inl rfl)
  intro i h1 h2
  have hmem := getD_middle [] m rest (Char.ofNat 0) i (Nat.zero_le _)
    (by simp only [List.length_nil]; omega)
  rw [List.nil_append] at hmem
  exact digit_ne_colon _ (hm _ hmem)

theorem drop_after_colon (a rest : List Char) :
    (a ++ ':' :: rest).drop (a.length + 1) = rest := by
  induction a with
  | nil => rfl
  | cons x xs ih => simp

theorem parse_shape_seconds (ss frac : List Char) (hS : AllDigits ss)
    (hF : IsFraction frac) (hs60 : (strtod (ss ++ frac)).ge60 = false) :
    parse_time_crap (ss ++ frac) = secondsMillis (ss ++ frac) := by
  rw [parse_valid ss frac (body_chars ss hS)
    (by rw [allDigits_count_colon ss hS]; omega) hF,
    strrchr_none _ (seconds_no_colon ss frac hS hF)]
  show timeLoop (ss ++ frac) ((ss ++ frac).length + 1) 0 1000 0 = _
  rw [timeLoop_at_start, timeField_seconds _ _ hs60]

theorem parse_shape_minutes (mm ss frac : List Char) (hM : AllDigits mm) (hM0 : mm ≠ [])
    (hS : AllDigits ss) (hF : IsFraction frac) (hm60 : natVal mm < 60)
    (hs60 : (strtod (ss ++ frac)).ge60 = false)
    (hfit : natVal mm * 60000 + secondsMillis (ss ++ frac) < 2 ^ 64) :
    parse_time_crap (mm ++ ':' :: (ss ++ frac)) =
      natVal mm * 60 * 1000 + secondsMillis (ss ++ frac) := by
  have hbody : ∀ c ∈ mm ++ ':' :: ss, isDigit c = true ∨ c = ':' := by
    intro c hc
    rcases List.mem_append.1 hc with h | h
    · exact Or.inl (hM c h)
    · rcases List.mem_cons.1 h with h | h
      · exact Or.inr h
      · exact Or.inl (hS c h)
  have hcount : (mm ++ ':' :: ss).count ':' ≤ 2 := by
    rw [List.count_append, List.count_cons, allDigits_count_colon mm hM,
      allDigits_count_colon ss hS]
    simp
  have hassoc : (mm ++ ':' :: ss) ++ frac = mm ++ ':' :: (ss ++ frac) := by simp
  have hv := parse_valid (mm ++ ':' :: ss) frac hbody hcount hF
  rw [hassoc] at hv
  rw [hv, strrchr_last mm _ (seconds_no_colon ss frac hS hF)]
  show timeLoop _ _ mm.length 1000 0 = _
  have hlen0 : mm.length ≠ 0 := by
    intro h
    exact hM0 (List.length_eq_zero.1 h)
  obtain ⟨k, hk⟩ : ∃ k, (mm ++ ':' :: (ss ++ frac)).length = k + 1 :=
    ⟨mm.length + (ss ++ frac).length, by simp; omega⟩
  have hdrop : (mm ++ ':' :: (ss ++ frac)).drop (mm.length + 1) = ss ++ frac :=
    drop_after_colon mm _
  rw [timeLoop_at_colon _ _ _ _ _ hlen0, hdrop, timeField_seconds _ _ hs60]
  dsimp only
  rw [hk, backToColon_field mm _ hM _ (by omega), timeLoop_at_start]
  have hmul : 1000 * 60 % 2 ^ 64 = 60000 := by norm_num
  have hul : strtoul (mm ++ ':' :: (ss ++ frac)) = natVal mm := by
    rw [strtoul_field mm _ hM]
    unfold ULONG_MAX
    omega
  rw [hmul, timeField_minutes _ _ (by rw [hul]; exact hm60), hul]
  dsimp only
  rw [Nat.mod_eq_of_lt (by omega)]
  omega

theorem parse_shape_hours (hh mm ss frac : List Char) (hH : AllDigits hh) (hH0 : hh ≠ [])
    (hM : AllDigits mm) (hS : AllDigits ss) (hF : IsFraction frac) (hm60 : natVal mm < 60)
    (hs60 : (strtod (ss ++ frac)).ge60 = false)
    (hfit : natVal hh * 3600000 + natVal mm * 60000 + secondsMillis (ss ++ frac) < 2 ^ 64) :
    parse_time_crap (hh ++ ':' :: (mm ++ ':' :: (ss ++ frac))) =
      (natVal hh * 60 + natVal mm) * 60 * 1000 + secondsMillis (ss ++ frac) := by
  have hbody : ∀ c ∈ hh ++ ':' :: (mm ++ ':' :: ss), isDigit c = true ∨ c = ':' := by
    intro c hc
    rcases List.mem_append.1 hc with h | h
    · exact Or.inl (hH c h)
    · rcases List.mem_cons.1 h with h | h
      · exact Or.inr h
      · rcases List.mem_append.1 h with h | h
        · exact Or.inl (hM c h)
        · rcases List.mem_cons.1 h with h | h
          · exact Or.inr h
          · exact Or.inl (hS c h)
  have hcount : (hh ++ ':' :: (mm ++ ':' :: ss)).count ':' ≤ 2 := by
    rw [List.count_append, List.count_cons, List.count_append, List.count_cons,
      allDigits_count_colon hh hH, allDigits_count_colon mm hM, allDigits_count_colon ss hS]
    simp
  have hassoc : (hh ++ ':' :: (mm ++ ':' :: ss)) ++ frac =
      hh ++ ':' :: (mm ++ ':' :: (ss ++ frac)) := by simp
  have hassoc2 : hh ++ ':' :: (mm ++ ':' :: (ss ++ frac)) =
      (hh ++ ':' :: mm) ++ ':' :: (ss ++ frac) := by simp
  have hv := parse_valid (hh ++ ':' :: (mm ++ ':' :: ss)) frac hbody hcount hF
  rw [hassoc] at hv
  rw [hv]
  have hlast : strrchr ':' (hh ++ ':' :: (mm ++ ':' :: (ss ++ frac))) =
      some (hh.length + 1 + mm.length) := by
    rw [hassoc2, strrchr_last _ _ (seconds_no_colon ss frac hS hF)]
    simp
    omega
  rw [hlast]
  show timeLoop _ _ (hh.length + 1 + mm.length) 1000 0 = _
  have hlen0 : hh.length ≠ 0 := by
    intro h
    exact hH0 (List.length_eq_zero.1 h)
  obtain ⟨k, hk⟩ : ∃ k, (hh ++ ':' :: (mm ++ ':' :: (ss ++ frac))).length = k + 2 :=
    ⟨hh.length + mm.length + (ss ++ frac).length, by simp; omega⟩
  have hdrop1 : (hh ++ ':' :: (mm ++ ':' :: (ss ++ frac))).drop (hh.length + 1 + mm.length + 1)
      = ss ++ frac := by
    have hd := drop_after_colon (hh ++ ':' :: mm) (ss ++ frac)
    have hl : (hh ++ ':' :: mm).length = hh.length + 1 + mm.length := by
      simp
      omega
    rw [hl, ← hassoc2] at hd
    exact hd
  have hdrop2 : (hh ++ ':' :: (mm ++ ':' :: (ss ++ frac))).drop (hh.length + 1)
      = mm ++ ':' :: (ss ++ frac) := drop_after_colon hh _
  have hback1 : backToColon (hh ++ ':' :: (mm ++ ':' :: (ss ++ frac)))
      (hh.length + 1 + mm.length - 1) = hh.length := by
    apply backToColon_stop _ _ hh.length (by omega) (Or.inr (getD_colon hh _ _))
    intro i h1 h2
    have hmem := getD_middle (hh ++ [':']) mm (':' :: (ss ++ frac)) (Char.ofNat 0) i
      (by simp; omega) (by simp; omega)
    have hre : hh ++ [':'] ++ (mm ++ ':' :: (ss ++ frac)) =
        hh ++ ':' :: (mm ++ ':' :: (ss ++ frac)) := by simp
    rw [hre] at hmem
    exact digit_ne_colon _ (hM _ hmem)
  rw [timeLoop_at_colon _ _ _ _ _ (by omega), hdrop1, timeField_seconds _ _ hs60]
  dsimp only
  rw [hk, hback1, timeLoop_at_colon _ _ _ _ _ hlen0, hdrop2]
  have hmul : 1000 * 60 % 2 ^ 64 = 60000 := by norm_num
  have hmul2 : 60000 * 60 % 2 ^ 64 = 3600000 := by norm_num
  have hulm : strtoul (mm ++ ':' :: (ss ++ frac)) = natVal mm := by
    rw [strtoul_field mm _ hM]
    unfold ULONG_MAX
    omega
  have hulh : strtoul (hh ++ ':' :: (mm ++ ':' :: (ss ++ frac))) = natVal hh := by
    rw [strtoul_field hh _ hH]
    unfold ULONG_MAX
    omega
  rw [hmul, timeField_minutes _ _ (by rw [hulm]; exact hm60), hulm]
  dsimp only
  rw [backToColon_field hh _ hH _ (by omega), timeLoop_at_start, hmul2, timeField_hours, hulh]
  dsimp only
  rw [Nat.mod_eq_of_lt (a := secondsMillis (ss ++ frac) + natVal mm * 60000) (by omega),
    Nat.mod_eq_of_lt (by omega)]
  omega

set_option maxRecDepth 100000 in
theorem whole_seconds_exact : ∀ v, v < 60 →
    (roundDouble v 1).ge60 = false ∧ ((roundDouble v 1).mul ⟨1000, 1⟩).trunc = v * 1000 := by
  decide

theorem takeWhile_allDigits (ds : List Char) (h : AllDigits ds) :
    ds.takeWhile isDigit = ds := List.takeWhile_eq_self_iff.2 h

theorem strtod_whole (ss : List Char) (hS : AllDigits ss) (h0 : ss ≠ []) :
    strtod ss = roundDouble (natVal ss) 1 := by
  unfold strtod
  have hd : ss.dropWhile isDigit = [] := List.dropWhile_eq_nil_iff.2 hS
  rw [takeWhile_allDigits ss hS, hd]
  simp [h0]

theorem seconds_exact (ss : List Char) (hS : AllDigits ss) (h60 : natVal ss < 60) :
    (strtod ss).ge60 = false ∧ secondsMillis ss = natVal ss * 1000 := by
  by_cases h0 : ss = []
  · subst h0
    decide
  · unfold secondsMillis
    rw [strtod_whole ss hS h0]
    exact whole_seconds_exact _ h60

/-- C7, as the code has it: for digit fields `HH`, `MM`, `SS` and an optional
fraction `.fff`, with the minutes below 60, the seconds below 60 as a `double`
and the total inside 64 bits, `parse_time_crap` returns
`((HH*60 + MM)*60)*1000` plus the seconds in milliseconds as it computes them,
`(long)(strtod(SS.fff) * 1000.0)` in `double` arithmetic; absent fields count
as 0, and without a fraction the seconds contribute exactly `SS*1000`. -/
theorem parse_time_crap_fields (hh mm ss frac : List Char)
    (hH : AllDigits hh) (hH0 : hh ≠ []) (hM : AllDigits mm) (hM0 : mm ≠ [])
    (hS : AllDigits ss) (hF : IsFraction frac) (hm60 : natVal mm < 60)
    (hs60 : (strtod (ss ++ frac)).ge60 = false)
    (hfit : natVal hh * 3600000 + natVal mm * 60000 + secondsMillis (ss ++ frac) < 2 ^ 64) :
    parse_time_crap (ss ++ frac) = secondsMillis (ss ++ frac) ∧
    parse_time_crap (mm ++ ':' :: (ss ++ frac)) =
      natVal mm * 60 * 1000 + secondsMillis (ss ++ frac) ∧
    parse_time_crap (hh ++ ':' :: (mm ++ ':' :: (ss ++ frac))) =
      (natVal hh * 60 + natVal mm) * 60 * 1000 + secondsMillis (ss ++ frac) ∧
    (frac = [] → natVal ss < 60 → secondsMillis (ss ++ frac) = natVal ss * 1000) := by
  refine ⟨parse_shape_seconds ss frac hS hF hs60,
    parse_shape_minutes mm ss frac hM hM0 hS hF hm60 hs60 (by omega),
    parse_shape_hours hh mm ss frac hH hH0 hM hS hF hm60 hs60 hfit, ?_⟩
  intro hfrac h60
  subst hfrac
  rw [List.append_nil]
  exact (seconds_exact ss hS h60).2

/-- The field theorem at `"1:23.45"` (with `"0"` for the hours), which parses
to 83450, and at `"0:1:23"`. -/
theorem parse_time_crap_fields_witness :
    parse_time_crap ['1', ':', '2', '3', '.', '4', '5'] =
      natVal ['1'] * 60 * 1000 + secondsMillis ['2', '3', '.', '4', '5'] ∧
    secondsMillis ['2', '3', '.', '4', '5'] = 23450 ∧
    parse_time_crap ['1', ':', '2', '3', '.', '4', '5'] = 83450 ∧
    parse_time_crap ['0', ':', '1', ':', '2', '3'] = (natVal ['0'] * 60 + natVal ['1']) * 60 * 1000
      + secondsMillis ['2', '3'] ∧
    secondsMillis ['2', '3'] = 23 * 1000 :=
  ⟨(parse_time_crap_fields ['0'] ['1'] ['2', '3'] ['.', '4', '5'] (by decide) (by decide)
      (by decide) (by decide) (by decide) (Or.inr ⟨['4', '5'], rfl, by decide⟩) (by decide)
      (by decide) (by decide)).2.1,
   by decide, by decide,
   (parse_time_crap_fields ['0'] ['1'] ['2', '3'] [] (by decide) (by decide)
      (by decide) (by decide) (by decide) (Or.inl rfl) (by decide)
      (by decide) (by decide)).2.2.1,
   (parse_time_crap_fields ['0'] ['1'] ['2', '3'] [] (by decide) (by decide)
      (by decide) (by decide) (by decide) (Or.inl rfl) (by decide)
      (by decide) (by decide)).2.2.2 rfl (by decide)⟩

/-- C7 as stated fails on fractions that `double` arithmetic rounds: `"1.001"`
parses to 1000 and `"2.01"` to 2009, one below the truncated milliseconds 1001
and 2010; a seconds field of 59 followed by twenty nines after the point
rounds up to 60.0 and is answered with the sentinel; and an hours field of
twenty nines saturates `strtoul` and wraps the sum modulo 2 ^ 64. -/
theorem parse_time_crap_rounding :
    parse_time_crap ['1', '.', '0', '0', '1'] = 1000 ∧
    parse_time_crap ['2', '.', '0', '1'] = 2009 ∧
    parse_time_crap ('5' :: '9' :: '.' :: List.replicate 20 '9') = BORK_TIME ∧
    parse_time_crap (List.replicate 20 '9' ++ [':', '0', '0', ':', '0', '0']) =
      18446744073705951616 := by
  decide

end Fooyin.XSFInput

namespace Fooyin.MIDIInput

theorem full_track_not_detected (file : MidiContainer)
    (hS : file.loopStartMs = 0) (hL : file.loopEndMs = file.timestampEndMs) :
    ¬ file.loopDetected := by
  have h1 : file.knownLoopStart = 0 := by
    unfold MidiContainer.knownLoopStart
    rw [hS]
    decide
  have h2 : file.knownLoopEnd = file.timestampEndMs := by
    unfold MidiContainer.knownLoopEnd
    split
    · rfl
    · exact hL
  unfold MidiContainer.loopDetected
  rw [h1, h2]
  simp

/-- C13, as the code has it: when the loop points reported for the source
cover the entire track (`loop_start = 0` and `loop_end = natural_end`),
`MIDIDecoder::init` cannot tell the loop from no loop, whatever the loop count:
the timeline is unlooped, `frames_fade = 0` and
`total_frames = frames_length = frames_for(natural_end + 1000)` with the
post-roll of 1000 ms. -/
theorem init_full_track_loop {P : Type} (ops : PlayerOps P) (st : Settings)
    (d : MIDIDecoder P) (data : List Nat) (file : MidiContainer)
    (options : DecoderOptions)
    (hdata : data ≠ []) (hend : file.timestampEnd ≠ 0)
    (hE : file.timestampEndMs < 2 ^ 32)
    (hS : file.loopStartMs = 0) (hL : file.loopEndMs = file.timestampEndMs) :
    (loopTimeline st file (effectiveLoopCount st options)).isLooped = false ∧
    (MIDIDecoder.init ops st d data (some file) options).1.framesFade = 0 ∧
    (MIDIDecoder.init ops st d data (some file) options).1.framesLength =
      m_format.framesForDuration (file.timestampEndMs + 1000) ∧
    (MIDIDecoder.init ops st d data (some file) options).1.totalFrames =
      (MIDIDecoder.init ops st d data (some file) options).1.framesLength := by
  have hno := full_track_not_detected file hS hL
  obtain ⟨h1, h2, h3, -, -⟩ := init_timeline ops st d data file options hdata hend
  obtain ⟨t1, t2, t3, t4⟩ := loopTimeline_unlooped st file (effectiveLoopCount st options)
    hE (Or.inr (by omega)) (Or.inr (by omega)) hno
  rw [h1, h2, h3]
  exact ⟨t4, t2, t1, t3⟩

/-- The full-track theorem at loop points 0 ms and 6000 ms on a 6000 ms track
with a loop count of 1 and a fade length of 1000 ms. -/
theorem init_full_track_loop_witness :
    (loopTimeline ⟨some 1, some 1000, 2, 10000⟩ ⟨480, 6000, 0, 6000⟩
      (effectiveLoopCount ⟨some 1, some 1000, 2, 10000⟩ ⟨false, false⟩)).isLooped = false ∧
    fullLoopScenario.framesFade = 0 ∧
    fullLoopScenario.framesLength = m_format.framesForDuration (6000 + 1000) ∧
    fullLoopScenario.totalFrames = fullLoopScenario.framesLength :=
  init_full_track_loop onesPlayer ⟨some 1, some 1000, 2, 10000⟩ (MIDIDecoder.fresh Unit) [77]
    ⟨480, 6000, 0, 6000⟩ ⟨false, false⟩ (by decide) (by decide) (by decide) rfl rfl

/-- C13 as stated fails: with a loop over the whole 6000 ms track, a loop count
of 1 and a fade length of 1000 ms the code yields `frames_fade = 0` and
`frames_length = 308700` (7000 ms, the post-roll included), not
`frames_for(1000) = 44100` and `frames_for(6000) = 264600`. -/
theorem init_full_track_loop_scenario :
    fullLoopScenario.framesFade = 0 ∧ fullLoopScenario.framesLength = 308700 ∧
    m_format.framesForDuration 1000 = 44100 ∧ m_format.framesForDuration 6000 = 264600 ∧
    fullLoopScenario.framesFade ≠ 44100 ∧ fullLoopScenario.framesLength ≠ 264600 := by
  decide

theorem init_repeatOne {P : Type} (ops : PlayerOps P) (st : Settings)
    (d : MIDIDecoder P) (data : List Nat) (parsed : Option MidiContainer)
    (options : DecoderOptions) :
    (MIDIDecoder.init ops st d data parsed options).1.repeatOne =
      decide (effectiveLoopCount st options = 0) := by
  unfold MIDIDecoder.init
  dsimp only
  split
  · rfl
  · split
    · rfl
    · split
      · rfl
      · split <;> rfl

/-- C17: in `MIDIDecoder::init`, with the `NoLooping` option the effective loop
count is 1 and `repeatOne` is false; with `NoInfiniteLooping` (and without
`NoLooping`), a configured count of 0 and a non-zero default the effective loop
count is the default and `repeatOne` is false; and always `repeatOne` is true
exactly when the effective loop count is 0. -/
theorem init_loop_count_options {P : Type} (ops : PlayerOps P) (st : Settings)
    (d : MIDIDecoder P) (data : List Nat) (parsed : Option MidiContainer)
    (options : DecoderOptions) :
    (options.noLooping = true →
      effectiveLoopCount st options = 1 ∧
      (MIDIDecoder.init ops st d data parsed options).1.repeatOne = false) ∧
    (options.noLooping = false → options.noInfiniteLooping = true →
      st.loopCountSetting.getD st.DefaultLoopCount = 0 → st.DefaultLoopCount ≠ 0 →
      effectiveLoopCount st options = st.DefaultLoopCount ∧
      (MIDIDecoder.init ops st d data parsed options).1.repeatOne = false) ∧
    ((MIDIDecoder.init ops st d data parsed options).1.repeatOne = true ↔
      effectiveLoopCount st options = 0) := by
  rw [init_repeatOne]
  refine ⟨?_, ?_, ?_⟩
  · intro h
    have : effectiveLoopCount st options = 1 := by
      unfold effectiveLoopCount
      simp [h]
    rw [this]
    exact ⟨rfl, by decide⟩
  · intro h1 h2 h3 h4
    have : effectiveLoopCount st options = st.DefaultLoopCount := by
      unfold effectiveLoopCount
      simp [h1, h2, h3]
    rw [this]
    exact ⟨rfl, by simpa using h4⟩
  · simp

/-- The loop count theorem at a configured count of 0 with a default of 2,
under each of the two options. -/
theorem init_loop_count_options_witness :
    (effectiveLoopCount ⟨some 0, some 1000, 2, 10000⟩ ⟨true, false⟩ = 1 ∧
      (MIDIDecoder.init onesPlayer ⟨some 0, some 1000, 2, 10000⟩ (MIDIDecoder.fresh Unit) [77]
        (some ⟨480, 6000, 1000, 5000⟩) ⟨true, false⟩).1.repeatOne = false) ∧
    (effectiveLoopCount ⟨some 0, some 1000, 2, 10000⟩ ⟨false, true⟩ = 2 ∧
      (MIDIDecoder.init onesPlayer ⟨some 0, some 1000, 2, 10000⟩ (MIDIDecoder.fresh Unit) [77]
        (some ⟨480, 6000, 1000, 5000⟩) ⟨false, true⟩).1.repeatOne = false) :=
  ⟨(init_loop_count_options onesPlayer ⟨some 0, some 1000, 2, 10000⟩ (MIDIDecoder.fresh Unit)
      [77] (some ⟨480, 6000, 1000, 5000⟩) ⟨true, false⟩).1 rfl,
   (init_loop_count_options onesPlayer ⟨some 0, some 1000, 2, 10000⟩ (MIDIDecoder.fresh Unit)
      [77] (some ⟨480, 6000, 1000, 5000⟩) ⟨false, true⟩).2.1 rfl rfl rfl (by decide)⟩

end Fooyin.MIDIInput

namespace Fooyin

/-- C14 at failing inputs: a session at frame 0 with `totalFrames = 2` reads
four frames. `XSFDecoder::readBuffer` adds all four frames to `framesRead`, and
so does `MIDIDecoder::readBuffer` when `framesFade` is zero, ending at 4; only
`MIDIDecoder::readBuffer` with a non-zero fade cuts `framesWritten` down and
ends at `totalFrames`. -/
theorem read_position_overshoots :
    (XSFInput.XSFDecoder.readBuffer XSFInput.constEmu
        (XSFInput.XSFDecoder.playing () 0 2 0) 16).1.framesRead = 4 ∧
    (XSFInput.XSFDecoder.playing () 0 2 0).totalFrames = 2 ∧
    (MIDIInput.MIDIDecoder.readBuffer MIDIInput.onesPlayer
        (MIDIInput.MIDIDecoder.playing () false 0 2 0) 32).1.framesRead = 4 ∧
    (MIDIInput.MIDIDecoder.playing () false 0 2 0).totalFrames = 2 ∧
    (MIDIInput.MIDIDecoder.readBuffer MIDIInput.onesPlayer
        (MIDIInput.MIDIDecoder.playing () false 0 1 1) 32).1.framesRead = 2 := by
  refine ⟨by decide, by decide, by decide, by decide, ?_⟩
  simp [MIDIInput.MIDIDecoder.readBuffer, MIDIInput.MIDIDecoder.playing,
    MIDIInput.MIDIDecoder.playLoop, MIDIInput.onesPlayer, MIDIInput.m_format,
    AudioFormat.framesForBytes, AudioFormat.bytesPerFrame, MIDIInput.BufferLen]

/-- C16 at a failing input: over a core whose track ends after 2048 frames, a
session at frame 0 is asked for 4096 frames. The first sub-chunk of 2048
frames is rendered, the second `emu_render` call fails, and the call returns
the empty buffer: the 2048 rendered frames are dropped, `framesRead` stays at 0
and the core stands at frame 2048. -/
theorem xsf_partial_read_dropped :
    (XSFInput.XSFDecoder.readBuffer (XSFInput.finiteEmu 2048)
        (XSFInput.XSFDecoder.playing (0 : Nat) 0 100000 0) 16384).2 = [] ∧
    (XSFInput.XSFDecoder.readBuffer (XSFInput.finiteEmu 2048)
        (XSFInput.XSFDecoder.playing (0 : Nat) 0 100000 0) 16384).1.framesRead = 0 ∧
    (XSFInput.XSFDecoder.readBuffer (XSFInput.finiteEmu 2048)
        (XSFInput.XSFDecoder.playing (0 : Nat) 0 100000 0) 16384).1.emu = 2048 := by
  decide

end Fooyin

namespace Fooyin

theorem emu_cleanup_null {H : Type} (version : Int) :
    XSFInput.emu_cleanup version (⟨none, none⟩ : XSFInput.EmuPointers H) =
      (⟨none, none⟩, []) := by
  unfold XSFInput.emu_cleanup
  simp

/-- C11: for `MIDIDecoder`, `XSFDecoder` and `VGMStreamDecoder` and every
state, after `stop()` both backend pointers are null, and a second `stop()`
leaves that state as it is and releases nothing. -/
theorem stop_twice :
    (∀ (P : Type) (d : MIDIInput.MIDIDecoder P),
      (MIDIInput.MIDIDecoder.stop d).1.m_midiPlayer = none ∧
      (MIDIInput.MIDIDecoder.stop d).1.m_midiFile = none ∧
      MIDIInput.MIDIDecoder.stop (MIDIInput.MIDIDecoder.stop d).1 =
        ((MIDIInput.MIDIDecoder.stop d).1, [])) ∧
    (∀ (H : Type) (d : XSFInput.XSFDecoder (XSFInput.EmuPointers H)),
      (XSFInput.XSFDecoder.stop d).1.emu = ⟨none, none⟩ ∧
      XSFInput.XSFDecoder.stop (XSFInput.XSFDecoder.stop d).1 =
        ((XSFInput.XSFDecoder.stop d).1, [])) ∧
    (∀ (V SF : Type) (d : VGMStreamInput.VGMStreamDecoder V SF),
      (VGMStreamInput.VGMStreamDecoder.stop d).1.m_vgm = none ∧
      (VGMStreamInput.VGMStreamDecoder.stop d).1.m_sf = none ∧
      VGMStreamInput.VGMStreamDecoder.stop (VGMStreamInput.VGMStreamDecoder.stop d).1 =
        ((VGMStreamInput.VGMStreamDecoder.stop d).1, [])) := by
  refine ⟨?_, ?_, ?_⟩
  · intro P d
    exact ⟨rfl, rfl, rfl⟩
  · intro H d
    refine ⟨rfl, ?_⟩
    unfold XSFInput.XSFDecoder.stop
    have h : (XSFInput.emu_cleanup d.m_version d.emu).1 = ⟨none, none⟩ := rfl
    simp only [h, emu_cleanup_null]
  · intro V SF d
    exact ⟨rfl, rfl, rfl⟩

end Fooyin

namespace Fooyin

theorem emu_init_success_emulator {H : Type} (env : XSFInput.EmuEnv H) (version : Int) :
    (XSFInput.emu_init env version).2 = 0 →
    (XSFInput.emu_init env version).1.m_emulator.isSome = true := by
  unfold XSFInput.emu_init
  repeat' split
  all_goals simp

/-- C12 against the code: after `stop()`, `MIDIDecoder::start` calls `Reset()`
on the null `m_midiPlayer`, for every state; `XSFDecoder::start` and
`VGMStreamDecoder::start` rebuild the backend and reach the same state as
`start()` alone, and a successful `emu_init` leaves `m_emulator` set. -/
theorem start_after_stop :
    (∀ (P : Type) (ops : MIDIInput.PlayerOps P) (d : MIDIInput.MIDIDecoder P),
      MIDIInput.MIDIDecoder.start ops (MIDIInput.MIDIDecoder.stop d).1 = none) ∧
    (∀ (H : Type) (env : XSFInput.EmuEnv H)
      (execute : Int → XSFInput.EmuPointers H → Nat →
        XSFInput.Rendered (XSFInput.EmuPointers H))
      (d : XSFInput.XSFDecoder (XSFInput.EmuPointers H)),
      XSFInput.XSFDecoder.start (XSFInput.pointerOps env execute)
          (XSFInput.XSFDecoder.stop d).1 =
        XSFInput.XSFDecoder.start (XSFInput.pointerOps env execute) d ∧
      (XSFInput.XSFDecoder.start (XSFInput.pointerOps env execute) d).framesRead = 0) ∧
    (∀ (V SF : Type) (ops : VGMStreamInput.VgmOps V SF) (st : VGMStreamInput.Settings)
      (isRepeatingTrack : Bool) (d : VGMStreamInput.VGMStreamDecoder V SF),
      VGMStreamInput.VGMStreamDecoder.start ops st isRepeatingTrack
          (VGMStreamInput.VGMStreamDecoder.stop d).1 =
        VGMStreamInput.VGMStreamDecoder.start ops st isRepeatingTrack d) := by
  refine ⟨?_, ?_, ?_⟩
  · intro P ops d
    rfl
  · intro H env execute d
    exact ⟨rfl, rfl⟩
  · intro V SF ops st rep d
    rfl

end Fooyin

namespace Fooyin.VGMStreamInput

/-- C18 against the code: `VGMStreamDecoder::init` never reads its `options`
parameter, so any two option sets give the same result, and the configuration
follows the member `m_options`, which no function assigns. At a fresh decoder
with a configured loop count of 5 on a repeating track, `init` with both
`NoLooping` and `NoInfiniteLooping` passed creates the backend with
`loop_count = 5` and `play_forever = true`. -/
theorem init_ignores_options :
    (∀ (V SF : Type) (ops : VgmOps V SF) (st : Settings) (isRepeatingTrack : Bool)
      (d : VGMStreamDecoder V SF) (track : TrackInfo) (o1 o2 : DecoderOptions),
      VGMStreamDecoder.init ops st isRepeatingTrack d track o1 =
        VGMStreamDecoder.init ops st isRepeatingTrack d track o2) ∧
    ((VGMStreamDecoder.init echoOps ⟨some 5, some 1000, 2, 10000⟩ true
        (VGMStreamDecoder.fresh VgmConfig Unit) ⟨false, "a.adx", 0⟩ ⟨true, true⟩).1.m_vgm.map
      (fun cfg => (cfg.loop_count, cfg.play_forever))) = some (5, true) := by
  refine ⟨?_, ?_⟩
  · intro V SF ops st rep d track o1 o2
    rfl
  · decide

end Fooyin.VGMStreamInput

namespace Fooyin

theorem emu_cleanup_releases_built {H : Type} (env : XSFInput.EmuEnv H) (version : Int) :
    (XSFInput.emu_cleanup version (XSFInput.emu_init env version).1).2 =
      (if (XSFInput.emu_init env version).1.m_emulator.isSome then
        [XSFInput.Handle.emulator] else []) ++
      (if (XSFInput.emu_init env version).1.m_emulatorExtra.isSome then
        [XSFInput.Handle.emulatorExtra] else []) := by
  by_cases hk : version = 1 ∨ version = 2 ∨ version = 0x11 ∨ version = 0x12 ∨
      version = 0x21 ∨ version = 0x22 ∨ version = 0x24 ∨ version = 0x25 ∨ version = 0x41
  · rcases hk with h | h | h | h | h | h | h | h | h <;> subst h <;>
      simp [XSFInput.emu_init, XSFInput.emu_cleanup] <;> (repeat' split) <;> simp_all
  · simp only [not_or] at hk
    obtain ⟨h1, h2, h3, h4, h5, h6, h7, h8, h9⟩ := hk
    simp [XSFInput.emu_init, XSFInput.emu_cleanup, h1, h2, h3, h4, h5, h6, h7, h8, h9]

end Fooyin

namespace Fooyin

theorem midi_init_player_set {P : Type} (ops : MIDIInput.PlayerOps P)
    (st : MIDIInput.Settings) (d : MIDIInput.MIDIDecoder P) (data : List Nat)
    (parsed : Option MIDIInput.MidiContainer) (options : DecoderOptions) :
    (MIDIInput.MIDIDecoder.init ops st d data parsed options).1.m_midiPlayer.isSome = true := by
  unfold MIDIInput.MIDIDecoder.init
  dsimp only
  split
  · rfl
  · split
    · rfl
    · split
      · rfl
      · split <;> rfl

/-- C19 against the code: `XSFDecoder::emu_init` and `MIDIDecoder::init`
report failure with backend handles still set. For a file whose `psf_load`
fails after every allocation succeeded, `emu_init` returns `-1` with
`m_emulator` set for versions 0x01, 0x21 and 0x24, with both pointers set for
version 0x02 and with `m_emulatorExtra` set for version 0x41;
`MIDIDecoder::init` returns no format on an empty source with `m_midiPlayer`
set and on an unparsable one with `m_midiFile` set as well, and leaves
`m_midiPlayer` set on every path. The handles left behind are not always
released later: `init` stores the new version tag before the next
`emu_cleanup()` runs, and under tag 0x01 the `psf2fs` object of a failed
version 0x02 file is dropped without being released, under tag 0x11 the
loader state of a failed version 0x41 file. The sibling paths unwind:
`vgmstream_init`, called as always after `vgmstream_cleanup()`, leaves
`m_vgm` and `m_sf` null whenever it returns a negative code, and so do the
branches of `emu_init` itself for versions 0x11, 0x12, 0x22 and 0x25. -/
theorem construction_failure_keeps_handles :
    XSFInput.emu_init XSFInput.unloadableEnv 0x01 = (⟨some 7, none⟩, -1) ∧
    XSFInput.emu_init XSFInput.unloadableEnv 0x02 = (⟨some 7, some 8⟩, -1) ∧
    XSFInput.emu_init XSFInput.unloadableEnv 0x21 = (⟨some 7, none⟩, -1) ∧
    XSFInput.emu_init XSFInput.unloadableEnv 0x24 = (⟨some 7, none⟩, -1) ∧
    XSFInput.emu_init XSFInput.unloadableEnv 0x41 = (⟨none, some 8⟩, -1) ∧
    ((MIDIInput.MIDIDecoder.init MIDIInput.onesPlayer ⟨some 2, some 1000, 2, 10000⟩
        (MIDIInput.MIDIDecoder.fresh Unit) [] none ⟨false, false⟩).2 = none ∧
      (MIDIInput.MIDIDecoder.init MIDIInput.onesPlayer ⟨some 2, some 1000, 2, 10000⟩
        (MIDIInput.MIDIDecoder.fresh Unit) [] none ⟨false, false⟩).1.m_midiPlayer = some () ∧
      (MIDIInput.MIDIDecoder.init MIDIInput.onesPlayer ⟨some 2, some 1000, 2, 10000⟩
        (MIDIInput.MIDIDecoder.fresh Unit) [77] none ⟨false, false⟩).2 = none ∧
      (MIDIInput.MIDIDecoder.init MIDIInput.onesPlayer ⟨some 2, some 1000, 2, 10000⟩
        (MIDIInput.MIDIDecoder.fresh Unit) [77] none ⟨false, false⟩).1.m_midiPlayer = some () ∧
      (MIDIInput.MIDIDecoder.init MIDIInput.onesPlayer ⟨some 2, some 1000, 2, 10000⟩
        (MIDIInput.MIDIDecoder.fresh Unit) [77] none
          ⟨false, false⟩).1.m_midiFile.isSome = true) ∧
    (∀ (P : Type) (ops : MIDIInput.PlayerOps P) (st : MIDIInput.Settings)
      (d : MIDIInput.MIDIDecoder P) (data : List Nat)
      (parsed : Option MIDIInput.MidiContainer) (options : DecoderOptions),
      (MIDIInput.MIDIDecoder.init ops st d data parsed options).1.m_midiPlayer.isSome
        = true) ∧
    XSFInput.emu_cleanup 0x01 (XSFInput.emu_init XSFInput.unloadableEnv 0x02).1 =
      (⟨none, none⟩, [XSFInput.Handle.emulator]) ∧
    XSFInput.emu_cleanup 0x11 (XSFInput.emu_init XSFInput.unloadableEnv 0x41).1 =
      (⟨none, none⟩, []) ∧
    (∀ (V SF : Type) (ops : VGMStreamInput.VgmOps V SF) (st : VGMStreamInput.Settings)
      (isRepeatingTrack : Bool) (d : VGMStreamInput.VGMStreamDecoder V SF),
      (VGMStreamInput.vgmstream_init ops st isRepeatingTrack
        (VGMStreamInput.vgmstream_cleanup d).1).2 < 0 →
      (VGMStreamInput.vgmstream_init ops st isRepeatingTrack
        (VGMStreamInput.vgmstream_cleanup d).1).1.m_vgm = none ∧
      (VGMStreamInput.vgmstream_init ops st isRepeatingTrack
        (VGMStreamInput.vgmstream_cleanup d).1).1.m_sf = none) ∧
    (∀ (H : Type) (env : XSFInput.EmuEnv H) (version : Int),
      version = 0x11 ∨ version = 0x12 ∨ version = 0x22 ∨ version = 0x25 →
      (XSFInput.emu_init env version).2 < 0 →
      (XSFInput.emu_init env version).1 = ⟨none, none⟩) := by
  refine ⟨by decide, by decide, by decide, by decide, by decide, by decide, ?_,
    by decide, by decide, ?_, ?_⟩
  · intro P ops st d data parsed options
    exact midi_init_player_set ops st d data parsed options
  · intro V SF ops st rep d
    unfold VGMStreamInput.vgmstream_init VGMStreamInput.vgmstream_cleanup
    dsimp only
    repeat' split
    all_goals simp_all
  · intro H env version hv
    rcases hv with h | h | h | h <;> subst h <;>
      simp [XSFInput.emu_init] <;> (repeat' split) <;> simp_all

/-- The sibling paths of the construction failure theorem at inputs where
something had been built: a library that opens the file and cannot create the
decoding state, after which `vgmstream_init` returns `-1` with `m_vgm` and
`m_sf` null; and a GSF file whose core is found while the running state
cannot be allocated, after which `emu_init` returns `-1` with both pointers
null. -/
theorem construction_failure_keeps_handles_witness :
    ((VGMStreamInput.vgmstream_init VGMStreamInput.uncreatableOps
        ⟨some 5, some 1000, 2, 10000⟩ true
        (VGMStreamInput.vgmstream_cleanup
          (VGMStreamInput.VGMStreamDecoder.fresh Unit Unit)).1).2 < 0 ∧
      (VGMStreamInput.vgmstream_init VGMStreamInput.uncreatableOps
        ⟨some 5, some 1000, 2, 10000⟩ true
        (VGMStreamInput.vgmstream_cleanup
          (VGMStreamInput.VGMStreamDecoder.fresh Unit Unit)).1).1.m_vgm = none ∧
      (VGMStreamInput.vgmstream_init VGMStreamInput.uncreatableOps
        ⟨some 5, some 1000, 2, 10000⟩ true
        (VGMStreamInput.vgmstream_cleanup
          (VGMStreamInput.VGMStreamDecoder.fresh Unit Unit)).1).1.m_sf = none) ∧
    ((XSFInput.emu_init XSFInput.stateLessEnv 0x22).2 < 0 ∧
      (XSFInput.emu_init XSFInput.stateLessEnv 0x22).1 = ⟨none, none⟩) :=
  ⟨⟨by decide,
    construction_failure_keeps_handles.2.2.2.2.2.2.2.2.2.1 Unit Unit
      VGMStreamInput.uncreatableOps ⟨some 5, some 1000, 2, 10000⟩ true
      (VGMStreamInput.VGMStreamDecoder.fresh Unit Unit) (by decide)⟩,
   ⟨by decide,
    construction_failure_keeps_handles.2.2.2.2.2.2.2.2.2.2 Nat XSFInput.stateLessEnv 0x22
      (Or.inr (Or.inr (Or.inl rfl))) (by decide)⟩⟩

end Fooyin

namespace Fooyin.XSFInput

end Fooyin.XSFInput

namespace Fooyin

theorem writeAt_zero_prefix {α : Type} (chunk zs : List α) (h : chunk.length ≤ zs.length) :
    writeAt zs 0 chunk = chunk ++ zs.drop chunk.length := by
  induction chunk generalizing zs with
  | nil => cases zs <;> simp [writeAt]
  | cons c cs ih =>
    cases zs with
    | nil => simp at h
    | cons z zs =>
      simp only [writeAt, List.length_cons, List.drop_succ_cons, List.cons_append]
      rw [ih zs (by simpa using h)]

end Fooyin

namespace Fooyin.VGMStreamInput

end Fooyin.VGMStreamInput

namespace Fooyin.VGMStreamInput

end Fooyin.VGMStreamInput

namespace Fooyin.VGMStreamInput

end Fooyin.VGMStreamInput

namespace Fooyin.VGMStreamInput

end Fooyin.VGMStreamInput

namespace Fooyin.VGMStreamInput

/-- Three reads over `countOps`: a read of three bytes leaves one byte of chunk
2 pending; a read of eight bytes gets the six bytes of the backend and two
zeros; a read from a backend that is done gets the empty buffer. -/
theorem readBuffer_countOps_reads :
    (VGMStreamDecoder.readBuffer countOps 1 countDecoder 3).map
        (fun r => (r.2, r.1.bytePos, r.1.bytesRemain, r.1.m_vgm)) =
      some ([1, 1, 2], 1, 1, some 2) ∧
    (VGMStreamDecoder.readBuffer countOps 1 countDecoder 8).map
        (fun r => (r.2, r.1.bytePos, r.1.bytesRemain, r.1.m_vgm)) =
      some ([1, 1, 2, 2, 3, 3, 0, 0], 2, 0, some 3) ∧
    (VGMStreamDecoder.readBuffer countOps 1 { countDecoder with m_vgm := some 3 } 8).map
        (fun r => (r.2, r.1.bytePos, r.1.bytesRemain, r.1.m_vgm)) =
      some ([], 0, 0, some 3) := by
  decide

end Fooyin.VGMStreamInput

namespace Fooyin.VGMStreamInput

end Fooyin.VGMStreamInput

namespace Fooyin.XSFInput

theorem tolower_toNat_ne_zero (c : Char) (h : c ≠ Char.ofNat 0) : (tolower c).toNat ≠ 0 := by
  unfold tolower
  split
  · rename_i hc
    have hcn : c = Char.ofNat c.toNat := (Char.ofNat_toNat c).symm
    generalize c.toNat = n at hc hcn
    obtain ⟨h1, h2⟩ := hc
    subst hcn
    interval_cases n <;> decide
  · intro h0
    apply h
    rw [← Char.ofNat_toNat c, h0]

theorem char_toNat_inj (c d : Char) (h : c.toNat = d.toNat) : c = d := by
  rw [← Char.ofNat_toNat c, ← Char.ofNat_toNat d, h]

theorem strcasecmpChars_zero :
    ∀ a b : List Char, (∀ c ∈ a, c ≠ Char.ofNat 0) → (∀ c ∈ b, c ≠ Char.ofNat 0) →
      strcasecmpChars a b = 0 → a.map tolower = b.map tolower
  | [], [], _, _, _ => rfl
  | [], b :: bs, _, hb, h => by
    simp only [strcasecmpChars, neg_eq_zero, Int.natCast_eq_zero] at h
    exact absurd h (tolower_toNat_ne_zero b (hb b (List.mem_cons_self _ _)))
  | a :: as, [], ha, _, h => by
    simp only [strcasecmpChars, Int.natCast_eq_zero] at h
    exact absurd h (tolower_toNat_ne_zero a (ha a (List.mem_cons_self _ _)))
  | a :: as, b :: bs, ha, hb, h => by
    simp only [strcasecmpChars] at h
    split at h
    · rename_i hab
      simp only [List.map_cons, hab]
      rw [strcasecmpChars_zero as bs (fun c hc => ha c (List.mem_cons_of_mem _ hc))
        (fun c hc => hb c (List.mem_cons_of_mem _ hc)) h]
    · rename_i hab
      exact absurd (char_toNat_inj _ _ (by omega)) hab

theorem cstr_no_nul (s : List Char) : ∀ c ∈ cstr s, c ≠ Char.ofNat 0 := by
  intro c hc
  have := List.mem_takeWhile_imp hc
  simpa using this

theorem strcasecmp_zero (a b : List Char) (h : strcasecmp a b = 0) :
    (cstr a).map tolower = (cstr b).map tolower :=
  strcasecmpChars_zero _ _ (cstr_no_nul a) (cstr_no_nul b) h

theorem keyword_exclusive (name : List Char) :
    (strcasecmp name ['f', 'a', 'd', 'e'] = 0 → strcasecmp name ['l', 'e', 'n', 'g', 't', 'h'] ≠ 0) ∧
    (strcasecmp name ['u', 't', 'f', '8'] = 0 →
      strcasecmp name ['l', 'e', 'n', 'g', 't', 'h'] ≠ 0 ∧
      strcasecmp name ['f', 'a', 'd', 'e'] ≠ 0) := by
  refine ⟨fun h1 h2 => ?_, fun h1 => ⟨fun h2 => ?_, fun h2 => ?_⟩⟩
  all_goals
    have e1 := strcasecmp_zero _ _ h1
    have e2 := strcasecmp_zero _ _ h2
    rw [e1] at e2
    revert e2
    decide

end Fooyin.XSFInput

namespace Fooyin.XSFInput

/-- C22 as stated fails on two kinds of names that are none of `length`,
`fade`, `utf8`: for `_lib` no tag is added and the state is left as it was,
and for `game` the tag added carries the name `album`, not `game`. -/
theorem psf_info_meta_reserved_and_alias :
    ¬ IsKeyword ['_', 'l', 'i', 'b'] ∧
    psf_info_meta true psf_info_meta_state.zero ['_', 'l', 'i', 'b'] ['x'] =
      psf_info_meta_state.zero ∧
    ¬ IsKeyword ['g', 'a', 'm', 'e'] ∧
    (psf_info_meta true psf_info_meta_state.zero ['g', 'a', 'm', 'e'] ['D', 'o', 'o', 'm']).tags =
      [(['a', 'l', 'b', 'u', 'm'], ['D', 'o', 'o', 'm'])] := by
  decide

/-- C22, as the code has it: for every pair handed to `psf_info_meta`, a name
that compares equal to `length`, `fade` or `utf8` without regard to case adds
no tag, and `utf8` sets the flag and nothing else; any other name that starts
with an underscore leaves the whole state as it was; every remaining name adds
exactly one tag in front of the list when memory is available, carrying the
value and the name, where `game`, `year`, `tracknumber` and `discnumber` are
filed as `album`, `date`, `track` and `disc`, and changes nothing else. -/
theorem psf_info_meta_tags (alloc_ok : Bool) (state : psf_info_meta_state)
    (name value : List Char) :
    (IsKeyword name → (psf_info_meta alloc_ok state name value).tags = state.tags) ∧
    (strcasecmp name ['u', 't', 'f', '8'] = 0 →
      psf_info_meta alloc_ok state name value = { state with utf8 := true }) ∧
    (¬ IsKeyword name → name.headD (Char.ofNat 0) = '_' →
      psf_info_meta alloc_ok state name value = state) ∧
    (¬ IsKeyword name → name.headD (Char.ofNat 0) ≠ '_' → alloc_ok = true →
      psf_info_meta alloc_ok state name value =
        { state with tags := (tagAlias name, cstr value) :: state.tags }) := by
  refine ⟨?_, ?_, ?_, ?_⟩
  · intro hk
    unfold psf_info_meta
    rcases hk with h | h | h
    · simp only [h, if_true]
      split <;> rfl
    · simp only [(keyword_exclusive name).1 h, h, if_true, if_false]
      split <;> rfl
    · simp only [((keyword_exclusive name).2 h).1, ((keyword_exclusive name).2 h).2, h,
        if_true, if_false]
  · intro h
    unfold psf_info_meta
    simp only [((keyword_exclusive name).2 h).1, ((keyword_exclusive name).2 h).2, h,
      if_true, if_false]
  · intro hk hu
    unfold IsKeyword at hk
    simp only [not_or] at hk
    unfold psf_info_meta
    simp only [hk.1, hk.2.1, hk.2.2, hu, if_false, ne_eq, not_true_eq_false]
  · intro hk hu ha
    unfold IsKeyword at hk
    simp only [not_or] at hk
    subst ha
    unfold psf_info_meta tagAlias add_tag
    simp only [hk.1, hk.2.1, hk.2.2, hu, if_false, if_true, ne_eq, not_false_eq_true]
    split_ifs <;> rfl

/-- The tag theorem at the names `UTF8`, `_refresh` and `Year`. -/
theorem psf_info_meta_tags_witness :
    (IsKeyword ['U', 'T', 'F', '8'] ∧
      (psf_info_meta true ⟨0, 0, false, [(['a'], ['b'])]⟩ ['U', 'T', 'F', '8'] ['1']).tags =
        [(['a'], ['b'])]) ∧
    (strcasecmp ['U', 'T', 'F', '8'] ['u', 't', 'f', '8'] = 0 ∧
      psf_info_meta true ⟨0, 0, false, [(['a'], ['b'])]⟩ ['U', 'T', 'F', '8'] ['1'] =
        ⟨0, 0, true, [(['a'], ['b'])]⟩) ∧
    (¬ IsKeyword ['_', 'r', 'e', 'f', 'r', 'e', 's', 'h'] ∧
      psf_info_meta true ⟨0, 0, false, [(['a'], ['b'])]⟩ ['_', 'r', 'e', 'f', 'r', 'e', 's', 'h']
        ['5', '0'] = ⟨0, 0, false, [(['a'], ['b'])]⟩) ∧
    (¬ IsKeyword ['Y', 'e', 'a', 'r'] ∧
      psf_info_meta true ⟨0, 0, false, [(['a'], ['b'])]⟩ ['Y', 'e', 'a', 'r']
        ['1', '9', '9', '8'] =
        ⟨0, 0, false, [(['d', 'a', 't', 'e'], ['1', '9', '9', '8']), (['a'], ['b'])]⟩) :=
  ⟨⟨by decide,
    (psf_info_meta_tags true ⟨0, 0, false, [(['a'], ['b'])]⟩ ['U', 'T', 'F', '8'] ['1']).1
      (by decide)⟩,
   ⟨by decide,
    (psf_info_meta_tags true ⟨0, 0, false, [(['a'], ['b'])]⟩ ['U', 'T', 'F', '8'] ['1']).2.1
      (by decide)⟩,
   ⟨by decide,
    (psf_info_meta_tags true ⟨0, 0, false, [(['a'], ['b'])]⟩
      ['_', 'r', 'e', 'f', 'r', 'e', 's', 'h'] ['5', '0']).2.2.1 (by decide) (by decide)⟩,
   ⟨by decide,
    (psf_info_meta_tags true ⟨0, 0, false, [(['a'], ['b'])]⟩ ['Y', 'e', 'a', 'r']
      ['1', '9', '9', '8']).2.2.2 (by decide) (by decide) rfl⟩⟩

/-- C23 as stated fails on durations of 2^31 ms and more: the value
`600:00:00` parses to 2160000000 ms, which is not the sentinel, and the `int`
field `tag_song_ms` receives -2134967296. -/
theorem psf_info_meta_narrows :
    parse_time_crap ['6', '0', '0', ':', '0', '0', ':', '0', '0'] = 2160000000 ∧
    parse_time_crap ['6', '0', '0', ':', '0', '0', ':', '0', '0'] ≠ BORK_TIME ∧
    (psf_info_meta true psf_info_meta_state.zero ['l', 'e', 'n', 'g', 't', 'h']
      ['6', '0', '0', ':', '0', '0', ':', '0', '0']).tag_song_ms = -2134967296 := by
  decide

/-- C23, as the code has it: for a pair whose name compares equal to `length`
(resp. `fade`), when `parse_time_crap` returns the sentinel for the value the
whole state is left as it was; otherwise `tag_song_ms` (resp. `tag_fade_ms`)
receives the parsed number of milliseconds converted to `int`, which is the
parsed number itself when it is below 2^31, and nothing else changes. -/
theorem psf_info_meta_duration (alloc_ok : Bool) (state : psf_info_meta_state)
    (name value : List Char) :
    (strcasecmp name ['l', 'e', 'n', 'g', 't', 'h'] = 0 →
      (parse_time_crap value = BORK_TIME → psf_info_meta alloc_ok state name value = state) ∧
      (parse_time_crap value ≠ BORK_TIME →
        psf_info_meta alloc_ok state name value =
          { state with tag_song_ms := toInt (parse_time_crap value) }) ∧
      (parse_time_crap value ≠ BORK_TIME → parse_time_crap value < 2 ^ 31 →
        psf_info_meta alloc_ok state name value =
          { state with tag_song_ms := parse_time_crap value })) ∧
    (strcasecmp name ['f', 'a', 'd', 'e'] = 0 →
      (parse_time_crap value = BORK_TIME → psf_info_meta alloc_ok state name value = state) ∧
      (parse_time_crap value ≠ BORK_TIME →
        psf_info_meta alloc_ok state name value =
          { state with tag_fade_ms := toInt (parse_time_crap value) }) ∧
      (parse_time_crap value ≠ BORK_TIME → parse_time_crap value < 2 ^ 31 →
        psf_info_meta alloc_ok state name value =
          { state with tag_fade_ms := parse_time_crap value })) := by
  have hsmall : ∀ n : Nat, n < 2 ^ 31 → toInt n = n := by
    intro n hn
    unfold toInt
    omega
  refine ⟨fun h => ⟨fun hb => ?_, fun hb => ?_, fun hb hlt => ?_⟩,
    fun h => ⟨fun hb => ?_, fun hb => ?_, fun hb hlt => ?_⟩⟩
  · unfold psf_info_meta; simp [h, hb]
  · unfold psf_info_meta; simp [h, hb]
  · unfold psf_info_meta; simp [h, hb, hsmall _ hlt]
  · unfold psf_info_meta; simp [h, (keyword_exclusive name).1 h, hb]
  · unfold psf_info_meta; simp [h, (keyword_exclusive name).1 h, hb]
  · unfold psf_info_meta; simp [h, (keyword_exclusive name).1 h, hb, hsmall _ hlt]

/-- The duration theorem at `Length=1:00`, which sets 60000 ms, and at
`fade=soon`, which is unparsable. -/
theorem psf_info_meta_duration_witness :
    (strcasecmp ['L', 'e', 'n', 'g', 't', 'h'] ['l', 'e', 'n', 'g', 't', 'h'] = 0 ∧
      parse_time_crap ['1', ':', '0', '0'] ≠ BORK_TIME ∧
      parse_time_crap ['1', ':', '0', '0'] < 2 ^ 31 ∧
      psf_info_meta true ⟨5, 7, false, []⟩ ['L', 'e', 'n', 'g', 't', 'h'] ['1', ':', '0', '0'] =
        { (⟨5, 7, false, []⟩ : psf_info_meta_state) with
          tag_song_ms := parse_time_crap ['1', ':', '0', '0'] }) ∧
    (strcasecmp ['f', 'a', 'd', 'e'] ['f', 'a', 'd', 'e'] = 0 ∧
      parse_time_crap ['s', 'o', 'o', 'n'] = BORK_TIME ∧
      psf_info_meta true ⟨5, 7, false, []⟩ ['f', 'a', 'd', 'e'] ['s', 'o', 'o', 'n'] =
        ⟨5, 7, false, []⟩) :=
  ⟨⟨by decide, by decide, by decide,
    ((psf_info_meta_duration true ⟨5, 7, false, []⟩ ['L', 'e', 'n', 'g', 't', 'h']
      ['1', ':', '0', '0']).1 (by decide)).2.2 (by decide) (by decide)⟩,
   ⟨by decide, by decide,
    ((psf_info_meta_duration true ⟨5, 7, false, []⟩ ['f', 'a', 'd', 'e']
      ['s', 'o', 'o', 'n']).2 (by decide)).1 (by decide)⟩⟩

end Fooyin.XSFInput

namespace Fooyin.XSFInput

theorem bitLen_zero (fuel : Nat) : bitLen fuel 0 = 0 := by
  cases fuel <;> simp [bitLen]

theorem bitLen_bounds : ∀ fuel n : Nat, n ≤ fuel →
    n < 2 ^ bitLen fuel n ∧ (0 < n → 1 ≤ bitLen fuel n ∧ 2 ^ (bitLen fuel n - 1) ≤ n) := by
  intro fuel
  induction fuel with
  | zero =>
    intro n hn
    have : n = 0 := by omega
    subst this
    simp [bitLen]
  | succ fuel ih =>
    intro n hn
    by_cases h0 : n = 0
    · subst h0
      simp [bitLen]
    · have hb : bitLen (fuel + 1) n = bitLen fuel (n / 2) + 1 := by
        simp [bitLen, h0]
      obtain ⟨h1, h2⟩ := ih (n / 2) (by omega)
      rw [hb]
      refine ⟨?_, fun _ => ⟨by omega, ?_⟩⟩
      · rw [pow_succ]
        omega
      · rw [Nat.add_sub_cancel]
        by_cases hh : n / 2 = 0
        · rw [hh, bitLen_zero]
          simp
          omega
        · obtain ⟨h3, h4⟩ := h2 (by omega)
          have h5 : 2 ^ bitLen fuel (n / 2) = 2 * 2 ^ (bitLen fuel (n / 2) - 1) := by
            rw [← pow_succ']
            congr 1
            omega
          omega

theorem scale_ge (n d : Nat) (k : Int) (hn : 0 < n)
    (hk : 52 + (bitLen d d : Int) - (bitLen n n : Int) ≤ k) :
    (scalePow2 n d k).2 ≤ (scalePow2 n d k).1 := by
  obtain ⟨hn1, hn2⟩ := bitLen_bounds n n (le_refl _)
  obtain ⟨hA, hn3⟩ := hn2 hn
  obtain ⟨hd1, -⟩ := bitLen_bounds d d (le_refl _)
  unfold scalePow2
  split
  · rename_i h0
    dsimp only
    have e : bitLen d d ≤ bitLen n n - 1 + k.toNat := by omega
    calc d ≤ 2 ^ bitLen d d := le_of_lt hd1
      _ ≤ 2 ^ (bitLen n n - 1 + k.toNat) := Nat.pow_le_pow_right (by decide) e
      _ = 2 ^ (bitLen n n - 1) * 2 ^ k.toNat := pow_add _ _ _
      _ ≤ n * 2 ^ k.toNat := Nat.mul_le_mul_right _ hn3
  · rename_i h0
    dsimp only
    have e : bitLen d d + (-k).toNat ≤ bitLen n n - 1 := by omega
    calc d * 2 ^ (-k).toNat ≤ 2 ^ bitLen d d * 2 ^ (-k).toNat :=
          Nat.mul_le_mul_right _ (le_of_lt hd1)
      _ = 2 ^ (bitLen d d + (-k).toNat) := (pow_add _ _ _).symm
      _ ≤ 2 ^ (bitLen n n - 1) := Nat.pow_le_pow_right (by decide) e
      _ ≤ n := hn3

theorem round_core (n d : Nat) (k : Int)
    (hq : (scalePow2 n d k).2 ≤ (scalePow2 n d k).1) (m : Nat)
    (hm : m ≤ (scalePow2 n d k).1 / (scalePow2 n d k).2 + 1) :
    (if 0 ≤ k then (⟨m, 2 ^ k.toNat⟩ : Dbl) else ⟨m * 2 ^ (-k).toNat, 1⟩).num * d ≤
      2 * n *
        (if 0 ≤ k then (⟨m, 2 ^ k.toNat⟩ : Dbl) else ⟨m * 2 ^ (-k).toNat, 1⟩).den := by
  unfold scalePow2 at hq hm
  by_cases h0 : 0 ≤ k
  · simp only [h0, if_true] at hq hm ⊢
    have h1 : n * 2 ^ k.toNat / d * d ≤ n * 2 ^ k.toNat := Nat.div_mul_le_self _ _
    calc m * d ≤ (n * 2 ^ k.toNat / d + 1) * d := Nat.mul_le_mul_right _ hm
      _ = n * 2 ^ k.toNat / d * d + d := by ring
      _ ≤ n * 2 ^ k.toNat + n * 2 ^ k.toNat := Nat.add_le_add h1 hq
      _ = 2 * n * 2 ^ k.toNat := by ring
  · simp only [h0, if_false] at hq hm ⊢
    have h1 : n / (d * 2 ^ (-k).toNat) * (d * 2 ^ (-k).toNat) ≤ n := Nat.div_mul_le_self _ _
    calc m * 2 ^ (-k).toNat * d = m * (d * 2 ^ (-k).toNat) := by ring
      _ ≤ (n / (d * 2 ^ (-k).toNat) + 1) * (d * 2 ^ (-k).toNat) := Nat.mul_le_mul_right _ hm
      _ = n / (d * 2 ^ (-k).toNat) * (d * 2 ^ (-k).toNat) + d * 2 ^ (-k).toNat := by ring
      _ ≤ n + n := Nat.add_le_add h1 hq
      _ = 2 * n * 1 := by ring

theorem roundDouble_le (n d : Nat) :
    (roundDouble n d).num * d ≤ 2 * n * (roundDouble n d).den := by
  by_cases hn : n = 0 ∨ d = 0
  · unfold roundDouble
    rw [if_pos hn]
    simp
  · unfold roundDouble
    rw [if_neg hn]
    dsimp only
    apply round_core n d _
    · apply scale_ge n d _ (by omega)
      split_ifs <;> omega
    · split_ifs <;> omega

theorem roundDouble_den_pos (n d : Nat) : 0 < (roundDouble n d).den := by
  unfold roundDouble
  dsimp only
  split_ifs
  · exact Nat.one_pos
  all_goals first
    | exact Nat.one_pos
    | exact Nat.pow_pos (by decide)

theorem secondsMillis_le (s : List Char) (h : (strtod s).ge60 = false) :
    secondsMillis s ≤ 120000 := by
  unfold secondsMillis Dbl.mul Dbl.trunc
  unfold Dbl.ge60 at h
  simp only [decide_eq_false_iff_not, not_le] at h
  have hb : 0 < (strtod s).den := by
    by_contra h0
    have : (strtod s).den = 0 := by omega
    rw [this] at h
    omega
  have hle := roundDouble_le ((strtod s).num * 1000) ((strtod s).den * 1)
  have hpos := roundDouble_den_pos ((strtod s).num * 1000) ((strtod s).den * 1)
  generalize roundDouble ((strtod s).num * 1000) ((strtod s).den * 1) = r at hle hpos ⊢
  generalize (strtod s).num = a at h hle
  generalize (strtod s).den = b at h hle hb
  apply Nat.le_of_lt_succ
  rw [Nat.div_lt_iff_lt_mul hpos]
  have h2 : r.num * b < 120001 * r.den * b := by
    calc r.num * b = r.num * (b * 1) := by ring
      _ ≤ 2 * (a * 1000) * r.den := hle
      _ = (2000 * r.den) * a := by ring
      _ ≤ (2000 * r.den) * (60 * b) := Nat.mul_le_mul_left _ (le_of_lt h)
      _ = 120000 * r.den * b := by ring
      _ < 120001 * r.den * b := by
        apply Nat.mul_lt_mul_of_pos_right _ hb
        apply Nat.mul_lt_mul_of_pos_right (by decide) hpos
  exact Nat.lt_of_mul_lt_mul_right h2

end Fooyin.XSFInput

namespace Fooyin.XSFInput

/-- C28 as stated fails at `898:28:32.922`: the string passes the character
and colon checks, its minutes and seconds are below 60, and its duration of
3234512922 ms is the sentinel itself, so `psf_info_meta` discards it. -/
theorem parse_time_crap_sentinel_collision :
    WellShaped ['8', '9', '8', ':', '2', '8', ':', '3', '2', '.', '9', '2', '2'] ∧
    natVal ['2', '8'] < 60 ∧
    (strtod ['3', '2', '.', '9', '2', '2']).ge60 = false ∧
    (898 * 60 + 28) * 60 * 1000 + 32922 = BORK_TIME ∧
    parse_time_crap ['8', '9', '8', ':', '2', '8', ':', '3', '2', '.', '9', '2', '2'] =
      BORK_TIME ∧
    psf_info_meta true psf_info_meta_state.zero ['l', 'e', 'n', 'g', 't', 'h']
      ['8', '9', '8', ':', '2', '8', ':', '3', '2', '.', '9', '2', '2'] =
      psf_info_meta_state.zero :=
  ⟨⟨['8', '9', '8', ':', '2', '8', ':', '3', '2'], ['9', '2', '2'], by decide, by decide,
      by decide, Or.inr (Or.inl rfl)⟩,
    by decide, by decide, by decide, by decide, by decide⟩

/-- C28, as the code has it: for digit fields `HH`, `MM`, `SS` and an optional
fraction, with the minutes below 60 and the seconds below 60 as a `double`,
the duration returned for `SS.fff` and for `MM:SS.fff` is below the sentinel,
and so is the one for `HH:MM:SS.fff` when the hours are below 898; with an
hours field and a total inside 64 bits the returned duration is the sentinel
exactly when the fields add up to 3234512922 ms. -/
theorem parse_time_crap_below_sentinel (hh mm ss frac : List Char)
    (hH : AllDigits hh) (hH0 : hh ≠ []) (hM : AllDigits mm) (hM0 : mm ≠ [])
    (hS : AllDigits ss) (hF : IsFraction frac) (hm60 : natVal mm < 60)
    (hs60 : (strtod (ss ++ frac)).ge60 = false) :
    parse_time_crap (ss ++ frac) < BORK_TIME ∧
    parse_time_crap (mm ++ ':' :: (ss ++ frac)) < BORK_TIME ∧
    (natVal hh < 898 →
      parse_time_crap (hh ++ ':' :: (mm ++ ':' :: (ss ++ frac))) < BORK_TIME) ∧
    (natVal hh * 3600000 + natVal mm * 60000 + secondsMillis (ss ++ frac) < 2 ^ 64 →
      (parse_time_crap (hh ++ ':' :: (mm ++ ':' :: (ss ++ frac))) = BORK_TIME ↔
        (natVal hh * 60 + natVal mm) * 60 * 1000 + secondsMillis (ss ++ frac) = 3234512922)) := by
  have hsec := secondsMillis_le (ss ++ frac) hs60
  have hB : BORK_TIME = 3234512922 := by decide
  refine ⟨?_, ?_, ?_, ?_⟩
  · rw [parse_shape_seconds ss frac hS hF hs60, hB]
    omega
  · rw [parse_shape_minutes mm ss frac hM hM0 hS hF hm60 hs60 (by omega), hB]
    omega
  · intro h898
    rw [parse_shape_hours hh mm ss frac hH hH0 hM hS hF hm60 hs60 (by omega), hB]
    omega
  · intro hfit
    rw [parse_shape_hours hh mm ss frac hH hH0 hM hS hF hm60 hs60 hfit, hB]

/-- The sentinel theorem at the fields `897`, `59`, `59` with the fraction
`.999`, and at `898`, `28`, `32` with `.922`. -/
theorem parse_time_crap_below_sentinel_witness :
    parse_time_crap (['5', '9'] ++ ['.', '9', '9', '9']) < BORK_TIME ∧
    parse_time_crap (['5', '9'] ++ ':' :: (['5', '9'] ++ ['.', '9', '9', '9'])) < BORK_TIME ∧
    (natVal ['8', '9', '7'] < 898 ∧
      parse_time_crap (['8', '9', '7'] ++ ':' :: (['5', '9'] ++ ':' ::
        (['5', '9'] ++ ['.', '9', '9', '9']))) < BORK_TIME) ∧
    (parse_time_crap (['8', '9', '8'] ++ ':' :: (['2', '8'] ++ ':' ::
        (['3', '2'] ++ ['.', '9', '2', '2']))) = BORK_TIME ↔
      (natVal ['8', '9', '8'] * 60 + natVal ['2', '8']) * 60 * 1000 +
        secondsMillis (['3', '2'] ++ ['.', '9', '2', '2']) = 3234512922) :=
  ⟨(parse_time_crap_below_sentinel ['8', '9', '7'] ['5', '9'] ['5', '9'] ['.', '9', '9', '9']
      (by decide) (by decide) (by decide) (by decide) (by decide)
      (Or.inr ⟨['9', '9', '9'], rfl, by decide⟩) (by decide) (by decide)).1,
   (parse_time_crap_below_sentinel ['8', '9', '7'] ['5', '9'] ['5', '9'] ['.', '9', '9', '9']
      (by decide) (by decide) (by decide) (by decide) (by decide)
      (Or.inr ⟨['9', '9', '9'], rfl, by decide⟩) (by decide) (by decide)).2.1,
   ⟨by decide,
    (parse_time_crap_below_sentinel ['8', '9', '7'] ['5', '9'] ['5', '9'] ['.', '9', '9', '9']
      (by decide) (by decide) (by decide) (by decide) (by decide)
      (Or.inr ⟨['9', '9', '9'], rfl, by decide⟩) (by decide) (by decide)).2.2.1 (by decide)⟩,
   (parse_time_crap_below_sentinel ['8', '9', '8'] ['2', '8'] ['3', '2'] ['.', '9', '2', '2']
      (by decide) (by decide) (by decide) (by decide) (by decide)
      (Or.inr ⟨['9', '2', '2'], rfl, by decide⟩) (by decide) (by decide)).2.2.2 (by decide)⟩

end Fooyin.XSFInput

namespace Fooyin.XSFInput

theorem renderLoop_succeeds {E : Type} (ops : EmuOps E) (v : Int) (frames : Nat)
    (hall : RendersAll ops v) :
    ∀ (fuel : Nat) (emu : E) (buf : List Int) (framesWritten : Nat),
      (XSFDecoder.renderLoop ops v frames fuel emu buf framesWritten).2.isSome = true := by
  intro fuel
  induction fuel with
  | zero =>
    intro emu buf framesWritten
    simp [XSFDecoder.renderLoop]
  | succ fuel ih =>
    intro emu buf framesWritten
    unfold XSFDecoder.renderLoop
    by_cases hlt : framesWritten < frames
    · rw [if_pos hlt]
      dsimp only
      have hpos : 0 < min (frames - framesWritten) BufferLen := by
        have : 0 < BufferLen := by decide
        omega
      have herr := (hall emu _ hpos).1
      rw [if_neg (by omega)]
      exact ih _ _ _
    · rw [if_neg hlt]
      rfl

theorem xsf_seek_reaches {E : Type} (ops : EmuOps E) (d : XSFDecoder E) (pos : Nat)
    (hall : RendersAll ops d.m_version) (hlo : -2 ^ 63 ≤ d.framesRead)
    (hhi : d.framesRead < 2 ^ 63) (ht : d.m_format.framesForDuration pos < 2 ^ 63) :
    (XSFDecoder.seek ops d pos).framesRead = d.m_format.framesForDuration pos := by
  unfold XSFDecoder.seek
  dsimp only
  by_cases hlt : d.m_format.framesForDuration pos < toULong d.framesRead
  · rw [if_pos hlt]
    exact seekLoop_reaches ops _ d.m_version hall ht _ _ rfl (le_refl _)
      (by show (0 : Int) ≤ _; omega) (by show _ - (0 : Int).toNat ≤ _ - toULong 0; simp [toULong])
  · rw [if_neg hlt]
    have hnn : 0 ≤ d.framesRead := by
      unfold toULong at hlt
      omega
    have hu : toULong d.framesRead = d.framesRead.toNat :=
      toULong_of_lt _ hnn (by omega)
    rw [hu] at hlt ⊢
    exact seekLoop_reaches ops _ d.m_version hall ht _ _ rfl hnn (by omega) (le_refl _)

theorem duration_round_trip (fmt : AudioFormat) (t : Nat) (hrate : 0 < fmt.sampleRate) :
    fmt.durationForFrames (fmt.framesForDuration t) ≤ t ∧
    (t - fmt.durationForFrames (fmt.framesForDuration t)) * fmt.sampleRate <
      1000 + fmt.sampleRate := by
  unfold AudioFormat.durationForFrames AudioFormat.framesForDuration
  rw [if_neg (by omega)]
  generalize fmt.sampleRate = r at hrate
  have h1 := Nat.div_add_mod (1000 * (t * r / 1000)) r
  have h2 := Nat.mod_lt (1000 * (t * r / 1000)) hrate
  generalize 1000 * (t * r / 1000) / r = s at h1 h2 ⊢
  have h3 : s * r = r * s := Nat.mul_comm _ _
  have hle : s ≤ t := by
    by_contra hc
    have h4 : (t + 1) * r ≤ s * r := Nat.mul_le_mul_right _ (by omega)
    have h5 : (t + 1) * r = t * r + r := by ring
    omega
  refine ⟨hle, ?_⟩
  rw [Nat.sub_mul]
  omega

/-- C24 as stated fails in its last part: at 44100 Hz, `seek(1)` followed by
`readBuffer` reports the start time 0 ms, which differs from 1 ms by the
duration of 44 frames; a difference below one frame would have
`(t - start) * 44100 < 1000`. -/
theorem seek_read_start_coarse :
    XSFDecoder.readBufferStart constEmu
      (XSFDecoder.seek constEmu (XSFDecoder.playing () 0 100000 0) 1) 16 = some 0 ∧
    sessionFormat.durationForFrames (sessionFormat.framesForDuration 1) = 0 ∧
    ¬ ((1 - 0) * sessionFormat.sampleRate < 1000) := by
  decide

/-- C24, as the code has it: for an XSF session over a core that renders
every requested frame, at a positive sample rate, and a time `t` whose frame
lies before `totalFrames`, `seek(t)` followed by `readBuffer` returns a buffer
whose start time is `durationForFrames(framesForDuration(t))`; this time is at
most `t` and falls short of `t` by less than one millisecond plus the duration
of one frame, `(t - start) * sampleRate < 1000 + sampleRate`. -/
theorem seek_read_start_time {E : Type} (ops : EmuOps E) (d : XSFDecoder E) (t bytes : Nat)
    (hall : RendersAll ops d.m_version) (hrate : 0 < d.m_format.sampleRate)
    (hlo : -2 ^ 63 ≤ d.framesRead) (hhi : d.framesRead < 2 ^ 63)
    (hbefore : (d.m_format.framesForDuration t : Int) < d.totalFrames)
    (htot : d.totalFrames < 2 ^ 63) :
    XSFDecoder.readBufferStart ops (XSFDecoder.seek ops d t) bytes =
      some (d.m_format.durationForFrames (d.m_format.framesForDuration t)) ∧
    d.m_format.durationForFrames (d.m_format.framesForDuration t) ≤ t ∧
    (t - d.m_format.durationForFrames (d.m_format.framesForDuration t)) *
      d.m_format.sampleRate < 1000 + d.m_format.sampleRate := by
  have hreach := xsf_seek_reaches ops d t hall hlo hhi (by omega)
  obtain ⟨hf, hv, htf, -, -⟩ := seek_fields ops d t
  refine ⟨?_, duration_round_trip d.m_format t hrate⟩
  unfold XSFDecoder.readBufferStart
  rw [hreach, htf, if_neg (by omega), hf, hv]
  dsimp only
  have hu : toULong (d.m_format.framesForDuration t : Int) = d.m_format.framesForDuration t := by
    unfold toULong
    omega
  rw [hu]
  have hs := renderLoop_succeeds ops d.m_version (d.m_format.framesForBytes bytes) hall
    (d.m_format.framesForBytes bytes) (XSFDecoder.seek ops d t).emu
    (List.replicate (2 * d.m_format.framesForBytes bytes) 0) 0
  generalize XSFDecoder.renderLoop ops d.m_version (d.m_format.framesForBytes bytes)
    (d.m_format.framesForBytes bytes) (XSFDecoder.seek ops d t).emu
    (List.replicate (2 * d.m_format.framesForBytes bytes) 0) 0 = r at hs
  obtain ⟨e, o⟩ := r
  cases o with
  | none => simp at hs
  | some x => rfl

/-- The start time theorem at a session over the core that renders every
frame, sought to 1000 ms. -/
theorem seek_read_start_time_witness :
    RendersAll constEmu (XSFDecoder.playing () 0 100000 0).m_version ∧
    XSFDecoder.readBufferStart constEmu
      (XSFDecoder.seek constEmu (XSFDecoder.playing () 0 100000 0) 1000) 16 =
      some (sessionFormat.durationForFrames (sessionFormat.framesForDuration 1000)) ∧
    sessionFormat.durationForFrames (sessionFormat.framesForDuration 1000) ≤ 1000 ∧
    (1000 - sessionFormat.durationForFrames (sessionFormat.framesForDuration 1000)) *
      sessionFormat.sampleRate < 1000 + sessionFormat.sampleRate :=
  ⟨constEmu_rendersAll,
    seek_read_start_time constEmu (XSFDecoder.playing () 0 100000 0) 1000 16
      constEmu_rendersAll (by decide) (by decide) (by decide) (by decide) (by decide)⟩

end Fooyin.XSFInput

namespace Fooyin.XSFInput

theorem get_srate_le (v : Int) : get_srate v ≤ 48000 := by
  unfold get_srate
  split_ifs <;> decide

theorem frames_small (fmt : AudioFormat) (x : Int) (hr : fmt.sampleRate ≤ 48000)
    (hx0 : 0 ≤ x) (hx1 : x < 2 ^ 31) : ((fmt.framesForDuration x.toNat : Nat) : Int) < 2 ^ 62 := by
  unfold AudioFormat.framesForDuration
  have h1 : x.toNat * fmt.sampleRate ≤ 2 ^ 31 * 48000 := Nat.mul_le_mul (by omega) hr
  have h2 : x.toNat * fmt.sampleRate / 1000 ≤ x.toNat * fmt.sampleRate := Nat.div_le_self _ _
  omega

theorem init_success {E : Type} (ops : EmuOps E) (st : Settings) (d : XSFDecoder E)
    (track : TrackInfo) (hA : track.isInArchive = false) (hV : 0 ≤ track.psf_version)
    (hE : 0 ≤ (ops.emu_init track.psf_version).2) (hR : 0 ≤ get_srate track.psf_version)
    (song fade : Int)
    (hsong : song = if track.tag_song_ms = 0 then
      st.maxLengthSetting.getD st.DefaultMaxLength * 60 * 1000 else track.tag_song_ms)
    (hfade : fade = if track.tag_song_ms = 0 then
      st.fadeLengthSetting.getD st.DefaultFadeLength else track.tag_fade_ms)
    (hs0 : 0 ≤ song) (hs1 : song < 2 ^ 31) (hf0 : 0 ≤ fade) (hf1 : fade < 2 ^ 31) :
    XSFDecoder.init ops st d track =
      ({ m_format := setSampleRate d.m_format (get_srate track.psf_version),
         m_version := track.psf_version,
         emu := (ops.emu_init track.psf_version).1,
         totalFrames :=
           (((setSampleRate d.m_format (get_srate track.psf_version)).framesForDuration
              song.toNat : Nat) : Int) +
           (((setSampleRate d.m_format (get_srate track.psf_version)).framesForDuration
              fade.toNat : Nat) : Int),
         framesLength :=
           ((setSampleRate d.m_format (get_srate track.psf_version)).framesForDuration
              song.toNat : Nat),
         framesFade :=
           ((setSampleRate d.m_format (get_srate track.psf_version)).framesForDuration
              fade.toNat : Nat),
         framesRead := 0 },
       some (setSampleRate d.m_format (get_srate track.psf_version))) := by
  have hr := get_srate_le track.psf_version
  have hb1 := frames_small (setSampleRate d.m_format (get_srate track.psf_version)) song
    (by show (get_srate track.psf_version).toNat ≤ 48000; omega) hs0 hs1
  have hb2 := frames_small (setSampleRate d.m_format (get_srate track.psf_version)) fade
    (by show (get_srate track.psf_version).toNat ≤ 48000; omega) hf0 hf1
  unfold XSFDecoder.init
  rw [if_neg (by simp [hA]), if_neg (by omega)]
  unfold setSampleRate at hb1 hb2 ⊢
  dsimp only at hb1 hb2 ⊢
  rw [if_neg (by omega), if_neg (by omega), ← hsong, ← hfade,
    toULong_of_lt song hs0 (by omega), toULong_of_lt fade hf0 (by omega)]
  rw [toLong_of_lt _ (by omega) (by omega)]

end Fooyin.XSFInput

namespace Fooyin.XSFInput

/-- C26: when `XSFDecoder::init` gets past its failure exits, a non-zero
`length` tag (an `int` that is not negative, like the `fade` tag) gives
`framesLength = framesForDuration(tag_song_ms)` and
`framesFade = framesForDuration(tag_fade_ms)`, whatever the settings are; with
no non-zero length the configured maximum length in minutes times 60 * 1000
and the configured fade length are converted instead (both inside the range of
`int`), whatever the fade tag of the file is; in both cases
`totalFrames = framesLength + framesFade` and `framesRead = 0`. -/
theorem init_tag_timeline {E : Type} (ops : EmuOps E) (st : Settings) (d : XSFDecoder E)
    (track : TrackInfo) (hA : track.isInArchive = false) (hV : 0 ≤ track.psf_version)
    (hE : 0 ≤ (ops.emu_init track.psf_version).2) (hR : 0 ≤ get_srate track.psf_version) :
    (track.tag_song_ms ≠ 0 → 0 ≤ track.tag_song_ms → track.tag_song_ms < 2 ^ 31 →
      0 ≤ track.tag_fade_ms → track.tag_fade_ms < 2 ^ 31 →
      (XSFDecoder.init ops st d track).1.framesLength =
        (XSFDecoder.init ops st d track).1.m_format.framesForDuration track.tag_song_ms.toNat ∧
      (XSFDecoder.init ops st d track).1.framesFade =
        (XSFDecoder.init ops st d track).1.m_format.framesForDuration track.tag_fade_ms.toNat ∧
      (XSFDecoder.init ops st d track).1.totalFrames =
        (XSFDecoder.init ops st d track).1.framesLength +
          (XSFDecoder.init ops st d track).1.framesFade ∧
      (XSFDecoder.init ops st d track).1.framesRead = 0 ∧
      ∀ st1 : Settings, XSFDecoder.init ops st1 d track = XSFDecoder.init ops st d track) ∧
    (track.tag_song_ms = 0 →
      0 ≤ st.maxLengthSetting.getD st.DefaultMaxLength * 60 * 1000 →
      st.maxLengthSetting.getD st.DefaultMaxLength * 60 * 1000 < 2 ^ 31 →
      0 ≤ st.fadeLengthSetting.getD st.DefaultFadeLength →
      st.fadeLengthSetting.getD st.DefaultFadeLength < 2 ^ 31 →
      (XSFDecoder.init ops st d track).1.framesLength =
        (XSFDecoder.init ops st d track).1.m_format.framesForDuration
          (st.maxLengthSetting.getD st.DefaultMaxLength * 60 * 1000).toNat ∧
      (XSFDecoder.init ops st d track).1.framesFade =
        (XSFDecoder.init ops st d track).1.m_format.framesForDuration
          (st.fadeLengthSetting.getD st.DefaultFadeLength).toNat ∧
      (XSFDecoder.init ops st d track).1.totalFrames =
        (XSFDecoder.init ops st d track).1.framesLength +
          (XSFDecoder.init ops st d track).1.framesFade ∧
      (XSFDecoder.init ops st d track).1.framesRead = 0 ∧
      ∀ fade1 : Int, XSFDecoder.init ops st d { track with tag_fade_ms := fade1 } =
        XSFDecoder.init ops st d track) := by
  constructor
  · intro h0 hs0 hs1 hf0 hf1
    have key : ∀ st1 : Settings, XSFDecoder.init ops st1 d track = _ := fun st1 =>
      init_success ops st1 d track hA hV hE hR track.tag_song_ms track.tag_fade_ms
        (by rw [if_neg h0]) (by rw [if_neg h0]) hs0 hs1 hf0 hf1
    refine ⟨?_, ?_, ?_, ?_, fun st1 => ?_⟩
    · rw [key st]
    · rw [key st]
    · rw [key st]
    · rw [key st]
    · rw [key st1, key st]
  · intro h0 hs0 hs1 hf0 hf1
    have key : ∀ fade1 : Int, XSFDecoder.init ops st d { track with tag_fade_ms := fade1 } = _ :=
      fun fade1 =>
        init_success ops st d { track with tag_fade_ms := fade1 } hA hV hE hR
          (st.maxLengthSetting.getD st.DefaultMaxLength * 60 * 1000)
          (st.fadeLengthSetting.getD st.DefaultFadeLength)
          (by rw [if_pos h0]) (by rw [if_pos h0]) hs0 hs1 hf0 hf1
    have key0 := key track.tag_fade_ms
    refine ⟨?_, ?_, ?_, ?_, fun fade1 => ?_⟩
    · rw [key0]
    · rw [key0]
    · rw [key0]
    · rw [key0]
    · rw [key fade1, key0]

/-- The timeline theorem at a file tagged with 120000 ms and a fade of 5000 ms,
and at an untagged file under a maximum length of 3 minutes and a fade of
2000 ms. -/
theorem init_tag_timeline_witness :
    ((XSFDecoder.init constEmu ⟨some 3, some 2000, 3, 10000⟩ (XSFDecoder.playing () 9 0 0)
        ⟨false, 1, 120000, 5000⟩).1.framesLength = 5292000 ∧
      (XSFDecoder.init constEmu ⟨some 3, some 2000, 3, 10000⟩ (XSFDecoder.playing () 9 0 0)
        ⟨false, 1, 120000, 5000⟩).1.framesLength =
        (XSFDecoder.init constEmu ⟨some 3, some 2000, 3, 10000⟩ (XSFDecoder.playing () 9 0 0)
          ⟨false, 1, 120000, 5000⟩).1.m_format.framesForDuration (120000 : Int).toNat) ∧
    ((XSFDecoder.init constEmu ⟨some 3, some 2000, 3, 10000⟩ (XSFDecoder.playing () 9 0 0)
        ⟨false, 1, 0, 5000⟩).1.framesFade = 88200 ∧
      (XSFDecoder.init constEmu ⟨some 3, some 2000, 3, 10000⟩ (XSFDecoder.playing () 9 0 0)
        ⟨false, 1, 0, 5000⟩).1.framesFade =
        (XSFDecoder.init constEmu ⟨some 3, some 2000, 3, 10000⟩ (XSFDecoder.playing () 9 0 0)
          ⟨false, 1, 0, 5000⟩).1.m_format.framesForDuration (2000 : Int).toNat) :=
  ⟨⟨by decide,
    ((init_tag_timeline constEmu ⟨some 3, some 2000, 3, 10000⟩ (XSFDecoder.playing () 9 0 0)
      ⟨false, 1, 120000, 5000⟩ rfl (by decide) (by decide) (by decide)).1
      (by decide) (by decide) (by decide) (by decide) (by decide)).1⟩,
   ⟨by decide,
    ((init_tag_timeline constEmu ⟨some 3, some 2000, 3, 10000⟩ (XSFDecoder.playing () 9 0 0)
      ⟨false, 1, 0, 5000⟩ rfl (by decide) (by decide) (by decide)).2
      (by decide) (by decide) (by decide) (by decide) (by decide)).2.1⟩⟩

end Fooyin.XSFInput

namespace Fooyin

theorem frames_split (fmt : AudioFormat) (a b : Nat) :
    fmt.framesForDuration a + fmt.framesForDuration b ≤ fmt.framesForDuration (a + b) ∧
    fmt.framesForDuration (a + b) ≤ fmt.framesForDuration a + fmt.framesForDuration b + 1 := by
  unfold AudioFormat.framesForDuration
  rw [Nat.add_mul]
  omega

end Fooyin

namespace Fooyin.MIDIInput

theorem loopTimeline_of_millis (st : Settings) (file : MidiContainer) (lc : Int) :
    (loopTimeline st file lc).framesLength =
      m_format.framesForDuration (toULong (initMillis st file lc).1) ∧
    (loopTimeline st file lc).framesFade =
      m_format.framesForDuration (toULong (initMillis st file lc).2) ∧
    (loopTimeline st file lc).totalFrames =
      toLong ((loopTimeline st file lc).framesLength + (loopTimeline st file lc).framesFade) := by
  unfold loopTimeline initMillis
  dsimp only
  refine ⟨?_, ?_, ?_⟩ <;> rfl

theorem reader_loopCount (st : Settings)
    (h : st.loopCountSetting = none ∨ ∃ n : Int, 1 ≤ n ∧ st.loopCountSetting = some n) :
    (if st.loopCountSetting.getD 0 = 0 then st.DefaultLoopCount
      else st.loopCountSetting.getD 0) = effectiveLoopCount st ⟨false, false⟩ := by
  unfold effectiveLoopCount
  rcases h with h | ⟨n, hn, h⟩
  · rw [h]
    simp
  · rw [h]
    simp only [Option.getD_some]
    rw [if_neg (by omega)]
    simp

theorem reader_millis (st : Settings) (file : MidiContainer)
    (h : st.loopCountSetting = none ∨ ∃ n : Int, 1 ≤ n ∧ st.loopCountSetting = some n) :
    MIDIReader.millis st file = initMillis st file (effectiveLoopCount st ⟨false, false⟩) := by
  unfold MIDIReader.millis initMillis
  dsimp only
  rw [reader_loopCount st h]
  simp only [decide_eq_true_eq]

end Fooyin.MIDIInput

namespace Fooyin

/-- C27: with the loop count unset or at least 1 and no looping option,
`MIDIReader::readTrack` computes the same length and fade in milliseconds as
`MIDIDecoder::init`, and `XSFReader::readTrack` adds up the two values that
`XSFDecoder::init` converts; where these values are not negative and their sum
is in range, the reader reports their sum as the duration, the decoder holds
`framesForDuration` of each, and its `totalFrames` is at most
`framesForDuration(duration)` and at least that minus one frame. -/
theorem reader_matches_decoder :
    (∀ (P : Type) (ops : MIDIInput.PlayerOps P) (st : MIDIInput.Settings)
        (d : MIDIInput.MIDIDecoder P) (data : List Nat) (file : MIDIInput.MidiContainer),
      (st.loopCountSetting = none ∨ ∃ n : Int, 1 ≤ n ∧ st.loopCountSetting = some n) →
      data ≠ [] → file.timestampEnd ≠ 0 →
      MIDIInput.MIDIReader.millis st file =
        MIDIInput.initMillis st file (MIDIInput.effectiveLoopCount st ⟨false, false⟩) ∧
      (0 ≤ (MIDIInput.MIDIReader.millis st file).1 →
        0 ≤ (MIDIInput.MIDIReader.millis st file).2 →
        (MIDIInput.MIDIReader.millis st file).1 + (MIDIInput.MIDIReader.millis st file).2
          < 2 ^ 48 →
        MIDIInput.MIDIReader.readTrack st data (some file) =
          some ((MIDIInput.MIDIReader.millis st file).1 +
            (MIDIInput.MIDIReader.millis st file).2).toNat ∧
        (MIDIInput.MIDIDecoder.init ops st d data (some file) ⟨false, false⟩).1.framesLength =
          MIDIInput.m_format.framesForDuration (MIDIInput.MIDIReader.millis st file).1.toNat ∧
        (MIDIInput.MIDIDecoder.init ops st d data (some file) ⟨false, false⟩).1.framesFade =
          MIDIInput.m_format.framesForDuration (MIDIInput.MIDIReader.millis st file).2.toNat ∧
        (MIDIInput.MIDIDecoder.init ops st d data (some file) ⟨false, false⟩).1.totalFrames ≤
          MIDIInput.m_format.framesForDuration
            ((MIDIInput.MIDIReader.millis st file).1 +
              (MIDIInput.MIDIReader.millis st file).2).toNat ∧
        (MIDIInput.m_format.framesForDuration
            ((MIDIInput.MIDIReader.millis st file).1 +
              (MIDIInput.MIDIReader.millis st file).2).toNat : Int) ≤
          (MIDIInput.MIDIDecoder.init ops st d data (some file) ⟨false, false⟩).1.totalFrames
            + 1)) ∧
    (∀ (E : Type) (ops : XSFInput.EmuOps E) (st : XSFInput.Settings)
        (d : XSFInput.XSFDecoder E) (track : XSFInput.TrackInfo),
      track.isInArchive = false → 0 ≤ track.psf_version →
      0 ≤ (ops.emu_init track.psf_version).2 → 0 ≤ XSFInput.get_srate track.psf_version →
      0 ≤ (XSFInput.tagMillis st track).1 → 0 ≤ (XSFInput.tagMillis st track).2 →
      (XSFInput.tagMillis st track).1 + (XSFInput.tagMillis st track).2 < 2 ^ 31 →
      XSFInput.XSFReader.readTrack st track =
        some (((XSFInput.tagMillis st track).1 + (XSFInput.tagMillis st track).2).toNat,
          XSFInput.get_srate track.psf_version) ∧
      (XSFInput.XSFDecoder.init ops st d track).1.framesLength =
        (XSFInput.XSFDecoder.init ops st d track).1.m_format.framesForDuration
          (XSFInput.tagMillis st track).1.toNat ∧
      (XSFInput.XSFDecoder.init ops st d track).1.framesFade =
        (XSFInput.XSFDecoder.init ops st d track).1.m_format.framesForDuration
          (XSFInput.tagMillis st track).2.toNat ∧
      (XSFInput.XSFDecoder.init ops st d track).1.totalFrames ≤
        (XSFInput.XSFDecoder.init ops st d track).1.m_format.framesForDuration
          ((XSFInput.tagMillis st track).1 + (XSFInput.tagMillis st track).2).toNat ∧
      ((XSFInput.XSFDecoder.init ops st d track).1.m_format.framesForDuration
          ((XSFInput.tagMillis st track).1 + (XSFInput.tagMillis st track).2).toNat : Int) ≤
        (XSFInput.XSFDecoder.init ops st d track).1.totalFrames + 1) := by
  constructor
  · intro P ops st d data file hlc hdata hend
    have hm := MIDIInput.reader_millis st file hlc
    refine ⟨hm, fun h1 h2 h3 => ?_⟩
    obtain ⟨i1, i2, i3, -, -⟩ := MIDIInput.init_timeline ops st d data file ⟨false, false⟩ hdata hend
    obtain ⟨t1, t2, t3⟩ := MIDIInput.loopTimeline_of_millis st file
      (MIDIInput.effectiveLoopCount st ⟨false, false⟩)
    rw [← hm] at t1 t2
    have hne : data.isEmpty = false := by
      cases data with
      | nil => exact absurd rfl hdata
      | cons x l => rfl
    have hread : MIDIInput.MIDIReader.readTrack st data (some file) =
        some (toULong (toLong ((MIDIInput.MIDIReader.millis st file).1 +
          (MIDIInput.MIDIReader.millis st file).2))) := by
      unfold MIDIInput.MIDIReader.readTrack
      rw [hne]
      simp only [Bool.false_eq_true, if_false, if_neg hend]
    generalize MIDIInput.MIDIReader.millis st file = p at h1 h2 h3 t1 t2 hread ⊢
    obtain ⟨a, b⟩ := p
    dsimp only at h1 h2 h3 t1 t2 hread ⊢
    rw [toULong_of_lt a h1 (by omega)] at t1
    rw [toULong_of_lt b h2 (by omega)] at t2
    rw [toLong_of_lt _ (by omega) (by omega), toULong_of_lt _ (by omega) (by omega)] at hread
    have ha := MIDIInput.framesForDuration_lt a.toNat (by omega)
    have hb := MIDIInput.framesForDuration_lt b.toNat (by omega)
    have hsum : (a + b).toNat = a.toNat + b.toNat := Int.toNat_add h1 h2
    have hsplit := frames_split MIDIInput.m_format a.toNat b.toNat
    rw [i1, i2, i3, t3, t1, t2, hread, hsum, toLong_of_lt _ (by omega) (by omega)]
    exact ⟨rfl, rfl, rfl, by omega, by omega⟩
  · intro E ops st d track hA hV hE hR h1 h2 h3
    have hinit := XSFInput.init_success ops st d track hA hV hE hR
      (XSFInput.tagMillis st track).1 (XSFInput.tagMillis st track).2 rfl rfl
      h1 (by omega) h2 (by omega)
    have hread : XSFInput.XSFReader.readTrack st track =
        some (toULong (toInt ((XSFInput.tagMillis st track).1 + (XSFInput.tagMillis st track).2)),
          XSFInput.get_srate track.psf_version) := by
      unfold XSFInput.XSFReader.readTrack XSFInput.tagMillis
      rw [if_neg (by simp [hA]), if_neg (by omega)]
      dsimp only
      rw [if_neg (by omega)]
    generalize XSFInput.tagMillis st track = p at h1 h2 h3 hinit hread ⊢
    obtain ⟨a, b⟩ := p
    dsimp only at h1 h2 h3 hinit hread ⊢
    have hti : toInt (a + b) = a + b := by
      unfold toInt
      omega
    rw [hti, toULong_of_lt _ (by omega) (by omega)] at hread
    have hsum : (a + b).toNat = a.toNat + b.toNat := Int.toNat_add h1 h2
    have hsplit := frames_split
      (XSFInput.setSampleRate d.m_format (XSFInput.get_srate track.psf_version)) a.toNat b.toNat
    rw [hinit, hread, hsum]
    dsimp only
    exact ⟨rfl, rfl, rfl, by omega, by omega⟩

end Fooyin

namespace Fooyin

/-- The reader theorem at a MIDI file with loop points at 1000 ms and 5000 ms
under a loop count of 2 and a fade of 1000 ms, which both paths time at
9000 ms and 1000 ms, and at an XSF file tagged with a length of 120000 ms and
a fade of 5000 ms. -/
theorem reader_matches_decoder_witness :
    (MIDIInput.MIDIReader.millis ⟨some 2, some 1000, 2, 10000⟩ ⟨480, 6000, 1000, 5000⟩ =
        MIDIInput.initMillis ⟨some 2, some 1000, 2, 10000⟩ ⟨480, 6000, 1000, 5000⟩
          (MIDIInput.effectiveLoopCount ⟨some 2, some 1000, 2, 10000⟩ ⟨false, false⟩) ∧
      MIDIInput.MIDIReader.millis ⟨some 2, some 1000, 2, 10000⟩ ⟨480, 6000, 1000, 5000⟩ =
        (9000, 1000) ∧
      MIDIInput.MIDIReader.readTrack ⟨some 2, some 1000, 2, 10000⟩ [77]
          (some ⟨480, 6000, 1000, 5000⟩) =
        some ((MIDIInput.MIDIReader.millis ⟨some 2, some 1000, 2, 10000⟩
            ⟨480, 6000, 1000, 5000⟩).1 +
          (MIDIInput.MIDIReader.millis ⟨some 2, some 1000, 2, 10000⟩
            ⟨480, 6000, 1000, 5000⟩).2).toNat) ∧
    (XSFInput.tagMillis ⟨some 3, some 2000, 3, 10000⟩ ⟨false, 1, 120000, 5000⟩ =
        (120000, 5000) ∧
      XSFInput.XSFReader.readTrack ⟨some 3, some 2000, 3, 10000⟩ ⟨false, 1, 120000, 5000⟩ =
        some (((XSFInput.tagMillis ⟨some 3, some 2000, 3, 10000⟩
            ⟨false, 1, 120000, 5000⟩).1 +
          (XSFInput.tagMillis ⟨some 3, some 2000, 3, 10000⟩
            ⟨false, 1, 120000, 5000⟩).2).toNat,
          XSFInput.get_srate 1)) :=
  ⟨⟨(reader_matches_decoder.1 Unit MIDIInput.onesPlayer ⟨some 2, some 1000, 2, 10000⟩
        (MIDIInput.MIDIDecoder.fresh Unit) [77] ⟨480, 6000, 1000, 5000⟩
        (Or.inr ⟨2, by decide, rfl⟩) (by decide) (by decide)).1,
      by decide,
      ((reader_matches_decoder.1 Unit MIDIInput.onesPlayer ⟨some 2, some 1000, 2, 10000⟩
        (MIDIInput.MIDIDecoder.fresh Unit) [77] ⟨480, 6000, 1000, 5000⟩
        (Or.inr ⟨2, by decide, rfl⟩) (by decide) (by decide)).2
        (by decide) (by decide) (by decide)).1⟩,
   ⟨by decide,
    (reader_matches_decoder.2 Unit XSFInput.constEmu ⟨some 3, some 2000, 3, 10000⟩
      (XSFInput.XSFDecoder.playing () 9 0 0) ⟨false, 1, 120000, 5000⟩ rfl (by decide)
      (by decide) (by decide) (by decide) (by decide) (by decide)).1⟩⟩

end Fooyin

namespace Fooyin.XSFInput

/-- C29 at failing inputs. A GSF section of 12 bytes that declares a payload
of 16 bytes passes the checks of `gsf_loader`, and the copy reads up to byte 28
of the 12-byte input; a section that declares 2 bytes and carries 4 is turned
away, the size test of line 488 pointing the wrong way. With the offset
0x1ffffff and the size 0xfe000001 the 32-bit sum wraps to 0, a block of 10
bytes is allocated and the copy writes up to byte 2^32 of it. `load_twosf_map`
has no size test: 8 bytes that declare a payload of 16 bytes are accepted and
read up to byte 24, also through `twosf_loader`. -/
theorem loaders_copy_out_of_bounds :
    gsf_loader 0 true ⟨0, 0, none, 0⟩ [0, 0, 0, 8, 0, 0, 0, 0, 16, 0, 0, 0] =
      LoadResult.outOfBounds 28 12 16 26 ∧
    gsf_loader 0 true ⟨0, 0, none, 0⟩ [0, 0, 0, 8, 0, 0, 0, 0, 2, 0, 0, 0, 7, 7, 7, 7] =
      LoadResult.rejected ⟨0, 0, none, 0⟩ ∧
    gsf_loader 0 true ⟨0, 0, none, 0⟩ [0, 0, 0, 8, 255, 255, 255, 1, 1, 0, 0, 254] =
      LoadResult.outOfBounds (12 + 0xfe000001) 12 (2 ^ 32) 10 ∧
    load_twosf_map 0 true ⟨none, none, 0, 0⟩ false [0, 0, 0, 0, 16, 0, 0, 0] =
      LoadResult.outOfBounds 24 8 16 26 ∧
    twosf_loader_exe 0 true ⟨none, none, 0, 0⟩ [0, 0, 0, 0, 16, 0, 0, 0] =
      LoadResult.outOfBounds 24 8 16 26 := by
  decide

end Fooyin.XSFInput

namespace Fooyin.XSFInput

theorem writeAt_length {α : Type} : ∀ (buf : List α) (off : Nat) (data : List α),
    (writeAt buf off data).length = buf.length
  | [], _, _ => rfl
  | b :: bs, 0, [] => rfl
  | _ :: bs, 0, d :: ds => by simp [writeAt, writeAt_length bs 0 ds]
  | b :: bs, off + 1, data => by simp [writeAt, writeAt_length bs off data]

theorem writeAt_front {α : Type} (s seg : List α) (h : seg.length ≤ s.length) :
    (writeAt s 0 seg).take seg.length = seg := by
  rw [ writeAt_zero_prefix seg s h]
  simp

theorem writeAt_whole {α : Type} (s b : List α) (h : b.length = s.length) :
    writeAt s 0 b = b := by
  rw [ writeAt_zero_prefix b s (le_of_eq h), h]
  simp

theorem post_block (r : gsf_running_state) (b : List Int)
    (hr : r.samples.length = 2 * BufferLen) (hb : b.length = 2 * BufferLen) :
    gsf_postAudioBuffer r b = ⟨b, BufferLen⟩ := by
  unfold gsf_postAudioBuffer
  rw [List.take_of_length_le (le_of_eq hb), writeAt_whole _ _ (by rw [hb, hr])]

theorem runUntilBuffered_ready {C : Type} (core : GsfCore C) (fuel : Nat) (c : C)
    (r : gsf_running_state) (h : r.buffered ≠ 0) :
    runUntilBuffered core fuel c r = some (c, r) := by
  cases fuel <;> simp [runUntilBuffered, h]

theorem runUntilBuffered_eq {C : Type} (core : GsfCore C)
    (h1 : ∀ c, (core.runFrame c).2.length ≤ 1)
    (h2 : ∀ c, ∀ b ∈ (core.runFrame c).2, b.length = 2 * BufferLen) :
    ∀ (fuel : Nat) (c : C) (s : List Int), s.length = 2 * BufferLen →
      runUntilBuffered core fuel c ⟨s, 0⟩ =
        (nextBlock core fuel c).map (fun p => (p.1, (⟨p.2, BufferLen⟩ : gsf_running_state))) := by
  intro fuel
  induction fuel with
  | zero =>
    intro c s _
    simp [runUntilBuffered, nextBlock]
  | succ fuel ih =>
    intro c s hs
    have hl := h1 c
    have hb := h2 c
    unfold runUntilBuffered nextBlock
    simp only [ne_eq, not_true_eq_false, if_false]
    generalize core.runFrame c = f at hl hb
    obtain ⟨c1, blocks⟩ := f
    dsimp only at hl hb ⊢
    match blocks, hl, hb with
    | [], _, _ =>
      simp only [List.foldl_nil, List.getLast?_nil]
      exact ih c1 s hs
    | [b], _, hb =>
      simp only [List.foldl_cons, List.foldl_nil, List.getLast?_singleton, Option.map_some']
      rw [post_block _ b hs (hb b (List.mem_singleton_self b))]
      exact runUntilBuffered_ready core fuel c1 _ (by show BufferLen ≠ 0; decide)
    | _ :: _ :: _, hl, _ => simp at hl

theorem nextBlock_length {C : Type} (core : GsfCore C)
    (h2 : ∀ c, ∀ b ∈ (core.runFrame c).2, b.length = 2 * BufferLen) :
    ∀ (fuel : Nat) (c c1 : C) (b : List Int), nextBlock core fuel c = some (c1, b) →
      b.length = 2 * BufferLen := by
  intro fuel
  induction fuel with
  | zero =>
    intro c c1 b h
    simp [nextBlock] at h
  | succ fuel ih =>
    intro c c1 b h
    unfold nextBlock at h
    cases hg : (core.runFrame c).2.getLast? with
    | none =>
      rw [hg] at h
      exact ih _ _ _ h
    | some x =>
      rw [hg] at h
      simp only [Option.some.injEq, Prod.mk.injEq] at h
      rw [← h.2]
      exact h2 c x (List.mem_of_getLast?_eq_some hg)

theorem take_pushed_stable {C : Type} (core : GsfCore C) (fuel : Nat)
    (h2 : ∀ c, ∀ b ∈ (core.runFrame c).2, b.length = 2 * BufferLen) :
    ∀ (n1 n2 k : Nat) (c : C), k ≤ 2 * BufferLen * n1 → k ≤ 2 * BufferLen * n2 →
      (pushedBlocks core fuel n1 c).take k = (pushedBlocks core fuel n2 c).take k := by
  intro n1
  induction n1 with
  | zero =>
    intro n2 k c hk _
    have : k = 0 := by omega
    subst this
    simp
  | succ n1 ih =>
    intro n2 k c hk1 hk2
    cases n2 with
    | zero =>
      have : k = 0 := by omega
      subst this
      simp
    | succ n2 =>
      simp only [pushedBlocks]
      cases hn : nextBlock core fuel c with
      | none => rfl
      | some p =>
        obtain ⟨c1, b⟩ := p
        have hb := nextBlock_length core h2 fuel c c1 b hn
        simp only [List.take_append_eq_append_take]
        rw [ih n2 (k - b.length) c1 (by rw [hb, Nat.mul_succ] at *; omega)
          (by rw [hb, Nat.mul_succ] at *; omega)]

theorem take_tape_gsf {C : Type} (core : GsfCore C) (fuel : Nat)
    (h2 : ∀ c, ∀ b ∈ (core.runFrame c).2, b.length = 2 * BufferLen)
    (n1 n2 k : Nat) (c : C) (r : gsf_running_state)
    (hk1 : k ≤ 2 * BufferLen * n1) (hk2 : k ≤ 2 * BufferLen * n2) :
    (gsfTape core fuel n1 c r).take k = (gsfTape core fuel n2 c r).take k := by
  unfold gsfTape
  simp only [List.take_append_eq_append_take]
  rw [take_pushed_stable core fuel h2 n1 n2 _ c (by omega) (by omega)]

end Fooyin.XSFInput

namespace Fooyin.XSFInput

theorem drainLoop_spec {C : Type} (core : GsfCore C) (fuel : Nat)
    (hp : PushesBlocks core fuel) :
    ∀ (n : Nat) (c : C) (r : gsf_running_state) (out : List Int) (ftr : Nat),
      r.Valid → ftr + 1 ≤ n → (r.buffered = 0 → ftr + 2 ≤ n) →
      ∃ c1 r1 o, drainLoop core fuel n c r out ftr = some (c1, r1, out ++ o, 0) ∧
        r1.Valid ∧ o.length = 2 * ftr ∧
        ∃ j, ∀ m, gsfTape core fuel (j + m) c r = o ++ gsfTape core fuel m c1 r1 := by
  obtain ⟨h1, h2, h3⟩ := hp
  intro n
  induction n with
  | zero =>
    intro c r out ftr _ hn _
    omega
  | succ n ih =>
    intro c r out ftr hv hn hn0
    obtain ⟨s, buf⟩ := r
    obtain ⟨hs, hb⟩ := hv
    dsimp only at hs hb hn0
    unfold drainLoop
    dsimp only
    by_cases hge : buf ≥ ftr
    · rw [if_pos hge]
      have hseg : ((s.drop (2 * ftr)).take (2 * (buf - ftr))).length = 2 * (buf - ftr) := by
        rw [List.length_take, List.length_drop]
        omega
      refine ⟨c, _, s.take (2 * ftr), rfl, ⟨?_, ?_⟩, ?_, 0, fun m => ?_⟩
      · show (writeAt s 0 _).length = _
        rw [writeAt_length, hs]
      · show buf - ftr ≤ BufferLen
        omega
      · rw [List.length_take]
        omega
      · unfold gsfTape
        dsimp only
        have e1 : (writeAt s 0 ((s.drop (2 * ftr)).take (2 * (buf - ftr)))).take
            (2 * (buf - ftr)) = (s.drop (2 * ftr)).take (2 * (buf - ftr)) := by
          have := writeAt_front s ((s.drop (2 * ftr)).take (2 * (buf - ftr)))
            (by rw [hseg]; omega)
          rw [hseg] at this
          exact this
        have e2 : 2 * buf = 2 * ftr + 2 * (buf - ftr) := by omega
        rw [e1, Nat.zero_add, e2, List.take_add, List.append_assoc]
    · rw [if_neg hge]
      have hrun := runUntilBuffered_eq core h1 h2 fuel c s hs
      have hsome := h3 c
      cases hnb : nextBlock core fuel c with
      | none => rw [hnb] at hsome; simp at hsome
      | some p =>
        obtain ⟨c2, b⟩ := p
        have hbl := nextBlock_length core h2 fuel c c2 b hnb
        rw [hnb] at hrun
        simp only [Option.map_some'] at hrun
        rw [hrun]
        dsimp only
        obtain ⟨c1, r1, o2, hrun2, hv1, hlen2, j2, hj2⟩ :=
          ih c2 ⟨b, BufferLen⟩ (out ++ s.take (2 * buf)) (ftr - buf)
            ⟨hbl, le_refl _⟩ (by
              by_cases h0 : buf = 0
              · have := hn0 h0
                omega
              · omega)
            (by
              intro h
              have hBL : BufferLen ≠ 0 := by decide
              exact absurd h hBL)
        refine ⟨c1, r1, s.take (2 * buf) ++ o2, ?_, hv1, ?_, j2 + 1, fun m => ?_⟩
        · rw [hrun2, List.append_assoc]
        · rw [List.length_append, List.length_take, hlen2]
          omega
        · have e : j2 + 1 + m = (j2 + m) + 1 := by omega
          have hj := hj2 m
          unfold gsfTape at hj ⊢
          dsimp only at hj ⊢
          rw [List.take_of_length_le (le_of_eq hbl)] at hj
          rw [e]
          simp only [pushedBlocks, hnb]
          rw [hj, List.append_assoc]

end Fooyin.XSFInput

namespace Fooyin.XSFInput

theorem gsf_render_spec {C : Type} (core : GsfCore C) (fuel : Nat)
    (hp : PushesBlocks core fuel) (c : C) (r : gsf_running_state) (count : Nat)
    (hv : r.Valid) :
    ∃ c1 r1 o, gsf_render core fuel c r count =
        some ⟨c1, r1, count, if count = 0 then -1 else 0, o⟩ ∧
      r1.Valid ∧ o.length = 2 * count ∧
      ∃ j, ∀ m, gsfTape core fuel (j + m) c r = o ++ gsfTape core fuel m c1 r1 := by
  obtain ⟨c1, r1, o, hrun, hv1, hlen, hj⟩ :=
    drainLoop_spec core fuel hp (count + 2) c r [] count hv (by omega) (fun _ => le_refl _)
  refine ⟨c1, r1, o, ?_, hv1, hlen, hj⟩
  unfold gsf_render
  rw [hrun]
  simp

theorem renderAll_spec {C : Type} (core : GsfCore C) (fuel : Nat)
    (hp : PushesBlocks core fuel) :
    ∀ (counts : List Nat) (c : C) (r : gsf_running_state), r.Valid →
      ∃ c1 r1 out, renderAll core fuel counts c r = some (c1, r1, out, counts) ∧
        r1.Valid ∧ out.length = 2 * counts.sum ∧
        ∃ j, ∀ m, gsfTape core fuel (j + m) c r = out ++ gsfTape core fuel m c1 r1 := by
  intro counts
  induction counts with
  | nil =>
    intro c r hv
    exact ⟨c, r, [], rfl, hv, rfl, 0, fun m => by simp⟩
  | cons n ns ih =>
    intro c r hv
    obtain ⟨c1, r1, o, hrun, hv1, hlen, j1, hj1⟩ := gsf_render_spec core fuel hp c r n hv
    obtain ⟨c2, r2, out, hrun2, hv2, hlen2, j2, hj2⟩ := ih c1 r1 hv1
    refine ⟨c2, r2, o ++ out, ?_, hv2, ?_, j1 + j2, fun m => ?_⟩
    · unfold renderAll
      rw [hrun]
      dsimp only
      rw [hrun2]
    · rw [List.length_append, hlen, hlen2, List.sum_cons]
      omega
    · rw [Nat.add_assoc, hj1, hj2, List.append_assoc]

theorem tickCore_pushes : PushesBlocks tickCore 2 := by
  refine ⟨fun c => ?_, fun c b hb => ?_, fun c => ?_⟩
  · show (if c % 2 = 1 then [List.replicate (2 * BufferLen) (c : Int)] else []).length ≤ 1
    split <;> simp
  · have hb1 : b ∈ (if c % 2 = 1 then [List.replicate (2 * BufferLen) (c : Int)] else []) := hb
    split at hb1
    · rw [List.mem_singleton] at hb1
      rw [hb1, List.length_replicate]
    · simp at hb1
  · by_cases h : c % 2 = 1
    · simp [nextBlock, tickCore, h]
    · have h1 : (c + 1) % 2 = 1 := by omega
      simp [nextBlock, tickCore, h, h1]

end Fooyin.XSFInput

namespace Fooyin.XSFInput

/-- C25: for a core that posts at most one block of `BufferLen` frames per
frame it runs and keeps posting blocks, and a sample buffer in a valid state,
successive `emu_render` calls of version 0x22 for the counts `n1, n2, ...`
all return, each reports the requested count, and the samples they write,
concatenated, are the first `n1 + n2 + ...` frames of the frames still
buffered followed by the blocks the core posts, which are the posted blocks
alone when nothing is buffered at the start; what follows in that stream is
what the session left behind holds: the frames carried in `samples`, then the
next blocks. -/
theorem gsf_render_stream {C : Type} (core : GsfCore C) (fuel : Nat)
    (hp : PushesBlocks core fuel) (counts : List Nat) (c : C) (r : gsf_running_state)
    (hv : r.Valid) :
    ∃ c1 r1 out, renderAll core fuel counts c r = some (c1, r1, out, counts) ∧
      r1.Valid ∧ out.length = 2 * counts.sum ∧
      out = (gsfTape core fuel counts.sum c r).take (2 * counts.sum) ∧
      (r.buffered = 0 → out = (pushedBlocks core fuel counts.sum c).take (2 * counts.sum)) ∧
      ∃ j, ∀ m, gsfTape core fuel (j + m) c r = out ++ gsfTape core fuel m c1 r1 := by
  obtain ⟨c1, r1, out, hrun, hv1, hlen, j, hj⟩ := renderAll_spec core fuel hp counts c r hv
  have hBL : BufferLen = 2048 := rfl
  have htake : out = (gsfTape core fuel counts.sum c r).take (2 * counts.sum) := by
    have h1 := take_tape_gsf core fuel hp.2.1 counts.sum (j + counts.sum) (2 * counts.sum) c r
      (by rw [hBL]; omega) (by rw [hBL]; omega)
    rw [h1, hj, List.take_append_eq_append_take, hlen, Nat.sub_self, List.take_zero,
      List.append_nil, List.take_of_length_le (le_of_eq hlen)]
  refine ⟨c1, r1, out, hrun, hv1, hlen, htake, fun h0 => ?_, j, hj⟩
  rw [htake]
  unfold gsfTape
  rw [h0]
  simp

/-- The stream theorem at the core that posts a block every second frame,
from the state that `emu_init` leaves, for the requests of 3 and of 5000
frames. -/
theorem gsf_render_stream_witness :
    PushesBlocks tickCore 2 ∧ gsf_running_state.zero.Valid ∧
    ∃ c1 r1 out, renderAll tickCore 2 [3, 5000] 0 gsf_running_state.zero =
        some (c1, r1, out, [3, 5000]) ∧
      r1.Valid ∧ out.length = 2 * [3, 5000].sum ∧
      out = (gsfTape tickCore 2 [3, 5000].sum 0 gsf_running_state.zero).take
        (2 * [3, 5000].sum) ∧
      (gsf_running_state.zero.buffered = 0 →
        out = (pushedBlocks tickCore 2 [3, 5000].sum 0).take (2 * [3, 5000].sum)) ∧
      ∃ j, ∀ m, gsfTape tickCore 2 (j + m) 0 gsf_running_state.zero =
        out ++ gsfTape tickCore 2 m c1 r1 :=
  ⟨tickCore_pushes, ⟨by simp [gsf_running_state.zero], Nat.zero_le _⟩,
    gsf_render_stream tickCore 2 tickCore_pushes [3, 5000] 0 gsf_running_state.zero
      ⟨by simp [gsf_running_state.zero], Nat.zero_le _⟩⟩

/-- One call over the core that posts a block every second frame, from the
state that `emu_init` leaves: a request of 3 frames runs two frames of the
core, writes the first 3 frames of the block and keeps 2045 frames. -/
theorem gsf_render_example :
    (gsf_render tickCore 2 0 gsf_running_state.zero 3).map
        (fun x => (x.core, x.rstate.buffered, x.count, x.err, x.samples)) =
      some (2, 2045, 3, 0, [1, 1, 1, 1, 1, 1]) := by
  decide

end Fooyin.XSFInput

namespace Fooyin.XSFInput

theorem getD_writeAt {α : Type} (d : α) : ∀ (buf : List α) (off : Nat) (data : List α) (i : Nat),
    (writeAt buf off data).getD i d =
      if off ≤ i ∧ i < off + data.length ∧ i < buf.length then data.getD (i - off) d
      else buf.getD i d
  | [], off, data, i => by
    simp [writeAt]
  | b :: bs, 0, [], i => by
    simp [writeAt]
  | b :: bs, 0, x :: xs, i => by
    cases i with
    | zero => simp [writeAt]
    | succ i =>
      simp only [writeAt, List.getD_cons_succ, getD_writeAt d bs 0 xs i, List.length_cons]
      simp only [Nat.zero_le, true_and, Nat.zero_add, Nat.sub_zero, Nat.add_lt_add_iff_right,
        List.getD_cons_succ]
  | b :: bs, off + 1, data, i => by
    cases i with
    | zero => simp [writeAt]
    | succ i =>
      simp only [writeAt, List.getD_cons_succ, getD_writeAt d bs off data i, List.length_cons]
      have e : i + 1 - (off + 1) = i - off := by omega
      rw [e]
      congr 1
      apply propext
      constructor <;> intro h <;> omega

theorem zeroFrom_length {α : Type} (z : α) : ∀ (buf : List α) (off n : Nat),
    (zeroFrom z buf off n).length = buf.length
  | [], _, _ => rfl
  | b :: bs, 0, 0 => rfl
  | _ :: bs, 0, n + 1 => by simp [zeroFrom, zeroFrom_length z bs 0 n]
  | b :: bs, off + 1, n => by simp [zeroFrom, zeroFrom_length z bs off n]

theorem getD_zeroFrom {α : Type} (z d : α) : ∀ (buf : List α) (off n i : Nat),
    (zeroFrom z buf off n).getD i d =
      if off ≤ i ∧ i < off + n ∧ i < buf.length then z else buf.getD i d
  | [], off, n, i => by
    simp [zeroFrom]
  | b :: bs, 0, 0, i => by
    simp [zeroFrom]
  | b :: bs, 0, n + 1, i => by
    cases i with
    | zero => simp [zeroFrom]
    | succ i =>
      simp only [zeroFrom, List.getD_cons_succ, getD_zeroFrom z d bs 0 n i, List.length_cons]
      simp only [Nat.zero_le, true_and, Nat.zero_add, Nat.add_lt_add_iff_right]
  | b :: bs, off + 1, n, i => by
    cases i with
    | zero => simp [zeroFrom]
    | succ i =>
      simp only [zeroFrom, List.getD_cons_succ, getD_zeroFrom z d bs off n i, List.length_cons]
      congr 1
      apply propext
      constructor <;> intro h <;> omega

theorem realloc_length (fill : Nat) (block : List Nat) (size : Nat) :
    (realloc fill block size).length = size := by
  unfold realloc
  simp only [List.length_take, List.length_append, List.length_replicate]
  omega

theorem getD_realloc (fill : Nat) (block : List Nat) (size i : Nat) (d : Nat) :
    (realloc fill block size).getD i d =
      if i < size then (if i < block.length then block.getD i d else fill) else d := by
  unfold realloc
  by_cases h : i < size
  · rw [if_pos h]
    rw [List.getD_eq_getElem?_getD, List.getElem?_take_of_lt h]
    by_cases h2 : i < block.length
    · rw [if_pos h2, List.getElem?_append_left h2, List.getD_eq_getElem?_getD]
    · rw [if_neg h2, List.getElem?_append_right (by omega),
        List.getElem?_replicate]
      rw [if_pos (by omega)]
      rfl
  · rw [if_neg h]
    rw [List.getD_eq_getElem?_getD, List.getElem?_eq_none (by
      simp only [List.length_take, List.length_append, List.length_replicate]
      omega)]
    rfl

theorem getD_take_drop {α : Type} (l : List α) (a n i : Nat) (d : α) :
    ((l.drop a).take n).getD i d = if i < n then l.getD (a + i) d else d := by
  by_cases h : i < n
  · rw [if_pos h, List.getD_eq_getElem?_getD, List.getElem?_take_of_lt h, List.getElem?_drop,
      List.getD_eq_getElem?_getD]
  · rw [if_neg h, List.getD_eq_getElem?_getD, List.getElem?_eq_none (by
      simp only [List.length_take, List.length_drop]
      omega)]
    rfl

theorem shl_or (a b i : Nat) (hb : b < 2 ^ i) : a <<< i ||| b = a * 2 ^ i + b := by
  rw [Nat.shiftLeft_eq, Nat.mul_comm, ← Nat.mul_add_lt_is_or hb]

theorem get_le32_sum (p : List Nat) :
    get_le32 p = p.getD 0 0 % 256 + 256 * (p.getD 1 0 % 256) + 65536 * (p.getD 2 0 % 256) +
      16777216 * (p.getD 3 0 % 256) := by
  unfold get_le32
  rw [Nat.or_assoc, Nat.or_assoc, shl_or (p.getD 1 0 % 256) (p.getD 0 0 % 256) 8 (by omega),
    shl_or (p.getD 2 0 % 256) _ 16 (by omega), shl_or (p.getD 3 0 % 256) _ 24 (by omega)]
  omega

theorem mask23 (x : Nat) : x &&& 0x7fffff = x % 2 ^ 23 := by
  have := Nat.and_pow_two_sub_one_eq_mod x 23
  simpa using this

theorem sdsfStart_congr (p q : List Nat) (h : ∀ i, i < 4 → p.getD i 0 = q.getD i 0) :
    sdsfStart p = sdsfStart q := by
  unfold sdsfStart
  rw [get_le32_sum, get_le32_sum, h 0 (by omega), h 1 (by omega), h 2 (by omega),
    h 3 (by omega)]

theorem sdsfStart_set (n : Nat) (p : List Nat) (hn : n < 2 ^ 23)
    (h : ∀ i, i < 4 → p.getD i 0 = (set_le32 n).getD i 0) : sdsfStart p = n := by
  unfold sdsfStart
  rw [get_le32_sum, h 0 (by omega), h 1 (by omega), h 2 (by omega), h 3 (by omega), mask23]
  simp only [set_le32, List.getD_cons_zero, List.getD_cons_succ, Nat.shiftRight_eq_div_pow]
  omega

theorem sdsfStart_lt (p : List Nat) : sdsfStart p < 2 ^ 23 := by
  unfold sdsfStart
  rw [mask23]
  omega

end Fooyin.XSFInput

namespace Fooyin.XSFInput

theorem set_le32_length (n : Nat) : (set_le32 n).length = 4 := rfl

theorem sdsfGrowDown_spec (fill : Nat) (D : List Nat) (ns : Nat) (hD : 4 ≤ D.length)
    (hns : ns < 2 ^ 23) (X : List Nat) (size xl xs : Nat)
    (h : sdsfGrowDown fill D D.length (D.length - 4) (sdsfStart D) ns = (X, size, xl, xs)) :
    X.length = size ∧ size = 4 + xl ∧ xs = min (sdsfStart D) ns ∧
    xs + xl = sdsfStart D + (D.length - 4) ∧ sdsfStart X = xs ∧
    ∀ a, xs ≤ a → a < xs + xl →
      X.getD (4 + (a - xs)) 0 =
        if sdsfStart D ≤ a then D.getD (4 + (a - sdsfStart D)) 0 else 0 := by
  unfold sdsfGrowDown at h
  by_cases hA : ns < sdsfStart D
  · rw [if_pos hA] at h
    dsimp only at h
    simp only [Prod.mk.injEq] at h
    obtain ⟨hX, hsize, hxl, hxs⟩ := h
    subst hsize hxl hxs
    have hhead : ∀ i, i < 4 → X.getD i 0 = (set_le32 ns).getD i 0 := by
      intro i hi
      rw [← hX, getD_writeAt, if_pos ⟨Nat.zero_le _, by rw [set_le32_length]; omega, by
        simp only [zeroFrom_length, writeAt_length, realloc_length]
        omega⟩, Nat.sub_zero]
    refine ⟨?_, by omega, by omega, by omega, sdsfStart_set ns X hns hhead, ?_⟩
    · rw [← hX]
      simp only [zeroFrom_length, writeAt_length, realloc_length]
    · intro a ha1 ha2
      rw [← hX]
      generalize sdsfStart D = os at *
      simp only [getD_writeAt, getD_zeroFrom, getD_realloc, getD_take_drop, List.length_take,
        List.length_drop, writeAt_length, zeroFrom_length, realloc_length, set_le32_length]
      split_ifs <;> first
        | rfl
        | omega
        | (congr 1; omega)
  · rw [if_neg hA] at h
    simp only [Prod.mk.injEq] at h
    obtain ⟨hX, hsize, hxl, hxs⟩ := h
    subst hX hsize hxl hxs
    refine ⟨rfl, by omega, by omega, rfl, rfl, ?_⟩
    intro a ha1 ha2
    rw [if_pos ha1]

theorem sdsfGrowUp_spec (fill : Nat) (X exe : List Nat) (size xl xs ns : Nat)
    (hX : X.length = size) (hsize : size = 4 + xl) (hle : xs ≤ ns) (U : List Nat) (usize : Nat)
    (h : sdsfGrowUp fill X size xl xs ns (exe.length - 4) = (U, usize)) :
    (writeAt U (4 + (ns - xs)) ((exe.drop 4).take (exe.length - 4))).length = usize ∧
    usize = 4 + (max (xs + xl) (ns + (exe.length - 4)) - xs) ∧
    (∀ i, i < 4 →
      (writeAt U (4 + (ns - xs)) ((exe.drop 4).take (exe.length - 4))).getD i 0 = X.getD i 0) ∧
    ∀ a, xs ≤ a → a < max (xs + xl) (ns + (exe.length - 4)) →
      (writeAt U (4 + (ns - xs)) ((exe.drop 4).take (exe.length - 4))).getD (4 + (a - xs)) 0 =
        if ns ≤ a ∧ a < ns + (exe.length - 4) then exe.getD (4 + (a - ns)) 0
        else if a < xs + xl then X.getD (4 + (a - xs)) 0 else 0 := by
  unfold sdsfGrowUp at h
  subst hsize
  by_cases hB : ns + (exe.length - 4) > xs + xl
  · rw [if_pos hB] at h
    dsimp only at h
    simp only [Prod.mk.injEq] at h
    obtain ⟨hU, hus⟩ := h
    subst hU hus
    refine ⟨?_, by omega, ?_, ?_⟩
    · simp only [zeroFrom_length, writeAt_length, realloc_length]
    · intro i hi
      simp only [getD_writeAt, getD_zeroFrom, getD_realloc, getD_take_drop, List.length_take,
        List.length_drop, writeAt_length, zeroFrom_length, realloc_length]
      split_ifs <;> first
        | rfl
        | omega
    · intro a ha1 ha2
      simp only [getD_writeAt, getD_zeroFrom, getD_realloc, getD_take_drop, List.length_take,
        List.length_drop, writeAt_length, zeroFrom_length, realloc_length]
      split_ifs <;> first
        | rfl
        | omega
        | (congr 1; omega)
  · rw [if_neg hB] at h
    simp only [Prod.mk.injEq] at h
    obtain ⟨hU, hus⟩ := h
    subst hU hus
    refine ⟨?_, by omega, ?_, ?_⟩
    · simp only [writeAt_length]
      exact hX
    · intro i hi
      simp only [getD_writeAt, getD_take_drop, List.length_take, List.length_drop]
      split_ifs <;> first
        | rfl
        | omega
    · intro a ha1 ha2
      simp only [getD_writeAt, getD_take_drop, List.length_take, List.length_drop]
      split_ifs <;> first
        | rfl
        | omega
        | (congr 1; omega)

end Fooyin.XSFInput

namespace Fooyin.XSFInput

/-- C30: `sdsf_loader` rejects every section shorter than 4 bytes and stores
the first accepted section verbatim. For a later section, with the stored
image and the section both made of a 4-byte start address and a payload of at
most 0x800000 bytes, and start addresses masked to 23 bits, the call succeeds
and the new image starts at the lower of the two start addresses, has
`data_size = 4 +` the higher end minus the lower start, holds the byte of the
new section at every address of its range, the byte loaded before at every
other address of the old range, and zero at every address covered by
neither. -/
theorem sdsf_loader_merges (fill : Nat) (state : sdsf_loader_state) (exe : List Nat) :
    (exe.length < 4 → sdsf_loader fill state exe = none) ∧
    (4 ≤ exe.length → state.data_size < 4 →
      sdsf_loader fill state exe = some ⟨exe, exe.length⟩) ∧
    (state.data.length = state.data_size → 4 ≤ state.data_size →
      state.data_size - 4 ≤ 0x800000 → 4 ≤ exe.length → exe.length - 4 ≤ 0x800000 →
      ∃ st, sdsf_loader fill state exe = some st ∧
        st.data.length = st.data_size ∧
        sdsfStart st.data = min (sdsfStart state.data) (sdsfStart exe) ∧
        st.data_size = 4 + (max (sdsfEnd state.data) (sdsfEnd exe) -
          min (sdsfStart state.data) (sdsfStart exe)) ∧
        ∀ a, min (sdsfStart state.data) (sdsfStart exe) ≤ a →
          a < max (sdsfEnd state.data) (sdsfEnd exe) →
          sdsfByte st.data a =
            if sdsfStart exe ≤ a ∧ a < sdsfEnd exe then sdsfByte exe a
            else if sdsfStart state.data ≤ a ∧ a < sdsfEnd state.data then
              sdsfByte state.data a
            else 0) := by
  refine ⟨fun h => ?_, fun h1 h2 => ?_, fun hsize hold holdlen hexe hexelen => ?_⟩
  · unfold sdsf_loader
    simp [h]
  · unfold sdsf_loader
    simp only [if_neg (Nat.not_lt.2 h1), if_pos h2]
  · obtain ⟨D, n⟩ := state
    dsimp only at hsize hold holdlen ⊢
    subst hsize
    have hns := sdsfStart_lt exe
    unfold sdsf_loader
    dsimp only
    rw [if_neg (by omega), if_neg (by omega), Nat.min_eq_left holdlen, Nat.min_eq_left hexelen,
      show get_le32 exe &&& 0x7fffff = sdsfStart exe from rfl,
      show get_le32 D &&& 0x7fffff = sdsfStart D from rfl]
    cases hd : sdsfGrowDown fill D D.length (D.length - 4) (sdsfStart D) (sdsfStart exe) with
    | mk X rest =>
      obtain ⟨size, xl, xs⟩ := rest
      obtain ⟨hX, hsz, hxs, hend, hstart, hbytes⟩ :=
        sdsfGrowDown_spec fill D (sdsfStart exe) hold hns X size xl xs hd
      dsimp only
      cases hu : sdsfGrowUp fill X size xl xs (sdsfStart exe) (exe.length - 4) with
      | mk U usize =>
        obtain ⟨hlen, hus, hhead, hbody⟩ :=
          sdsfGrowUp_spec fill X exe size xl xs (sdsfStart exe) hX hsz (by omega) U usize hu
        dsimp only
        have hstart2 : sdsfStart (writeAt U (4 + (sdsfStart exe - xs))
            ((exe.drop 4).take (exe.length - 4))) = xs := by
          rw [sdsfStart_congr _ X hhead, hstart]
        refine ⟨_, rfl, hlen, ?_, ?_, ?_⟩
        · dsimp only
          rw [hstart2, hxs]
        · dsimp only
          unfold sdsfEnd
          rw [hus, ← hxs, ← hend]
        · intro a ha1 ha2
          unfold sdsfByte sdsfEnd at *
          dsimp only
          rw [hstart2]
          rw [← hxs] at ha1
          rw [← hend] at ha2 ⊢
          rw [hbody a ha1 ha2]
          by_cases h1 : sdsfStart exe ≤ a ∧ a < sdsfStart exe + (exe.length - 4)
          · rw [if_pos h1, if_pos h1]
          · rw [if_neg h1, if_neg h1]
            by_cases h2 : a < xs + xl
            · rw [if_pos h2, hbytes a ha1 h2]
              by_cases h3 : sdsfStart D ≤ a
              · rw [if_pos h3, if_pos ⟨h3, h2⟩]
              · rw [if_neg h3, if_neg (fun h => h3 h.1)]
            · rw [if_neg h2, if_neg (fun h => h2 h.2)]

/-- The merge theorem at the image `10 00 00 00 | 07 08` (addresses 16 and
17) and the section `0c 00 00 00 | 05` (address 12), which give the image
`0c 00 00 00 | 05 00 00 00 07 08`. -/
theorem sdsf_loader_merges_witness :
    sdsf_loader 9 ⟨[16, 0, 0, 0, 7, 8], 6⟩ [1, 2, 3] = none ∧
    sdsf_loader 9 ⟨[], 0⟩ [16, 0, 0, 0, 7, 8] = some ⟨[16, 0, 0, 0, 7, 8], 6⟩ ∧
    sdsf_loader 9 ⟨[16, 0, 0, 0, 7, 8], 6⟩ [12, 0, 0, 0, 5] =
      some ⟨[12, 0, 0, 0, 5, 0, 0, 0, 7, 8], 10⟩ ∧
    ∃ st, sdsf_loader 9 ⟨[16, 0, 0, 0, 7, 8], 6⟩ [12, 0, 0, 0, 5] = some st ∧
      st.data.length = st.data_size ∧
      sdsfStart st.data = min (sdsfStart [16, 0, 0, 0, 7, 8]) (sdsfStart [12, 0, 0, 0, 5]) ∧
      st.data_size = 4 + (max (sdsfEnd [16, 0, 0, 0, 7, 8]) (sdsfEnd [12, 0, 0, 0, 5]) -
        min (sdsfStart [16, 0, 0, 0, 7, 8]) (sdsfStart [12, 0, 0, 0, 5])) ∧
      ∀ a, min (sdsfStart [16, 0, 0, 0, 7, 8]) (sdsfStart [12, 0, 0, 0, 5]) ≤ a →
        a < max (sdsfEnd [16, 0, 0, 0, 7, 8]) (sdsfEnd [12, 0, 0, 0, 5]) →
        sdsfByte st.data a =
          if sdsfStart [12, 0, 0, 0, 5] ≤ a ∧ a < sdsfEnd [12, 0, 0, 0, 5] then
            sdsfByte [12, 0, 0, 0, 5] a
          else if sdsfStart [16, 0, 0, 0, 7, 8] ≤ a ∧ a < sdsfEnd [16, 0, 0, 0, 7, 8] then
            sdsfByte [16, 0, 0, 0, 7, 8] a
          else 0 :=
  ⟨(sdsf_loader_merges 9 ⟨[16, 0, 0, 0, 7, 8], 6⟩ [1, 2, 3]).1 (by decide),
   (sdsf_loader_merges 9 ⟨[], 0⟩ [16, 0, 0, 0, 7, 8]).2.1 (by decide) (by decide),
   by decide,
   (sdsf_loader_merges 9 ⟨[16, 0, 0, 0, 7, 8], 6⟩ [12, 0, 0, 0, 5]).2.2 rfl (by decide)
     (by decide) (by decide) (by decide)⟩

end Fooyin.XSFInput

namespace Fooyin.XSFInput

theorem zeroFrom_fill {α : Type} (z : α) (pre xs : List α) :
    zeroFrom z (pre ++ xs) pre.length xs.length = pre ++ List.replicate xs.length z := by
  induction pre with
  | nil =>
    induction xs with
    | nil => simp [zeroFrom]
    | cons x xs ih =>
      simp only [List.nil_append, List.length_nil, List.length_cons, zeroFrom,
        List.replicate_succ] at ih ⊢
      rw [ih]
  | cons p ps ih =>
    simp only [List.cons_append, List.length_cons, zeroFrom]
    exact congrArg (List.cons p) ih

theorem realloc_grow (fill : Nat) (a : List Nat) (n : Nat) (h : a.length ≤ n) :
    realloc fill a n = a ++ List.replicate (n - a.length) fill := by
  unfold realloc
  apply List.take_of_length_le
  simp only [List.length_append, List.length_replicate]
  omega

theorem get_le32_lt (p : List Nat) : get_le32 p < 2 ^ 32 := by
  rw [get_le32_sum]
  omega

theorem get_le32_append (p q : List Nat) (h : p.length = 4) :
    get_le32 (p ++ q) = get_le32 p := by
  rw [get_le32_sum, get_le32_sum, List.getD_append _ _ _ _ (by omega),
    List.getD_append _ _ _ _ (by omega), List.getD_append _ _ _ _ (by omega),
    List.getD_append _ _ _ _ (by omega)]

theorem qsf_upload_array_spec (fill : Nat) (array : List Nat) (max_size start : Nat)
    (payload tail : List Nat) (hs : start < 2 ^ 32) (hp : payload.length < 2 ^ 32) :
    qsf_upload_array fill array max_size start (payload ++ tail) payload.length =
      if start + payload.length < 2 ^ 32 ∧ start + payload.length ≤ max_size then
        some (placeAt array start payload)
      else none := by
  unfold qsf_upload_array placeAt
  rw [List.take_left']
  swap
  · rfl
  by_cases hov : start + payload.length < 2 ^ 32
  · have h1 : ¬ (start + payload.length < start) := by omega
    rw [Nat.mod_eq_of_lt hov, if_neg h1]
    dsimp only
    by_cases hmax : start + payload.length ≤ max_size
    · have h2 : ¬ (start + payload.length > max_size) := by omega
      rw [if_neg h2, if_pos (And.intro hov hmax)]
      by_cases hgrow : start + payload.length > array.length
      · rw [if_pos hgrow, realloc_grow fill array _ (by omega)]
        have := zeroFrom_fill 0 array (List.replicate (start + payload.length - array.length) fill)
        rw [List.length_replicate] at this
        rw [this]
      · rw [if_neg hgrow]
        have e : start + payload.length - array.length = 0 := by omega
        rw [e]
        simp
    · have h2 : start + payload.length > max_size := by omega
      rw [if_pos h2, if_neg (fun h => hmax h.2)]
  · have h1 : (start + payload.length) % 2 ^ 32 < start := by omega
    rw [if_pos h1, if_neg (fun h => hov h.1)]

end Fooyin.XSFInput

namespace Fooyin.XSFInput

theorem QsfChunk.Valid.shaped {c : QsfChunk} (h : c.Valid) : c.Shaped := by
  obtain ⟨ht, ho, hl, hp, -, -⟩ := h
  refine ⟨?_, ho, hl, hp⟩
  rcases ht with h | h | h <;> rw [h] <;> rfl

theorem qsf_upload_section_valid (fill : Nat) (state : qsf_loader_state) (c : QsfChunk)
    (tail : List Nat) (h : c.Valid) :
    qsf_upload_section fill state c.tag c.offset (c.payload ++ tail) c.payload.length =
      some (c.apply state) := by
  obtain ⟨ht, ho, hl, hp, hov, hlim⟩ := h
  have hs : c.offset < 2 ^ 32 := get_le32_lt _
  have hpl : c.payload.length < 2 ^ 32 := by rw [hp]; exact get_le32_lt _
  unfold qsf_upload_section QsfChunk.apply
  unfold QsfChunk.limit at hlim
  rcases ht with h | h | h
  · rw [if_pos h, if_pos h, qsf_upload_array_spec fill _ _ _ _ _ hs hpl]
    rw [if_pos h] at hlim
    rw [if_pos ⟨hov, hlim⟩]
    rfl
  · have hk : c.tag ≠ [75, 69, 89] := by rw [h]; decide
    rw [if_neg hk, if_pos h, if_neg hk, if_pos h, qsf_upload_array_spec fill _ _ _ _ _ hs hpl]
    rw [if_neg hk] at hlim
    rw [if_pos ⟨hov, hlim⟩]
    rfl
  · have hk : c.tag ≠ [75, 69, 89] := by rw [h]; decide
    have hz : c.tag ≠ [90, 56, 48] := by rw [h]; decide
    rw [if_neg hk, if_neg hz, if_pos h, if_neg hk, if_neg hz,
      qsf_upload_array_spec fill _ _ _ _ _ hs hpl]
    rw [if_neg hk] at hlim
    rw [if_pos ⟨hov, hlim⟩]
    rfl

theorem qsf_upload_section_some (fill : Nat) (state st : qsf_loader_state) (c : QsfChunk)
    (tail : List Nat) (hc : c.Shaped)
    (h : qsf_upload_section fill state c.tag c.offset (c.payload ++ tail) c.payload.length =
      some st) : c.Valid := by
  obtain ⟨-, ho, hl, hp⟩ := hc
  have hs : c.offset < 2 ^ 32 := get_le32_lt _
  have hpl : c.payload.length < 2 ^ 32 := by rw [hp]; exact get_le32_lt _
  unfold qsf_upload_section at h
  unfold QsfChunk.Valid QsfChunk.limit
  by_cases h1 : c.tag = [75, 69, 89]
  · rw [if_pos h1, qsf_upload_array_spec fill _ _ _ _ _ hs hpl] at h
    by_cases hv : c.offset + c.payload.length < 2 ^ 32 ∧ c.offset + c.payload.length ≤ 11
    · rw [if_pos h1]
      exact ⟨Or.inl h1, ho, hl, hp, hv.1, hv.2⟩
    · rw [if_neg hv] at h
      simp at h
  · rw [if_neg h1] at h
    by_cases h2 : c.tag = [90, 56, 48]
    · rw [if_pos h2, qsf_upload_array_spec fill _ _ _ _ _ hs hpl] at h
      by_cases hv : c.offset + c.payload.length < 2 ^ 32 ∧
          c.offset + c.payload.length ≤ 0x7fffffff
      · rw [if_neg h1]
        exact ⟨Or.inr (Or.inl h2), ho, hl, hp, hv.1, hv.2⟩
      · rw [if_neg hv] at h
        simp at h
    · rw [if_neg h2] at h
      by_cases h3 : c.tag = [83, 77, 80]
      · rw [if_pos h3, qsf_upload_array_spec fill _ _ _ _ _ hs hpl] at h
        by_cases hv : c.offset + c.payload.length < 2 ^ 32 ∧
            c.offset + c.payload.length ≤ 0x7fffffff
        · rw [if_neg h1]
          exact ⟨Or.inr (Or.inr h3), ho, hl, hp, hv.1, hv.2⟩
        · rw [if_neg hv] at h
          simp at h
      · rw [if_neg h3] at h
        simp at h

theorem qsf_loop_step (fill fuel : Nat) (state : qsf_loader_state) (c : QsfChunk)
    (tail : List Nat) (hc : c.Shaped) :
    qsf_loop fill (fuel + 1) state (c.encode ++ tail) =
      (qsf_upload_section fill state c.tag c.offset (c.payload ++ tail) c.payload.length).bind
        (fun st => qsf_loop fill fuel st tail) := by
  obtain ⟨ht, ho, hl, hp⟩ := hc
  have hlen : ¬ ((c.encode ++ tail).length < 11) := by
    unfold QsfChunk.encode
    simp only [List.length_append, ht, ho, hl]
    omega
  have e0 : c.encode ++ tail = c.tag ++ (c.ofs ++ (c.len ++ (c.payload ++ tail))) := by
    unfold QsfChunk.encode
    simp only [List.append_assoc]
  conv_lhs => unfold qsf_loop
  rw [if_neg hlen, e0]
  dsimp only
  have e1 : (c.tag ++ (c.ofs ++ (c.len ++ (c.payload ++ tail)))).take 3 = c.tag :=
    List.take_left' ht
  have e2 : (c.tag ++ (c.ofs ++ (c.len ++ (c.payload ++ tail)))).drop 3 =
      c.ofs ++ (c.len ++ (c.payload ++ tail)) := List.drop_left' ht
  have e3 : (c.ofs ++ (c.len ++ (c.payload ++ tail))).drop 4 = c.len ++ (c.payload ++ tail) :=
    List.drop_left' ho
  have e4 : (c.len ++ (c.payload ++ tail)).drop 4 = c.payload ++ tail := List.drop_left' hl
  rw [e1, e2, e3, e4, get_le32_append _ _ ho, get_le32_append _ _ hl, ← hp]
  have hfit : ¬ (c.payload.length > (c.payload ++ tail).length) := by
    rw [List.length_append]
    omega
  rw [if_neg hfit, List.drop_left' rfl]
  unfold QsfChunk.offset
  cases qsf_upload_section fill state c.tag (get_le32 c.ofs) (c.payload ++ tail)
    c.payload.length <;> rfl

theorem qsf_loop_of_chunks (fill : Nat) :
    ∀ (chunks : List QsfChunk) (rest : List Nat) (state : qsf_loader_state) (fuel : Nat),
      chunks.length ≤ fuel → rest.length < 11 → (∀ c ∈ chunks, c.Valid) →
      qsf_loop fill fuel state (encodeChunks chunks ++ rest) =
        some (chunks.foldl QsfChunk.apply state) := by
  intro chunks
  induction chunks with
  | nil =>
    intro rest state fuel _ hr _
    cases fuel <;> simp [encodeChunks, qsf_loop, hr]
  | cons c cs ih =>
    intro rest state fuel hf hr hv
    cases fuel with
    | zero => simp at hf
    | succ fuel =>
      have hc := hv c (List.mem_cons_self _ _)
      rw [show encodeChunks (c :: cs) ++ rest = c.encode ++ (encodeChunks cs ++ rest) by
        simp [encodeChunks], qsf_loop_step fill fuel state c _ hc.shaped,
        qsf_upload_section_valid fill state c _ hc]
      simp only [Option.some_bind, List.foldl_cons]
      exact ih rest _ fuel (by simpa using hf) hr
        (fun x hx => hv x (List.mem_cons_of_mem _ hx))

theorem qsf_split (exe : List Nat) (h11 : 11 ≤ exe.length)
    (hd : get_le32 (exe.drop 7) ≤ (exe.drop 11).length) :
    (⟨exe.take 3, (exe.drop 3).take 4, (exe.drop 7).take 4,
        (exe.drop 11).take (get_le32 (exe.drop 7))⟩ : QsfChunk).Shaped ∧
    exe = (⟨exe.take 3, (exe.drop 3).take 4, (exe.drop 7).take 4,
        (exe.drop 11).take (get_le32 (exe.drop 7))⟩ : QsfChunk).encode ++
      exe.drop (11 + get_le32 (exe.drop 7)) := by
  have e7 : get_le32 ((exe.drop 7).take 4) = get_le32 (exe.drop 7) := by
    have h4 : ((exe.drop 7).take 4).length = 4 := by
      rw [List.length_take, List.length_drop]
      omega
    have := get_le32_append ((exe.drop 7).take 4) ((exe.drop 7).drop 4) h4
    rw [List.take_append_drop] at this
    exact this.symm
  refine ⟨⟨?_, ?_, ?_, ?_⟩, ?_⟩
  · show (exe.take 3).length = 3
    rw [List.length_take]
    omega
  · show ((exe.drop 3).take 4).length = 4
    rw [List.length_take, List.length_drop]
    omega
  · show ((exe.drop 7).take 4).length = 4
    rw [List.length_take, List.length_drop]
    omega
  · show ((exe.drop 11).take (get_le32 (exe.drop 7))).length = get_le32 ((exe.drop 7).take 4)
    rw [e7, List.length_take]
    omega
  · unfold QsfChunk.encode
    dsimp only
    have d1 : exe.drop 7 = (exe.drop 3).drop 4 := by rw [List.drop_drop]
    have d2 : exe.drop 11 = ((exe.drop 3).drop 4).drop 4 := by
      rw [List.drop_drop, List.drop_drop]
    have d3 : exe.drop (11 + get_le32 (exe.drop 7)) =
        (((exe.drop 3).drop 4).drop 4).drop (get_le32 (exe.drop 7)) := by
      rw [List.drop_drop, List.drop_drop, List.drop_drop]
      congr 1
      omega
    rw [d3, d2]
    generalize get_le32 (exe.drop 7) = d
    rw [d1]
    simp only [List.append_assoc, List.take_append_drop]

end Fooyin.XSFInput

namespace Fooyin.XSFInput

theorem qsf_chunks_of_loop (fill : Nat) :
    ∀ (fuel : Nat) (state : qsf_loader_state) (exe : List Nat) (st : qsf_loader_state),
      qsf_loop fill fuel state exe = some st →
      ∃ chunks rest, exe = encodeChunks chunks ++ rest ∧ rest.length < 11 ∧
        (∀ c ∈ chunks, c.Valid) ∧ st = chunks.foldl QsfChunk.apply state := by
  have hshort : ∀ (state : qsf_loader_state) (exe : List Nat) (st : qsf_loader_state),
      exe.length < 11 → some state = some st →
      ∃ chunks rest, exe = encodeChunks chunks ++ rest ∧ rest.length < 11 ∧
        (∀ c ∈ chunks, c.Valid) ∧ st = chunks.foldl QsfChunk.apply state := by
    intro state exe st h11 h
    simp only [Option.some.injEq] at h
    exact ⟨[], exe, rfl, h11, fun c hc => absurd hc (List.not_mem_nil c), h.symm⟩
  intro fuel
  induction fuel with
  | zero =>
    intro state exe st h
    unfold qsf_loop at h
    by_cases h11 : exe.length < 11
    · rw [if_pos h11] at h
      exact hshort state exe st h11 h
    · rw [if_neg h11] at h
      simp at h
  | succ fuel ih =>
    intro state exe st h
    by_cases h11 : exe.length < 11
    · unfold qsf_loop at h
      rw [if_pos h11] at h
      exact hshort state exe st h11 h
    · by_cases hd : get_le32 (exe.drop 7) ≤ (exe.drop 11).length
      · obtain ⟨c, tail, hshape, hexe⟩ : ∃ (c : QsfChunk) (tail : List Nat),
            c.Shaped ∧ exe = c.encode ++ tail :=
          ⟨_, _, qsf_split exe (by omega) hd⟩
        subst hexe
        rw [qsf_loop_step fill fuel state c tail hshape] at h
        cases hu : qsf_upload_section fill state c.tag c.offset (c.payload ++ tail)
            c.payload.length with
        | none =>
          rw [hu] at h
          simp at h
        | some st1 =>
          rw [hu] at h
          simp only [Option.some_bind] at h
          have hvalid := qsf_upload_section_some fill state st1 c tail hshape hu
          have happly : st1 = c.apply state := by
            rw [qsf_upload_section_valid fill state c tail hvalid] at hu
            simp only [Option.some.injEq] at hu
            exact hu.symm
          obtain ⟨chunks, rest, hexe, hrest, hall, hst⟩ := ih st1 tail st h
          refine ⟨c :: chunks, rest, ?_, hrest, ?_, ?_⟩
          · rw [hexe]
            simp [encodeChunks]
          · intro x hx
            rcases List.mem_cons.1 hx with hx | hx
            · rw [hx]
              exact hvalid
            · exact hall x hx
          · rw [List.foldl_cons, ← happly]
            exact hst
      · unfold qsf_loop at h
        rw [if_neg h11] at h
        dsimp only at h
        have d1 : (exe.drop 3).drop 4 = exe.drop 7 := by rw [List.drop_drop]
        have d2 : ((exe.drop 3).drop 4).drop 4 = exe.drop 11 := by
          rw [List.drop_drop, List.drop_drop]
        rw [d2, d1, if_pos (by omega)] at h
        simp at h

theorem encodeChunks_length (chunks : List QsfChunk) (h : ∀ c ∈ chunks, c.Valid) :
    chunks.length ≤ (encodeChunks chunks).length := by
  induction chunks with
  | nil => simp
  | cons c cs ih =>
    have hc := (h c (List.mem_cons_self _ _)).shaped
    obtain ⟨ht, -, -, -⟩ := hc
    have := ih (fun x hx => h x (List.mem_cons_of_mem _ hx))
    simp only [encodeChunks, QsfChunk.encode, List.length_append, List.length_cons, ht]
    omega

/-- C21 as stated fails on a ROM chunk that ends above 0x7fffffff: the chunk
`Z80`, offset 0x80000000, length 0 has a valid tag and its offset plus length
stays inside 32 bits, yet `qsf_load` returns -1 on it. -/
theorem qsf_load_rejects_high_offset :
    (⟨[90, 56, 48], [0, 0, 0, 128], [0, 0, 0, 0], []⟩ : QsfChunk).Shaped ∧
    (⟨[90, 56, 48], [0, 0, 0, 128], [0, 0, 0, 0], []⟩ : QsfChunk).offset +
      (⟨[90, 56, 48], [0, 0, 0, 128], [0, 0, 0, 0], []⟩ : QsfChunk).payload.length
      = 0x80000000 ∧
    (0x80000000 : Nat) < 2 ^ 32 ∧
    qsf_load 9 ⟨[], [], []⟩
      (⟨[90, 56, 48], [0, 0, 0, 128], [0, 0, 0, 0], []⟩ : QsfChunk).encode = none := by
  refine ⟨⟨by decide, by decide, by decide, by decide⟩, by decide, by decide, by decide⟩

/-- C21, as the code has it: `qsf_load` returns 0 exactly when its input is a
sequence of chunks (a tag among `KEY`, `Z80`, `SMP`, four offset bytes, four
length bytes, a payload of that length) followed by fewer than 11 bytes, with
offset plus length inside 32 bits and at most 11 for `KEY`, at most 0x7fffffff
for `Z80` and `SMP`; the state it leaves is the one obtained by handing the
chunks to their sections in order, each payload written at its offset over the
previous image, extended with zero bytes where it was shorter. In every other
case it returns -1. -/
theorem qsf_load_chunks (fill : Nat) (state : qsf_loader_state) (exe : List Nat)
    (st : qsf_loader_state) :
    qsf_load fill state exe = some st ↔
      ∃ chunks rest, exe = encodeChunks chunks ++ rest ∧ rest.length < 11 ∧
        (∀ c ∈ chunks, c.Valid) ∧ st = chunks.foldl QsfChunk.apply state := by
  constructor
  · exact qsf_chunks_of_loop fill exe.length state exe st
  · rintro ⟨chunks, rest, hexe, hrest, hall, hst⟩
    unfold qsf_load
    rw [hst, hexe]
    apply qsf_loop_of_chunks fill chunks rest state _ _ hrest hall
    rw [List.length_append]
    have := encodeChunks_length chunks hall
    omega

/-- The chunk theorem at a file of two chunks, `Z80` at offset 2 with the
payload `07 08 09` and `KEY` at offset 0 with the payload `05`, followed by two
stray bytes. -/
theorem qsf_load_chunks_witness :
    qsf_load 9 ⟨[], [], []⟩
        (encodeChunks [⟨[90, 56, 48], [2, 0, 0, 0], [3, 0, 0, 0], [7, 8, 9]⟩,
          ⟨[75, 69, 89], [0, 0, 0, 0], [1, 0, 0, 0], [5]⟩] ++ [1, 2]) =
      some ([⟨[90, 56, 48], [2, 0, 0, 0], [3, 0, 0, 0], [7, 8, 9]⟩,
          ⟨[75, 69, 89], [0, 0, 0, 0], [1, 0, 0, 0], [5]⟩].foldl QsfChunk.apply
        ⟨[], [], []⟩) ∧
    [⟨[90, 56, 48], [2, 0, 0, 0], [3, 0, 0, 0], [7, 8, 9]⟩,
        ⟨[75, 69, 89], [0, 0, 0, 0], [1, 0, 0, 0], [5]⟩].foldl QsfChunk.apply ⟨[], [], []⟩ =
      ⟨[5], [0, 0, 7, 8, 9], []⟩ :=
  ⟨(qsf_load_chunks 9 ⟨[], [], []⟩ _ _).2
      ⟨[⟨[90, 56, 48], [2, 0, 0, 0], [3, 0, 0, 0], [7, 8, 9]⟩,
          ⟨[75, 69, 89], [0, 0, 0, 0], [1, 0, 0, 0], [5]⟩], [1, 2], rfl, by decide,
        by
          intro c hc
          simp only [List.mem_cons, List.mem_singleton, List.not_mem_nil, or_false] at hc
          rcases hc with h | h <;> subst h <;>
            exact ⟨by decide, by decide, by decide, by decide, by decide, by decide⟩,
        rfl⟩,
    by decide⟩

end Fooyin.XSFInput
